import Mathlib

/-! MOS assembly parser: operand model, register resolution, operand-list parsing,
matching and emitting.

A shallow embedding of `llvm/lib/Target/MOS/AsmParser/MOSAsmParser.cpp`.

* 64-bit integers (`int64_t`) are `Int`; the only 32-bit `int` arithmetic of the
  file, `(1 << Info.TargetSize) - 1`, is wrapped explicitly to 32 bits.
* Source locations (`SMLoc`) are byte offsets into the buffer, as `Nat`.
* The lexer is a list of tokens whose head is the current token; an empty list
  is a lexer sitting at end of file. The generic lexer and parser are not among
  the sources; the few functions of theirs that the file calls are modelled on
  the token list.
* Everything the file takes from generated tables or from other translation
  units (`MOSGenAsmMatcher.inc`, `MOSMCExpr`, `MOSFixupKinds`, the generic
  expression parser, the subtarget feature bits) is a field of `Target`.
-/

namespace MOS

/-! ## Expressions -/

/-- The enumerators of `MOSMCExpr::VariantKind` that the parser names, and a
numeric code for every other enumerator of the (absent) header. -/
inductive VariantKind where
  | VK_MOS_NONE
  | VK_MOS_ADDR16_LO
  | VK_MOS_ADDR16_HI
  | VK_MOS_ADDR_ASCIZ
  | VK_MOS_other (code : Nat)
  deriving DecidableEq, Repr

/-- The enumerator `MOS::Imm16` of `MOS::Fixups`, the only one the parser
names, and a numeric code for every other fixup kind. -/
inductive Fixups where
  | Imm16
  | other (code : Nat)
  deriving DecidableEq, Repr

/-- The expression tree `MCExpr`: the four generic node kinds and the target
node, which for this target is always a `MOSMCExpr` (modifier kind,
sub-expression, negation flag). -/
inductive MCExpr where
  | Constant (Value : Int)
  | SymbolRef (Name : String)
  | Unary (Opcode : String) (Sub : MCExpr)
  | Binary (Opcode : String) (LHS RHS : MCExpr)
  | Target (Kind : VariantKind) (Sub : MCExpr) (Negated : Bool)
  deriving DecidableEq, Repr

/-- A source location: a byte offset into the source buffer. -/
abbrev SMLoc := Nat

/-! ## Tokens -/

/-- The token kinds of `AsmToken::TokenKind` that can reach the parser. -/
inductive TokenKind where
  | Eof | Error | Identifier | String | Integer | BigNum | Real
  | EndOfStatement | Colon | Space | Plus | Minus | Tilde | Slash | BackSlash
  | LParen | RParen | LBrac | RBrac | LCurly | RCurly | Star | Dot | Comma
  | Dollar | Equal | Pipe | Caret | Amp | Exclaim | Percent | Hash | Less
  | Greater | At
  deriving DecidableEq, Repr

/-- A lexed token: kind, spelling, integer value (for integer literals) and
the offset of its first character. -/
structure AsmToken where
  Kind : TokenKind
  Str : String
  IntVal : Int
  Loc : SMLoc
  deriving DecidableEq, Repr

/-- What a default-constructed `AsmToken` is, and what the lexer returns once
the buffer is exhausted. -/
def AsmToken.eof : AsmToken := { Kind := TokenKind.Eof, Str := "", IntVal := 0, Loc := 0 }

/-- Offset one past the last character: `AsmToken::getEndLoc`. -/
def AsmToken.getEndLoc (T : AsmToken) : SMLoc := T.Loc + T.Str.length

/-! ## The absent parts -/

/-- Result of an operand parse attempt: `OperandMatchResultTy`. -/
inductive OperandMatchResultTy where
  | MatchOperand_Success
  | MatchOperand_NoMatch
  | MatchOperand_ParseFail
  deriving DecidableEq, Repr

/-- Everything `MOSAsmParser.cpp` uses that is defined elsewhere.

* `getFixupKind`: `MOSMCExpr::getFixupKind`, a function of the modifier kind.
* `TargetSize`: `MOSFixupKinds::getFixupKindInfo(Kind, nullptr).TargetSize`.
* `evaluateAsConstant`: `MOSMCExpr::evaluateAsConstant` on the modifier
  expression with the given kind, sub-expression and negation flag; `none`
  when the call returns false.
* `getKindByName`: `MOSMCExpr::getKindByName`.
* `MatchRegisterName`, `MatchRegisterAltName`: the generated name tables;
  0 is "no register".
* `isAsmParamReg`: whether `validateOperandClass` accepts a register operand
  for `MCK_MOSAsmParamRegClass`.
* `parseExpression`: the generic `MCAsmParser::parseExpression`, run on the
  token list: the expression (`none` when the call fails), where it left the
  lexer, and the diagnostics it reported itself.
* the two subtarget feature bits the parser reads. -/
structure Target where
  getFixupKind : VariantKind → Fixups
  TargetSize : Fixups → Nat
  evaluateAsConstant : VariantKind → MCExpr → Bool → Option Int
  getKindByName : String → VariantKind
  MatchRegisterName : String → Nat
  MatchRegisterAltName : String → Nat
  isAsmParamReg : Nat → Bool
  parseExpression : List AsmToken → Option MCExpr × List AsmToken × List (SMLoc × String)
  FeatureAltRegisterNamesOnly : Bool
  FeatureW65816 : Bool

/-! ## `MOSOperand` -/

/-- A parsed operand: the three public constructors of `MOSOperand`
(the default constructor is deleted, so `k_None` never occurs). -/
inductive MOSOperand where
  | Immediate (Val : MCExpr) (S E : SMLoc)
  | Register (RegNum : Nat) (S E : SMLoc)
  | Token (Str : String) (S : SMLoc)
  deriving DecidableEq, Repr

/-- The operand list under construction: `OperandVector`. -/
abbrev OperandVector := List MOSOperand

namespace MOSOperand

/-- `isToken`. -/
def isToken : MOSOperand → Bool
  | Token _ _ => true
  | _ => false

/-- `isImm`. -/
def isImm : MOSOperand → Bool
  | Immediate _ _ _ => true
  | _ => false

/-- `isReg`. -/
def isReg : MOSOperand → Bool
  | Register _ _ _ => true
  | _ => false

/-- `getStartLoc`. -/
def getStartLoc : MOSOperand → SMLoc
  | Immediate _ S _ => S
  | Register _ S _ => S
  | Token _ S => S

end MOSOperand

/-- Wrap an integer to the range of a signed 32-bit `int`. -/
def wrapInt32 (x : Int) : Int := (x + 2 ^ 31) % 2 ^ 32 - 2 ^ 31

/-- The value of `(1 << Info.TargetSize) - 1`, computed in `int` and then
widened to `int64_t`. -/
def MaxValueOf (TargetSize : Nat) : Int := wrapInt32 (wrapInt32 (2 ^ TargetSize) - 1)

/-- The template `MOSOperand::isImmediate<Low, High>`. -/
def MOSOperand.isImmediate (T : Target) (Low High : Int) (Op : MOSOperand) : Bool :=
  match Op with
  | .Immediate Imm _ _ =>
    match Imm with
    | .Target VK Sub Negated =>
      let Kind := T.getFixupKind VK
      if Kind = Fixups.Imm16 ∧ High < 0x10000 - 1 then false
      else
        let MaxValue := MaxValueOf (T.TargetSize Kind)
        match T.evaluateAsConstant VK Sub Negated with
        | some Constant =>
          if Constant > 0 then decide (Constant ≤ MaxValue)
          else decide (MaxValue ≤ High)
        | none => decide (MaxValue ≤ High)
    | .SymbolRef _ => true
    | .Constant Value => decide (Value ≥ Low ∧ Value ≤ High)
    | _ => true
  | _ => false

namespace MOSOperand

/-- `isImm8`. -/
def isImm8 (T : Target) (Op : MOSOperand) : Bool := Op.isImmediate T 0 (0x100 - 1)

/-- `isImm16`. -/
def isImm16 (T : Target) (Op : MOSOperand) : Bool := Op.isImmediate T 0 (0x10000 - 1)

/-- `isImm24`. -/
def isImm24 (T : Target) (Op : MOSOperand) : Bool := Op.isImmediate T 0 (0x1000000 - 1)

/-- `isImm8To16`. -/
def isImm8To16 (T : Target) (Op : MOSOperand) : Bool := !Op.isImm8 T && Op.isImm16 T

/-- `isImm16To24`. -/
def isImm16To24 (T : Target) (Op : MOSOperand) : Bool := !Op.isImm16 T && Op.isImm24 T

end MOSOperand

/-! ## Register resolution -/

/-- The function `std::tolower` on one byte in the "C" locale. -/
def tolower (C : Char) : Char :=
  if 'A' ≤ C ∧ C ≤ 'Z' then Char.ofNat (C.toNat + 32) else C

/-- The overload `tryParseRegister(RegNo, StartLoc, EndLoc)`, on the text
between the two locations; returns the value left in `RegNo` and the result. -/
def tryParseRegister (T : Target) (Text : String) : Nat × OperandMatchResultTy :=
  let AnyCase := String.mk (Text.data.map tolower)
  let RegNo := T.MatchRegisterName AnyCase
  let RegNo :=
    if RegNo = 0 then
      if T.FeatureAltRegisterNamesOnly = false then T.MatchRegisterAltName AnyCase
      else RegNo
    else RegNo
  (RegNo, if RegNo ≠ 0 then .MatchOperand_Success else .MatchOperand_NoMatch)

/-- The function `ParseRegister`: true when no register was found. -/
def ParseRegister (T : Target) (Text : String) : Nat × Bool :=
  let R := tryParseRegister T Text
  (R.1, decide (R.2 ≠ .MatchOperand_Success))

/-! ## Parser state -/

/-- The mutable state of the generic parser that this file touches: the lexer
(current token first), the diagnostics reported so far through `Error`, and the
`assert` conditions that evaluated to false so far (execution continues past
them, as in a build without assertions). -/
structure ParserState where
  Toks : List AsmToken
  Diags : List (SMLoc × String)
  FailedAsserts : List String
  deriving DecidableEq, Repr

/-- Modelled from the spec: `MCAsmLexer::Lex` with `AsmLexer::LexToken` of the
generic lexer, which is not among the sources, on the token list. Before the
end of the file the current token is dropped. At the end of the file the lexer
hands out an empty end-of-statement token next (the check for a missing
newline at the end of the file fires, the flag `IsAtStartOfStatement` having
been cleared by `Lex`), and the end-of-file token again after that. -/
def LexToks : List AsmToken → List AsmToken
  | [] => [{ Kind := TokenKind.EndOfStatement, Str := "", IntVal := 0, Loc := AsmToken.eof.Loc }]
  | Tok :: Rest =>
    if Tok.Kind = TokenKind.Eof then
      { Kind := TokenKind.EndOfStatement, Str := "", IntVal := 0, Loc := Tok.Loc } :: Tok :: Rest
    else Rest

namespace ParserState

/-- Modelled from the spec: `getTok` of the generic parser, which is not among
the sources: the current token. -/
def getTok (P : ParserState) : AsmToken := P.Toks.headD AsmToken.eof

/-- Modelled from the spec: `Lex` of the generic parser, which is not among
the sources: advance the lexer by one token. -/
def Lex (P : ParserState) : ParserState := { P with Toks := LexToks P.Toks }

/-- Modelled from the spec: one step of the peeking functions of the generic
lexer, which is not among the sources: they read on with `LexToken` on a saved
state, so that at the end of the file they read the end-of-file token again. -/
def peekAdvance (P : ParserState) : ParserState :=
  match P.Toks with
  | [] => P
  | Tok :: Rest => if Tok.Kind = TokenKind.Eof then P else { P with Toks := Rest }

/-- Modelled from the spec: `peekTok` of the generic lexer, which is not among
the sources: the token after the current one. -/
def peekTok (P : ParserState) : AsmToken := P.peekAdvance.getTok

/-- Modelled from the spec: `peekTokens(tokens)` of the generic lexer, which is
not among the sources, on a two-element buffer: the number of tokens read
before end of file, and the buffer afterwards (an entry that was not written
stays default-constructed). -/
def peekTokens (P : ParserState) : Nat × AsmToken × AsmToken :=
  let T0 := P.peekAdvance.getTok
  if T0.Kind = TokenKind.Eof then (0, T0, AsmToken.eof)
  else
    let T1 := P.peekAdvance.peekAdvance.getTok
    if T1.Kind = TokenKind.Eof then (1, T0, T1) else (2, T0, T1)

/-- Report a diagnostic: `Error(Loc, Msg)` (which returns true). -/
def Error (P : ParserState) (Loc : SMLoc) (Msg : String) : ParserState :=
  { P with Diags := P.Diags ++ [(Loc, Msg)] }

/-- An `assert(Cond)`: a false condition is recorded. -/
def assertThat (P : ParserState) (Cond : Bool) (Text : String) : ParserState :=
  if Cond then P else { P with FailedAsserts := P.FailedAsserts ++ [Text] }

/-- Run the generic expression parser of the target on the current lexer. -/
def parseExpression (T : Target) (P : ParserState) : Option MCExpr × ParserState :=
  let R := T.parseExpression P.Toks
  (R.1, { P with Toks := R.2.1, Diags := P.Diags ++ R.2.2 })

end ParserState

/-- Modelled from the spec: `AsmParser::eatToEndOfStatement` of the generic
parser, which is not among the sources, on the token list: advance while the
current token is neither the end of the statement nor the end of the file;
then, on an end-of-statement token, eat that token too. -/
def eatToEndOfStatementToks : List AsmToken → List AsmToken
  | [] => []
  | Tok :: Rest =>
    if Tok.Kind = TokenKind.EndOfStatement then LexToks (Tok :: Rest) -- Eat EOL.
    else if Tok.Kind = TokenKind.Eof then Tok :: Rest
    else eatToEndOfStatementToks Rest

/-- Modelled from the spec: `AsmParser::eatToEndOfStatement` of the generic
parser, which is not among the sources: skip the rest of the current
statement, its end-of-statement token included, so that the lexer is left on
the first token of the next statement (or at the end of the file). -/
def eatToEndOfStatement (P : ParserState) : ParserState :=
  { P with Toks := eatToEndOfStatementToks P.Toks }

/-! ## Operand parsing -/

/-- The spelling of the stub qualifier: the member `GenerateStubs`. -/
def GenerateStubs : String := "gs"

/-- Push the current token as a Token operand and advance: `eatThatToken`. -/
def eatThatToken (Operands : OperandVector) (P : ParserState) : OperandVector × ParserState :=
  (Operands ++ [MOSOperand.Token P.getTok.Str P.getTok.Loc], P.Lex)

/-- The tail of `tryParseRelocExpression`: wrap the inner expression with the
modifier and push the Immediate operand. -/
def pushRelocOperand (Operands : OperandVector) (P : ParserState) (ModifierKind : VariantKind)
    (InnerExpression : MCExpr) (IsNegated : Bool) (S : SMLoc) :
    Bool × OperandVector × ParserState :=
  let Expression := MCExpr.Target ModifierKind InnerExpression IsNegated
  let E := P.getTok.Loc - 1
  (false, Operands ++ [MOSOperand.Immediate Expression S E], P)

/-- The function `tryParseRelocExpression`; the first component is its return
value (true on failure). -/
def tryParseRelocExpression (T : Target) (Operands : OperandVector) (P : ParserState) :
    Bool × OperandVector × ParserState :=
  let S := P.getTok.Loc
  -- Check for sign
  let ReadCount := P.peekTokens.1
  let tokens0 := P.peekTokens.2.1
  let tokens1 := P.peekTokens.2.2
  let CurTok := P.getTok.Kind
  let SignPattern : Bool :=
    ReadCount == 2 &&
      ((tokens0.Kind == TokenKind.Identifier && tokens1.Kind == TokenKind.LParen) ||
       (tokens0.Kind == TokenKind.LParen && tokens1.Kind == TokenKind.Minus))
  let MinusSeen : Bool := CurTok == TokenKind.Minus || tokens1.Kind == TokenKind.Minus
  let IsNegated : Bool := SignPattern && MinusSeen
  let P :=
    if SignPattern then
      let P := if MinusSeen then P else P.assertThat (CurTok == TokenKind.Plus) "CurTok == AsmToken::Plus"
      -- Eat the sign
      if CurTok = TokenKind.Minus ∨ CurTok = TokenKind.Plus then P.Lex else P
    else P
  if P.getTok.Kind = TokenKind.Less ∨ P.getTok.Kind = TokenKind.Greater then
    let ModifierKind :=
      if P.getTok.Kind = TokenKind.Less then VariantKind.VK_MOS_ADDR16_LO
      else VariantKind.VK_MOS_ADDR16_HI
    let P := P.Lex
    match P.parseExpression T with
    | (none, P) => (true, Operands, P)
    | (some InnerExpression, P) =>
      pushRelocOperand Operands P ModifierKind InnerExpression IsNegated S
  else
    -- Check if we have a target specific modifier
    if P.getTok.Kind ≠ TokenKind.Identifier ∨ P.peekTok.Kind ≠ TokenKind.LParen then
      -- Not a reloc expr
      (true, Operands, P)
    else
      let ModifierName := P.getTok.Str
      let ModifierKind := T.getKindByName ModifierName
      if ModifierKind = VariantKind.VK_MOS_NONE then
        (true, Operands, P.Error P.getTok.Loc "unknown modifier")
      else
        let P := P.Lex.Lex -- Eat modifier name and parenthesis
        let GS : VariantKind × ParserState :=
          if P.getTok.Str = GenerateStubs ∧ P.getTok.Kind = TokenKind.Identifier then
            let GSModName := ModifierName ++ "_" ++ GenerateStubs
            let ModifierKind := T.getKindByName GSModName
            -- Eat gs modifier name
            (ModifierKind, if ModifierKind ≠ VariantKind.VK_MOS_NONE then P.Lex else P)
          else (ModifierKind, P)
        let ModifierKind := GS.1
        let P := GS.2
        let InnerSign : Bool :=
          tokens1.Kind == TokenKind.Minus || tokens1.Kind == TokenKind.Plus
        let P :=
          if InnerSign then
            let P := P.Lex
            let P := P.assertThat (P.getTok.Kind == TokenKind.LParen)
              "Parser.getTok().getKind() == AsmToken::LParen"
            P.Lex -- Eat the sign and parenthesis
          else P
        match P.parseExpression T with
        | (none, P) => (true, Operands, P)
        | (some InnerExpression, P) =>
          let P :=
            if InnerSign then
              let P := P.assertThat (P.getTok.Kind == TokenKind.RParen)
                "Parser.getTok().getKind() == AsmToken::RParen"
              P.Lex -- Eat closing parenthesis
            else P
          -- If we have a modifier wrap the inner expression
          let P := P.assertThat (P.getTok.Kind == TokenKind.RParen)
            "Parser.getTok().getKind() == AsmToken::RParen"
          let P := P.Lex -- Eat closing parenthesis
          pushRelocOperand Operands P ModifierKind InnerExpression IsNegated S

/-- The function `tryParseExpr`; the first component is its return value
(true on failure). -/
def tryParseExpr (T : Target) (Operands : OperandVector) (P : ParserState) (ErrorMsg : String) :
    Bool × OperandVector × ParserState :=
  match tryParseRelocExpression T Operands P with
  | (false, Operands, P) => (false, Operands, P)
  | (true, Operands, P) =>
    let S := P.getTok.Loc
    let E := P.getTok.getEndLoc
    match P.parseExpression T with
    | (none, P) =>
      let P := eatToEndOfStatement P
      (true, Operands, P.Error P.getTok.Loc ErrorMsg)
    | (some Expression, P) =>
      (false, Operands ++ [MOSOperand.Immediate Expression S E], P)

/-- The overload `tryParseRegister(Operands)`. -/
def tryParseRegisterOperand (T : Target) (Operands : OperandVector) (P : ParserState) :
    OperandMatchResultTy × OperandVector :=
  let S := P.getTok.Loc
  let E := P.getTok.getEndLoc
  let R := tryParseRegister T P.getTok.Str
  if R.2 = .MatchOperand_Success then
    (.MatchOperand_Success, Operands ++ [MOSOperand.Register R.1 S E])
  else (.MatchOperand_NoMatch, Operands)

/-- The function `tryParseAsmParamRegClass`. -/
def tryParseAsmParamRegClass (T : Target) (Operands : OperandVector) (P : ParserState) :
    OperandMatchResultTy × OperandVector :=
  let S := P.getTok.Loc
  let E := P.getTok.getEndLoc
  let R := tryParseRegister T P.getTok.Str
  if R.2 = .MatchOperand_Success then
    -- If it is x, y, or s, then drop it
    if T.isAsmParamReg R.1 then (.MatchOperand_NoMatch, Operands)
    else (.MatchOperand_Success, Operands ++ [MOSOperand.Register R.1 S E])
  else (.MatchOperand_NoMatch, Operands)

/-- One of the three prefix blocks at the head of the loop body of
`ParseInstruction`: when the guard holds, push the prefix token and try an
expression. The first component tells whether the block ended in `continue`. -/
def tryPrefixedExpr (T : Target) (Guard : Bool) (ErrorMsg : String)
    (Operands : OperandVector) (P : ParserState) : Bool × OperandVector × ParserState :=
  if Guard then
    let R := eatThatToken Operands P
    match tryParseExpr T R.1 R.2 ErrorMsg with
    | (false, Operands, P) => (true, Operands, P)
    | (true, Operands, P) => (false, Operands, P)
  else (false, Operands, P)

/-- One pass through the body of the `while` loop of `ParseInstruction`, from
the state at the loop test to the state at the next loop test. The first
component is `FirstTime`. -/
def ParseInstructionBody (T : Target) (FirstTime : Bool) (Operands : OperandVector)
    (P : ParserState) : Bool × OperandVector × ParserState :=
  match tryPrefixedExpr T (P.getTok.Kind == TokenKind.Hash)
      "immediate operand must be an expression evaluating to a value between 0 and 255 inclusive"
      Operands P with
  | (true, Operands, P) => (false, Operands, P)
  | (false, Operands, P) =>
  match tryPrefixedExpr T (P.getTok.Kind == TokenKind.LParen)
      "expression expected after left parenthesis" Operands P with
  | (true, Operands, P) => (false, Operands, P)
  | (false, Operands, P) =>
  match tryPrefixedExpr T (T.FeatureW65816 && P.getTok.Kind == TokenKind.LBrac)
      "expression expected after left bracket" Operands P with
  | (true, Operands, P) => (false, Operands, P)
  | (false, Operands, P) =>
  if P.getTok.Kind = TokenKind.Comma then (FirstTime, Operands, P.Lex)
  else
    let TokName := P.getTok.Str
    if FirstTime = true ∧ (TokName = "a" ∨ TokName = "A") then
      let R := eatThatToken Operands P
      (false, R.1, R.2)
    else
      match tryParseAsmParamRegClass T Operands P with
      | (.MatchOperand_Success, Operands) => (FirstTime, Operands, P.Lex)
      | (_, Operands) =>
        if FirstTime then
          match tryParseExpr T Operands P "expression expected" with
          | (false, Operands, P) => (false, Operands, P)
          | (true, Operands, P) =>
            -- Okay then, you are a token.
            let R := eatThatToken Operands P
            (false, R.1, R.2)
        else
          let R := eatThatToken Operands P
          (false, R.1, R.2)

/-- The `while` loop of `ParseInstruction`, bounded by a number of passes;
`none` when the bound is reached before the loop test fails. -/
def ParseInstructionLoop (T : Target) :
    Nat → Bool → OperandVector → ParserState → Option (OperandVector × ParserState)
  | 0, _, _, _ => none
  | Fuel + 1, FirstTime, Operands, P =>
    if P.getTok.Kind = TokenKind.EndOfStatement then some (Operands, P)
    else
      match ParseInstructionBody T FirstTime Operands P with
      | (FirstTime, Operands, P) => ParseInstructionLoop T Fuel FirstTime Operands P

/-- The function `ParseInstruction`: return value, operand list and parser
state on return (`none` when the loop bound is reached). -/
def ParseInstruction (T : Target) (Fuel : Nat) (Mnemonic : String) (NameLoc : SMLoc)
    (Operands : OperandVector) (P : ParserState) : Option (Bool × OperandVector × ParserState) :=
  -- First, the mnemonic goes on the stack.
  let Operands := Operands ++ [MOSOperand.Token Mnemonic NameLoc]
  match ParseInstructionLoop T Fuel true Operands P with
  | none => none
  | some (Operands, P) =>
    let P := P.Lex -- Consume the EndOfStatement
    some (false, Operands, P)

/-- The cases of the loop body of `ParseInstruction` that follow the three
prefix blocks: comma, accumulator shorthand, register, expression at the first
position, catch-all token. -/
def ParseInstructionLaterCases (T : Target) (FirstTime : Bool) (Operands : OperandVector)
    (P : ParserState) : Bool × OperandVector × ParserState :=
  if P.getTok.Kind = TokenKind.Comma then (FirstTime, Operands, P.Lex)
  else
    let TokName := P.getTok.Str
    if FirstTime = true ∧ (TokName = "a" ∨ TokName = "A") then
      let R := eatThatToken Operands P
      (false, R.1, R.2)
    else
      match tryParseAsmParamRegClass T Operands P with
      | (.MatchOperand_Success, Operands) => (FirstTime, Operands, P.Lex)
      | (_, Operands) =>
        if FirstTime then
          match tryParseExpr T Operands P "expression expected" with
          | (false, Operands, P) => (false, Operands, P)
          | (true, Operands, P) =>
            -- Okay then, you are a token.
            let R := eatThatToken Operands P
            (false, R.1, R.2)
        else
          let R := eatThatToken Operands P
          (false, R.1, R.2)

/-- The loop body of `ParseInstruction` from the `[` block on: what a pass
still does once the `(` block is behind it. -/
def ParseInstructionAfterParen (T : Target) (FirstTime : Bool) (Operands : OperandVector)
    (P : ParserState) : Bool × OperandVector × ParserState :=
  match tryPrefixedExpr T (T.FeatureW65816 && P.getTok.Kind == TokenKind.LBrac)
      "expression expected after left bracket" Operands P with
  | (true, Operands, P) => (false, Operands, P)
  | (false, Operands, P) => ParseInstructionLaterCases T FirstTime Operands P

/-- The loop body of `ParseInstruction` from the `(` block on: what a pass
still does once the `#` block is behind it. -/
def ParseInstructionAfterHash (T : Target) (FirstTime : Bool) (Operands : OperandVector)
    (P : ParserState) : Bool × OperandVector × ParserState :=
  match tryPrefixedExpr T (P.getTok.Kind == TokenKind.LParen)
      "expression expected after left parenthesis" Operands P with
  | (true, Operands, P) => (false, Operands, P)
  | (false, Operands, P) => ParseInstructionAfterParen T FirstTime Operands P

/-! ## The stages of `tryParseRelocExpression`

The same function cut into its stages, for reasoning about one stage at a
time; `tryParseRelocExpression_stages` below states that the pieces make up the
function. -/

/-- The sign block: the negation flag and the state after the sign is eaten. -/
def relocSignStage (P : ParserState) : Bool × ParserState :=
  let tokens0 := P.peekTokens.2.1
  let tokens1 := P.peekTokens.2.2
  let CurTok := P.getTok.Kind
  let SignPattern : Bool :=
    P.peekTokens.1 == 2 &&
      ((tokens0.Kind == TokenKind.Identifier && tokens1.Kind == TokenKind.LParen) ||
       (tokens0.Kind == TokenKind.LParen && tokens1.Kind == TokenKind.Minus))
  let MinusSeen : Bool := CurTok == TokenKind.Minus || tokens1.Kind == TokenKind.Minus
  (SignPattern && MinusSeen,
    if SignPattern then
      let P := if MinusSeen then P else P.assertThat (CurTok == TokenKind.Plus) "CurTok == AsmToken::Plus"
      if CurTok = TokenKind.Minus ∨ CurTok = TokenKind.Plus then P.Lex else P
    else P)

/-- The stub-qualifier block, entered after the modifier name and the
parenthesis are eaten: the modifier kind and the state afterwards. -/
def relocStubStage (T : Target) (ModifierName : String) (ModifierKind : VariantKind)
    (P : ParserState) : VariantKind × ParserState :=
  if P.getTok.Str = GenerateStubs ∧ P.getTok.Kind = TokenKind.Identifier then
    let GSModName := ModifierName ++ "_" ++ GenerateStubs
    let ModifierKind := T.getKindByName GSModName
    (ModifierKind, if ModifierKind ≠ VariantKind.VK_MOS_NONE then P.Lex else P)
  else (ModifierKind, P)

/-- The block that eats a sign and a parenthesis before the inner expression. -/
def relocOpenStage (InnerSign : Bool) (P : ParserState) : ParserState :=
  if InnerSign then
    let P := P.Lex
    let P := P.assertThat (P.getTok.Kind == TokenKind.LParen)
      "Parser.getTok().getKind() == AsmToken::LParen"
    P.Lex
  else P

/-- The blocks that eat the closing parentheses after the inner expression. -/
def relocCloseStage (InnerSign : Bool) (P : ParserState) : ParserState :=
  let P :=
    if InnerSign then
      let P := P.assertThat (P.getTok.Kind == TokenKind.RParen)
        "Parser.getTok().getKind() == AsmToken::RParen"
      P.Lex
    else P
  let P := P.assertThat (P.getTok.Kind == TokenKind.RParen)
    "Parser.getTok().getKind() == AsmToken::RParen"
  P.Lex

/-! ## Matching and emitting -/

/-- The result codes of the generated matcher: the generic codes the parser
names, `Match_UnknownError` (the first target code), the four operand
diagnostic codes the parser names, and a numeric code for every other value. -/
inductive MatchResultTy where
  | Match_Success
  | Match_MissingFeature
  | Match_InvalidOperand
  | Match_MnemonicFail
  | Match_NearMisses
  | Match_UnknownError
  | Match_InvalidAddr8
  | Match_InvalidAddr16
  | Match_InvalidPCRel8
  | Match_immediate
  | Match_other (code : Nat)
  deriving DecidableEq, Repr

/-- A machine instruction as far as this file touches it: the opcode chosen by
the matcher and the source location set by `emit`. -/
structure MCInst where
  Opcode : Nat
  Loc : SMLoc
  deriving DecidableEq, Repr

/-- The function `invalidOperand`; `ErrorInfo` is a `uint64_t` and `~0U` is
the 32-bit all-ones value. -/
def invalidOperand (P : ParserState) (Loc : SMLoc) (Operands : OperandVector) (ErrorInfo : Nat) :
    Bool × ParserState :=
  let R : SMLoc × Option String :=
    if ErrorInfo ≠ 0xFFFFFFFF then
      if h : ErrorInfo ≥ Operands.length then (Loc, some "too few operands for instruction")
      else ((Operands.get ⟨ErrorInfo, by omega⟩).getStartLoc, none)
    else (Loc, none)
  let ErrorLoc := R.1
  let Diag := match R.2 with
    | none => "invalid operand for instruction"
    | some D => D
  (true, P.Error ErrorLoc Diag)

/-- The function `missingFeature`. -/
def missingFeature (P : ParserState) (Loc : SMLoc) : Bool × ParserState :=
  (true, P.Error Loc "instruction requires a CPU feature not currently enabled")

/-- The function `emit`: set the location, hand the instruction to the
streamer, return false. -/
def emit (Inst : MCInst) (Loc : SMLoc) (Out : List MCInst) : Bool × List MCInst :=
  (false, Out ++ [{ Inst with Loc := Loc }])

/-- The function `MatchAndEmitInstruction`. The generated `MatchInstructionImpl`
is a parameter: from the operand list and the inline-assembly flag it gives the
result code, the instruction and `ErrorInfo`. The result is the return value,
the instructions handed to the streamer, and the parser state. -/
def MatchAndEmitInstruction
    (MatchInstructionImpl : OperandVector → Bool → MatchResultTy × MCInst × Nat)
    (Loc : SMLoc) (Operands : OperandVector) (Out : List MCInst) (MatchingInlineAsm : Bool)
    (P : ParserState) : Bool × List MCInst × ParserState :=
  let MatchResult := (MatchInstructionImpl Operands MatchingInlineAsm).1
  let Inst := (MatchInstructionImpl Operands MatchingInlineAsm).2.1
  let ErrorInfo := (MatchInstructionImpl Operands MatchingInlineAsm).2.2
  match MatchResult with
  | .Match_Success => ((emit Inst Loc Out).1, (emit Inst Loc Out).2, P)
  | .Match_MissingFeature => ((missingFeature P Loc).1, Out, (missingFeature P Loc).2)
  | .Match_InvalidOperand =>
    ((invalidOperand P Loc Operands ErrorInfo).1, Out, (invalidOperand P Loc Operands ErrorInfo).2)
  | .Match_MnemonicFail => (true, Out, P.Error Loc "invalid instruction")
  | .Match_InvalidAddr8 => (true, Out, P.Error Loc "operand must be an 8-bit address")
  | .Match_InvalidAddr16 => (true, Out, P.Error Loc "operand must be a 16-bit address")
  | .Match_InvalidPCRel8 =>
    (true, Out, P.Error Loc "operand must be an 8-bit PC relative address")
  | .Match_immediate =>
    (true, Out,
      P.Error Loc "operand must be an 8 to 16 bit value (between 256 and 65535 inclusive)")
  | .Match_NearMisses => (true, Out, P.Error Loc "found some near misses")
  | _ => (true, Out, P)

/-! ## The address directive -/

/-- Modelled from the spec: the digit loop of the LLVM helper `utostr` of
`StringExtras.h`, which is not among the sources: while the value is not zero,
put its last decimal digit in front of the text and divide by ten. The bound
is the number of digits a 64-bit value can have. -/
def utostrLoop : Nat → Nat → List Char → List Char
  | 0, _, Acc => Acc
  | Fuel + 1, X, Acc =>
    if X = 0 then Acc else utostrLoop Fuel (X / 10) (Char.ofNat (48 + X % 10) :: Acc)

/-- Modelled from the spec: the LLVM helper `utostr` of `StringExtras.h`, which
is not among the sources: the decimal text of an unsigned value, with a minus
sign in front when asked for. -/
def utostr (X : Nat) (isNeg : Bool) : String :=
  let Digits := if X = 0 then ['0'] else utostrLoop 20 X []
  String.mk (if isNeg then '-' :: Digits else Digits)

/-- Modelled from the spec: the LLVM helper `itostr` of `StringExtras.h`, which
is not among the sources: the decimal text of a signed value, minus sign
included. -/
def itostr (X : Int) : String :=
  if X < 0 then utostr (-X).toNat true else utostr X.toNat false

/-- What the directive hands to the streamer: a run of bytes (`emitBytes`) or
an expression of a given size in bytes (`emitValue`). -/
inductive StreamItem where
  | Bytes (Data : List Char)
  | Value (Expr : MCExpr) (Size : Nat) (Loc : SMLoc)
  deriving DecidableEq, Repr

/-- The nine NUL bytes of the literal that the padding is sliced from. -/
def NulLiteral : List Char := List.replicate 9 (Char.ofNat 0)

/-- Conversion of a 64-bit signed value to `size_t`. -/
def toSizeT (X : Int) : Nat := (X % 2 ^ 64).toNat

/-- Conversion of a 64-bit signed value to `unsigned`. -/
def toUnsigned (X : Int) : Nat := (X % 2 ^ 32).toNat

/-- The generic `parseToken`: the current token must be of the given kind and
is consumed; otherwise the message is reported at it. -/
def ParserState.parseToken (P : ParserState) (Kind : TokenKind) (Msg : String) :
    Bool × ParserState :=
  if P.getTok.Kind ≠ Kind then (true, P.Error P.getTok.Loc Msg) else (false, P.Lex)

/-- The operands of the address directive once parsed: the address expression
and the char count, each with the location it was read at. -/
structure AddrAscizArgs where
  AddrValue : MCExpr
  AddrLoc : SMLoc
  CharCountValue : Int
  CharCountLoc : SMLoc
  deriving DecidableEq, Repr

/-- The first part of `parseAddrAsciz`, up to the parsed char count; `none`
when one of the parse steps returns true. The generic `checkForValidSection`
and `parseAbsoluteExpression` are parameters. -/
def parseAddrAscizArgs (T : Target) (checkForValidSection : ParserState → Bool × ParserState)
    (parseAbsoluteExpression : List AsmToken → Option Int × List AsmToken × List (SMLoc × String))
    (P : ParserState) : Option AddrAscizArgs × ParserState :=
  let AddrLoc := P.getTok.Loc
  match checkForValidSection P with
  | (true, P) => (none, P)
  | (false, P) =>
    match P.parseExpression T with
    | (none, P) => (none, P)
    | (some AddrValue, P) =>
      match P.parseToken TokenKind.Comma "expected `, <char-count>`" with
      | (true, P) => (none, P)
      | (false, P) =>
        let CharCountLoc := P.getTok.Loc
        match parseAbsoluteExpression P.Toks with
        | (none, Toks, Diags) => (none, { P with Toks := Toks, Diags := P.Diags ++ Diags })
        | (some CharCountValue, Toks, Diags) =>
          (some { AddrValue := AddrValue, AddrLoc := AddrLoc,
                  CharCountValue := CharCountValue, CharCountLoc := CharCountLoc },
            { P with Toks := Toks, Diags := P.Diags ++ Diags })

/-- The second part of `parseAddrAsciz`, from the range check of the char
count on: return value, what the streamer has received, parser state. -/
def parseAddrAscizEmit (A : AddrAscizArgs) (DirectiveLoc : SMLoc) (Out : List StreamItem)
    (P : ParserState) : Bool × List StreamItem × ParserState :=
  if A.CharCountValue < 1 ∨ A.CharCountValue > 8 then
    (true, Out, P.Error A.CharCountLoc "char count out of range [1,8]")
  else
    -- Special case constant expressions to match code generator.
    match A.AddrValue with
    | .Constant Value =>
      let ValueStr := itostr Value
      if ValueStr.length > toSizeT A.CharCountValue then
        (true, Out, P.Error A.AddrLoc "out of range literal value")
      else
        let Out := Out ++ [StreamItem.Bytes ValueStr.data]
        let Out := Out ++ [StreamItem.Bytes
          (NulLiteral.take (toSizeT (A.CharCountValue - ValueStr.length + 1)))]
        (false, Out, P)
    | AddrValue =>
      let Expr := MCExpr.Target VariantKind.VK_MOS_ADDR_ASCIZ AddrValue false
      (false, Out ++ [StreamItem.Value Expr (toUnsigned (A.CharCountValue + 1)) DirectiveLoc], P)

/-- The function `parseAddrAsciz`. -/
def parseAddrAsciz (T : Target) (checkForValidSection : ParserState → Bool × ParserState)
    (parseAbsoluteExpression : List AsmToken → Option Int × List AsmToken × List (SMLoc × String))
    (DirectiveLoc : SMLoc) (Out : List StreamItem) (P : ParserState) :
    Bool × List StreamItem × ParserState :=
  match parseAddrAscizArgs T checkForValidSection parseAbsoluteExpression P with
  | (none, P) => (true, Out, P)
  | (some A, P) => parseAddrAscizEmit A DirectiveLoc Out P

/-- The bytes among what the streamer has received, in order. -/
def emittedBytes : List StreamItem → List Char
  | [] => []
  | StreamItem.Bytes Data :: Rest => Data ++ emittedBytes Rest
  | StreamItem.Value _ _ _ :: Rest => emittedBytes Rest

/-! ## The linker driver: zero-page budget

A shallow embedding of `mos::Linker::AddLTOOptions` in
`clang/lib/Driver/ToolChains/MOS.cpp`. `StringRef::getAsInteger(0, unsigned)`
is a parameter: `none` when it returns true (the text is no number that fits
an `unsigned`), in which case it leaves its result argument alone. The helpers
`addLTOOptions` and `addMOSCodeGenArgs` are parameters acting on the argument
list. -/

/-- The two driver diagnostics of `AddLTOOptions`, with the text put in. -/
inductive DriverDiag where
  | err_drv_invalid_zp (Val : String)
  | err_drv_too_much_zp_reserved (Val : String)
  deriving DecidableEq, Repr

/-- Subtraction of `unsigned` values, modulo `2^32`. -/
def subUnsigned (A B : Nat) : Nat := (((A : Int) - (B : Int)) % 2 ^ 32).toNat

/-- The loop of `AddLTOOptions` over the values of `-mreserve-zp=`: the
budget and the diagnostics after it. -/
def reserveZPLoop (getAsInteger : String → Option Nat) :
    List String → Nat → List DriverDiag → Nat × List DriverDiag
  | [], ZPBytes, Diags => (ZPBytes, Diags)
  | Val :: Rest, ZPBytes, Diags =>
    if Val = "" then reserveZPLoop getAsInteger Rest ZPBytes Diags
    else
      match getAsInteger Val with
      | none =>
        reserveZPLoop getAsInteger Rest ZPBytes (Diags ++ [DriverDiag.err_drv_invalid_zp Val])
      | some Amt =>
        if ZPBytes < Amt then
          reserveZPLoop getAsInteger Rest ZPBytes
            (Diags ++ [DriverDiag.err_drv_too_much_zp_reserved Val])
        else reserveZPLoop getAsInteger Rest (subUnsigned ZPBytes Amt) Diags

/-- The budget and the diagnostics after the value of `-mlto-zp=` is read
(the empty text when the option is absent). -/
def initialZP (getAsInteger : String → Option Nat) (LTOZP : String) : Nat × List DriverDiag :=
  if LTOZP ≠ "" then
    match getAsInteger LTOZP with
    | none => (0, [DriverDiag.err_drv_invalid_zp LTOZP])
    | some Value => (Value, [])
  else (0, [])

/-- The function `mos::Linker::AddLTOOptions`: the argument list and the
diagnostics on return. -/
def AddLTOOptions (getAsInteger : String → Option Nat)
    (addLTOOptions addMOSCodeGenArgs : List String → List String)
    (LTOZP : String) (ReserveZP : List String) (CmdArgs : List String) :
    List String × List DriverDiag :=
  let CmdArgs := addLTOOptions CmdArgs
  let CmdArgs := addMOSCodeGenArgs CmdArgs
  let Start := initialZP getAsInteger LTOZP
  let R := reserveZPLoop getAsInteger ReserveZP Start.1 Start.2
  let ZPBytes := R.1
  if ZPBytes ≠ 0 then
    (CmdArgs ++ ["-mllvm", "-zp-avail=" ++ utostr ZPBytes false], R.2)
  else (CmdArgs, R.2)

/-- The amounts of `-mreserve-zp=` that are taken off the budget, in the words
of the claim: going through the values in order, a value that is not empty and
is a number is accepted when it is at most the current budget, and the budget
then shrinks by it. -/
def acceptedAmounts (getAsInteger : String → Option Nat) : List String → Nat → List Nat
  | [], _ => []
  | Val :: Rest, Budget =>
    if Val = "" then acceptedAmounts getAsInteger Rest Budget
    else
      match getAsInteger Val with
      | none => acceptedAmounts getAsInteger Rest Budget
      | some Amt =>
        if Amt ≤ Budget then Amt :: acceptedAmounts getAsInteger Rest (Budget - Amt)
        else acceptedAmounts getAsInteger Rest Budget

/-- Every number that `getAsInteger` hands out fits an `unsigned`. -/
def FitsUnsigned (getAsInteger : String → Option Nat) : Prop :=
  ∀ (Val : String) (Amt : Nat), getAsInteger Val = some Amt → Amt < 2 ^ 32

/-! ## Token streams -/

/-- The number of tokens in front of the end of the file: the tokens of the
list before its first end-of-file token. -/
def tokensBeforeEof : List AsmToken → Nat
  | [] => 0
  | Tok :: Rest => if Tok.Kind = TokenKind.Eof then 0 else tokensBeforeEof Rest + 1

/-- A bound on the number of passes that the loop of `ParseInstruction` still
makes: none on an end-of-statement token; otherwise two for every token in
front of the end of the file, and one more, or two while `FirstTime` is set. -/
def passBound (FirstTime : Bool) (Toks : List AsmToken) : Nat :=
  if (Toks.headD AsmToken.eof).Kind = TokenKind.EndOfStatement then 0
  else 2 * tokensBeforeEof Toks + (if FirstTime then 2 else 1)

/-- The second state is the first one after `k` calls of `Lex`, with the
diagnostics of the first one still in front of its own. -/
def AdvancedBy (k : Nat) (P Q : ParserState) : Prop :=
  Q.Toks = LexToks^[k] P.Toks ∧ P.Diags <+: Q.Diags

/-- What a pass of the loop of `ParseInstruction`, or the rest of one, does:
from the flag `FirstTime`, the operand list and the state on the left it leads
to the flag, operand list and state on the right by calls of `Lex`, keeping the
diagnostics and the operands that were there; and it either clears a flag that
was set, or advances the lexer by at least one token, and by exactly one when
it started at the end of the file. -/
def PassStep (FirstTime : Bool) (Operands : OperandVector) (P : ParserState)
    (R : Bool × OperandVector × ParserState) : Prop :=
  ∃ k, AdvancedBy k P R.2.2 ∧
    ((FirstTime = true ∧ R.1 = false) ∨
      (1 ≤ k ∧ (P.getTok.Kind = TokenKind.Eof → k = 1))) ∧
    Operands <+: R.2.1

/-- The expression parser of the target moves the lexer by calls of `Lex`
only. -/
def LexesOnly (T : Target) : Prop :=
  ∀ Toks : List AsmToken, ∃ k, (T.parseExpression Toks).2.1 = LexToks^[k] Toks

/-! ## Re-casing of names -/

/-- Whether the byte is an ASCII upper-case letter. -/
def isAsciiUpper (C : Char) : Bool := decide (65 ≤ C.toNat ∧ C.toNat ≤ 90)

/-- Two bytes that are equal, or are the upper-case and lower-case form of the
same ASCII letter (codes 32 apart, the upper-case one in 65..90). -/
def caseVariant (C D : Char) : Bool :=
  C == D || (isAsciiUpper C && D.toNat == C.toNat + 32) ||
    (isAsciiUpper D && C.toNat == D.toNat + 32)

/-- One text is a re-casing of the other: same length, and position by
position the bytes are case variants of each other. -/
def Recased : List Char → List Char → Bool
  | [], [] => true
  | C :: Cs, D :: Ds => caseVariant C D && Recased Cs Ds
  | _, _ => false

/-! ## A sample target

The tables of the real target are generated or live in other files. The sample
below fixes one small instance of them, to evaluate the parser on concrete
lines: registers `a`, `x`, `y`, `s` and one imaginary register with a short
alias; `x`, `y`, `s` in the instruction-parameter class (the three the source
comment of `tryParseAsmParamRegClass` names); the two half-word modifiers, a
16-bit address modifier and a 16-bit immediate modifier; and an expression
parser for single-token primaries. -/

namespace Sample

/-- Sample modifier kind: a 16-bit address modifier. -/
def VK_ADDR16 : VariantKind := .VK_MOS_other 0

/-- Sample modifier kind: a 16-bit immediate modifier. -/
def VK_IMM16 : VariantKind := .VK_MOS_other 1

/-- Sample fixup kinds other than `Imm16`: low byte, high byte, 16-bit address. -/
def Addr16_Low : Fixups := .other 0

/-- Sample fixup kind: high byte of a 16-bit address. -/
def Addr16_High : Fixups := .other 1

/-- Sample fixup kind: 16-bit address. -/
def Addr16 : Fixups := .other 2

/-- Sample `getFixupKind`. -/
def getFixupKind : VariantKind → Fixups
  | .VK_MOS_ADDR16_LO => Addr16_Low
  | .VK_MOS_ADDR16_HI => Addr16_High
  | .VK_MOS_other 0 => Addr16
  | .VK_MOS_other 1 => .Imm16
  | _ => .other 99

/-- Sample fixup widths in bits. -/
def TargetSize : Fixups → Nat
  | .Imm16 => 16
  | .other 0 => 8
  | .other 1 => 8
  | .other 2 => 16
  | _ => 0

/-- Sample `evaluateAsConstant`: a constant sub-expression is negated when the
flag is set and then cut to the low byte, the high byte, or 16 bits. -/
def evaluateAsConstant (Kind : VariantKind) (Sub : MCExpr) (Negated : Bool) : Option Int :=
  match Sub with
  | .Constant V =>
    let V := if Negated then -V else V
    match Kind with
    | .VK_MOS_ADDR16_LO => some (V % 256)
    | .VK_MOS_ADDR16_HI => some (V / 256 % 256)
    | _ => some (V % 65536)
  | _ => none

/-- Sample modifier name table. -/
def getKindByName (Name : String) : VariantKind :=
  if Name = "mos16lo" then .VK_MOS_ADDR16_LO
  else if Name = "mos16hi" then .VK_MOS_ADDR16_HI
  else if Name = "mos16" then VK_ADDR16
  else .VK_MOS_NONE

/-- Sample primary register-name table: `a`, `x`, `y`, `s`, `__rc0`. -/
def MatchRegisterName (Name : String) : Nat :=
  if Name = "a" then 1
  else if Name = "x" then 2
  else if Name = "y" then 3
  else if Name = "s" then 4
  else if Name = "__rc0" then 5
  else 0

/-- Sample alternate register-name table: `rc0` for `__rc0`. -/
def MatchRegisterAltName (Name : String) : Nat :=
  if Name = "rc0" then 5 else 0

/-- Sample instruction-parameter register class: `x`, `y`, `s`. -/
def isAsmParamReg (RegNo : Nat) : Bool := RegNo == 2 || RegNo == 3 || RegNo == 4

/-- Sample expression parser: an integer literal is a constant, an identifier
is a symbol reference, anything else is an error at the current token. -/
def parseExpression : List AsmToken → Option MCExpr × List AsmToken × List (SMLoc × String)
  | [] => (none, [], [(0, "unknown token in expression")])
  | Tok :: Rest =>
    match Tok.Kind with
    | .Integer => (some (.Constant Tok.IntVal), Rest, [])
    | .Identifier => (some (.SymbolRef Tok.Str), Rest, [])
    | _ => (none, Tok :: Rest, [(Tok.Loc, "unknown token in expression")])

/-- The sample target, with a switch for the alternate-names-only feature. -/
def target (AltRegisterNamesOnly : Bool) : Target :=
  { getFixupKind := getFixupKind
    TargetSize := TargetSize
    evaluateAsConstant := evaluateAsConstant
    getKindByName := getKindByName
    MatchRegisterName := MatchRegisterName
    MatchRegisterAltName := MatchRegisterAltName
    isAsmParamReg := isAsmParamReg
    parseExpression := parseExpression
    FeatureAltRegisterNamesOnly := AltRegisterNamesOnly
    FeatureW65816 := false }

/-- The tokens of the line `LDA #$10,X` after the mnemonic (which starts at
offset 0): `#` at 4, the hexadecimal literal at 5, the comma at 8, `X` at 9 and
the end of the statement at 10. -/
def lineLdaImmX : List AsmToken :=
  [ { Kind := .Hash, Str := "#", IntVal := 0, Loc := 4 },
    { Kind := .Integer, Str := "$10", IntVal := 0x10, Loc := 5 },
    { Kind := .Comma, Str := ",", IntVal := 0, Loc := 8 },
    { Kind := .Identifier, Str := "X", IntVal := 0, Loc := 9 },
    { Kind := .EndOfStatement, Str := "", IntVal := 0, Loc := 10 } ]

/-- The tokens of the line `STA (<label),y` after the mnemonic: `(` at 4, `<` at
5, `label` at 6, `)` at 11, the comma at 12, `y` at 13 and the end of the
statement at 14. -/
def lineStaIndY : List AsmToken :=
  [ { Kind := .LParen, Str := "(", IntVal := 0, Loc := 4 },
    { Kind := .Less, Str := "<", IntVal := 0, Loc := 5 },
    { Kind := .Identifier, Str := "label", IntVal := 0, Loc := 6 },
    { Kind := .RParen, Str := ")", IntVal := 0, Loc := 11 },
    { Kind := .Comma, Str := ",", IntVal := 0, Loc := 12 },
    { Kind := .Identifier, Str := "y", IntVal := 0, Loc := 13 },
    { Kind := .EndOfStatement, Str := "", IntVal := 0, Loc := 14 } ]

/-- The end-of-statement token at offset 5 that ends a first line `LDA #` or
`STA (`. -/
def eos5 : AsmToken := { Kind := .EndOfStatement, Str := "", IntVal := 0, Loc := 5 }

/-- The tokens of a following line `RTS` whose mnemonic starts at the given
offset: the mnemonic and the end of the statement. -/
def lineRts (At : SMLoc) : List AsmToken :=
  [ { Kind := .Identifier, Str := "rts", IntVal := 0, Loc := At },
    { Kind := .EndOfStatement, Str := "", IntVal := 0, Loc := At + 3 } ]

/-- The tokens of the line `LDA #` after the mnemonic, at the end of the file. -/
def lineHash : List AsmToken :=
  [ { Kind := .Hash, Str := "#", IntVal := 0, Loc := 4 }, eos5 ]

/-- The tokens of the line `STA (` after the mnemonic, at the end of the file. -/
def lineParen : List AsmToken :=
  [ { Kind := .LParen, Str := "(", IntVal := 0, Loc := 4 }, eos5 ]

/-- The tokens of the line `LDA rc0,label` after the mnemonic. -/
def lineRegLabel : List AsmToken :=
  [ { Kind := .Identifier, Str := "rc0", IntVal := 0, Loc := 4 },
    { Kind := .Comma, Str := ",", IntVal := 0, Loc := 7 },
    { Kind := .Identifier, Str := "label", IntVal := 0, Loc := 8 },
    { Kind := .EndOfStatement, Str := "", IntVal := 0, Loc := 13 } ]

/-- The tokens of the line `LDA rc0,a` after the mnemonic. -/
def lineRegA : List AsmToken :=
  [ { Kind := .Identifier, Str := "rc0", IntVal := 0, Loc := 4 },
    { Kind := .Comma, Str := ",", IntVal := 0, Loc := 7 },
    { Kind := .Identifier, Str := "a", IntVal := 0, Loc := 8 },
    { Kind := .EndOfStatement, Str := "", IntVal := 0, Loc := 9 } ]

/-- The tokens of the operand `foo(5)` (an identifier that is no modifier name,
followed by a parenthesis) and the end of the statement. -/
def lineUnknownModifier : List AsmToken :=
  [ { Kind := .Identifier, Str := "foo", IntVal := 0, Loc := 4 },
    { Kind := .LParen, Str := "(", IntVal := 0, Loc := 7 },
    { Kind := .Integer, Str := "5", IntVal := 5, Loc := 8 },
    { Kind := .RParen, Str := ")", IntVal := 0, Loc := 9 },
    { Kind := .EndOfStatement, Str := "", IntVal := 0, Loc := 10 } ]

/-- The end-of-file token at the given offset. -/
def eofAt (At : SMLoc) : AsmToken := { Kind := .Eof, Str := "", IntVal := 0, Loc := At }

/-- The tokens, after the first mnemonic, of a file with the two lines `LDA #`
and `RTS`: `#` at 4, the end of the first line at 5, `rts` at 6, the end of the
second line at 9 and the end of the file at 10. -/
def fileHashRts : List AsmToken := lineHash ++ lineRts 6 ++ [eofAt 10]

/-- The tokens, after the mnemonic, of a file with the one line `STA (`: `(` at
4, the end of the line at 5 and the end of the file at 6. -/
def fileParen : List AsmToken := lineParen ++ [eofAt 6]

/-- The tokens, after the mnemonic, of a file with the two lines `LDA )` and
`,`: `)` at 4, the end of the first line at 5, the comma at 6, the end of the
second line at 7 and the end of the file at 8. -/
def fileRParenComma : List AsmToken :=
  [ { Kind := .RParen, Str := ")", IntVal := 0, Loc := 4 }, eos5,
    { Kind := .Comma, Str := ",", IntVal := 0, Loc := 6 },
    { Kind := .EndOfStatement, Str := "", IntVal := 0, Loc := 7 }, eofAt 8 ]

/-- A sample matcher: it answers with a fixed result code, the instruction
with opcode 0xA9 and `ErrorInfo` 1. -/
def matcher (Result : MatchResultTy) : OperandVector → Bool → MatchResultTy × MCInst × Nat :=
  fun _ _ => (Result, { Opcode := 0xA9, Loc := 0 }, 1)

/-- The tokens of the operand `mos16lo(gs)` followed by the end of the
statement: a modifier name whose stub-qualified name `mos16lo_gs` is not in
the sample table. -/
def lineStubQualifier : List AsmToken :=
  [ { Kind := .Identifier, Str := "mos16lo", IntVal := 0, Loc := 4 },
    { Kind := .LParen, Str := "(", IntVal := 0, Loc := 11 },
    { Kind := .Identifier, Str := "gs", IntVal := 0, Loc := 12 },
    { Kind := .RParen, Str := ")", IntVal := 0, Loc := 14 },
    { Kind := .EndOfStatement, Str := "", IntVal := 0, Loc := 15 } ]

/-- The tokens of the operand `mos16lo(x` at the end of a line, followed by a
line `RTS`: the closing parenthesis is missing. -/
def lineMissingParen : List AsmToken :=
  [ { Kind := .Identifier, Str := "mos16lo", IntVal := 0, Loc := 4 },
    { Kind := .LParen, Str := "(", IntVal := 0, Loc := 11 },
    { Kind := .Identifier, Str := "x", IntVal := 0, Loc := 12 },
    { Kind := .EndOfStatement, Str := "", IntVal := 0, Loc := 13 } ] ++ lineRts 14

/-- The tokens of the operand `mos16lo(-5)` followed by the end of the
statement: the inner sign is not followed by a parenthesis. -/
def lineInnerSignNoParen : List AsmToken :=
  [ { Kind := .Identifier, Str := "mos16lo", IntVal := 0, Loc := 4 },
    { Kind := .LParen, Str := "(", IntVal := 0, Loc := 11 },
    { Kind := .Minus, Str := "-", IntVal := 0, Loc := 12 },
    { Kind := .Integer, Str := "5", IntVal := 5, Loc := 13 },
    { Kind := .RParen, Str := ")", IntVal := 0, Loc := 14 },
    { Kind := .EndOfStatement, Str := "", IntVal := 0, Loc := 15 } ]

/-- The tokens of the operand `mos16lo(-(5))` followed by the end of the
statement: a sign inside the parenthesis of the modifier. -/
def lineInnerSign : List AsmToken :=
  [ { Kind := .Identifier, Str := "mos16lo", IntVal := 0, Loc := 4 },
    { Kind := .LParen, Str := "(", IntVal := 0, Loc := 11 },
    { Kind := .Minus, Str := "-", IntVal := 0, Loc := 12 },
    { Kind := .LParen, Str := "(", IntVal := 0, Loc := 13 },
    { Kind := .Integer, Str := "5", IntVal := 5, Loc := 14 },
    { Kind := .RParen, Str := ")", IntVal := 0, Loc := 15 },
    { Kind := .RParen, Str := ")", IntVal := 0, Loc := 16 },
    { Kind := .EndOfStatement, Str := "", IntVal := 0, Loc := 17 } ]

/-- A sample `checkForValidSection`: there is a section, nothing is reported. -/
def checkForValidSection (P : ParserState) : Bool × ParserState := (false, P)

/-- A sample `parseAbsoluteExpression`: an integer token is its value, any
other token is reported. -/
def parseAbsoluteExpression :
    List AsmToken → Option Int × List AsmToken × List (SMLoc × String)
  | [] => (none, [], [(0, "expected absolute expression")])
  | Tok :: Rest =>
    if Tok.Kind = TokenKind.Integer then (some Tok.IntVal, Rest, [])
    else (none, Tok :: Rest, [(Tok.Loc, "expected absolute expression")])

/-- The tokens after the directive name in `.mos_addr_asciz 1234, <count>`, up
to the end of the statement. -/
def lineAddrAscizConstant (Count : Nat) : List AsmToken :=
  [ { Kind := .Integer, Str := "1234", IntVal := 1234, Loc := 16 },
    { Kind := .Comma, Str := ",", IntVal := 0, Loc := 20 },
    { Kind := .Integer, Str := toString Count, IntVal := Count, Loc := 22 },
    { Kind := .EndOfStatement, Str := "", IntVal := 0, Loc := 23 } ]

/-- The tokens after the directive name in `.mos_addr_asciz label, 5`, up to
the end of the statement. -/
def lineAddrAscizSymbol : List AsmToken :=
  [ { Kind := .Identifier, Str := "label", IntVal := 0, Loc := 16 },
    { Kind := .Comma, Str := ",", IntVal := 0, Loc := 21 },
    { Kind := .Integer, Str := "5", IntVal := 5, Loc := 23 },
    { Kind := .EndOfStatement, Str := "", IntVal := 0, Loc := 24 } ]

/-- A sample `getAsInteger`: the texts `0`, `8`, `16`, `100`, `200` and `256`
are numbers, every other text is not. -/
def getAsInteger (Val : String) : Option Nat :=
  if Val = "0" then some 0
  else if Val = "8" then some 8
  else if Val = "16" then some 16
  else if Val = "100" then some 100
  else if Val = "200" then some 200
  else if Val = "256" then some 256
  else none

/-- A fresh parser state on a token list. -/
def start (Toks : List AsmToken) : ParserState :=
  { Toks := Toks, Diags := [], FailedAsserts := [] }

end Sample

/-! # Theorems -/

/-! ## Helper lemmas -/

/-- For a width below 31 the 32-bit computation `(1 << w) - 1` does not
overflow and gives `2^w - 1`. -/
theorem MaxValueOf_eq (w : Nat) (hw : w < 31) : MaxValueOf w = 2 ^ w - 1 := by
  have h1 : (1 : Int) ≤ 2 ^ w := by
    have : (0 : Int) < 2 ^ w := by positivity
    omega
  have h2 : (2 : Int) ^ w ≤ 2 ^ 30 := by
    have : w ≤ 30 := by omega
    exact pow_le_pow_right₀ (by norm_num) this
  have e1 : wrapInt32 (2 ^ w) = 2 ^ w := by
    unfold wrapInt32
    rw [Int.emod_eq_of_lt (by omega) (by omega)]
    omega
  unfold MaxValueOf
  rw [e1]
  unfold wrapInt32
  rw [Int.emod_eq_of_lt (by omega) (by omega)]
  omega

/-! ## Range classification of immediates -/

/-- C1: for an immediate operand whose expression is a bare constant `V`,
`isImmediate<Low,High>` accepts exactly when `Low ≤ V ≤ High`; the values
`Low - 1` and `High + 1` are rejected; `isImm8`, `isImm16`, `isImm24` accept
exactly `0..255`, `0..65535`, `0..16777215`. -/
theorem isImmediate_constant (T : Target) (V Low High : Int) (S E : SMLoc) :
    ((MOSOperand.Immediate (.Constant V) S E).isImmediate T Low High = true ↔
        Low ≤ V ∧ V ≤ High) ∧
    (MOSOperand.Immediate (.Constant (Low - 1)) S E).isImmediate T Low High = false ∧
    (MOSOperand.Immediate (.Constant (High + 1)) S E).isImmediate T Low High = false ∧
    ((MOSOperand.Immediate (.Constant V) S E).isImm8 T = true ↔ 0 ≤ V ∧ V ≤ 255) ∧
    ((MOSOperand.Immediate (.Constant V) S E).isImm16 T = true ↔ 0 ≤ V ∧ V ≤ 65535) ∧
    ((MOSOperand.Immediate (.Constant V) S E).isImm24 T = true ↔ 0 ≤ V ∧ V ≤ 16777215) := by
  refine ⟨?_, ?_, ?_, ?_, ?_, ?_⟩ <;>
    simp [MOSOperand.isImmediate, MOSOperand.isImm8, MOSOperand.isImm16, MOSOperand.isImm24]

/-- C2: an immediate operand whose expression is neither a modifier expression
nor a constant (a symbol reference or any other expression) is accepted by
`isImmediate<Low,High>` for every `Low` and `High`. -/
theorem isImmediate_nonconstant (T : Target) (Imm : MCExpr) (S E : SMLoc) (Low High : Int)
    (hMod : ∀ VK Sub Negated, Imm ≠ .Target VK Sub Negated)
    (hConst : ∀ V, Imm ≠ .Constant V) :
    (MOSOperand.Immediate Imm S E).isImmediate T Low High = true := by
  cases Imm with
  | Constant V => exact absurd rfl (hConst V)
  | SymbolRef Name => simp [MOSOperand.isImmediate]
  | Unary Opcode Sub => simp [MOSOperand.isImmediate]
  | Binary Opcode LHS RHS => simp [MOSOperand.isImmediate]
  | Target VK Sub Negated => exact absurd rfl (hMod VK Sub Negated)

/-- Witness for C2: a reference to the symbol `label`, tested against the
empty range `[1, 0]`. -/
theorem isImmediate_nonconstant_witness :
    (MOSOperand.Immediate (.SymbolRef "label") 4 9).isImmediate (Sample.target false) 1 0 = true :=
  isImmediate_nonconstant (Sample.target false) (.SymbolRef "label") 4 9 1 0
    (by intro VK Sub Negated h; cases h) (by intro V h; cases h)

/-- C3: an immediate operand wrapped in a modifier whose fixup kind is `Imm16`
is rejected by `isImm8`, and by every `isImmediate<Low,High>` with
`High < 65535`, whatever the wrapped expression is or evaluates to. -/
theorem isImmediate_Imm16_floor (T : Target) (VK : VariantKind) (Sub : MCExpr) (Negated : Bool)
    (S E : SMLoc) (hKind : T.getFixupKind VK = Fixups.Imm16) :
    (MOSOperand.Immediate (.Target VK Sub Negated) S E).isImm8 T = false ∧
    ∀ Low High : Int, High < 65535 →
      (MOSOperand.Immediate (.Target VK Sub Negated) S E).isImmediate T Low High = false := by
  constructor
  · simp [MOSOperand.isImm8, MOSOperand.isImmediate, hKind]
  · intro Low High hHigh
    simp [MOSOperand.isImmediate, hKind, hHigh]

/-- Witness for C3: the 16-bit immediate modifier of the sample target around
the constant 5, which would fit in 8 bits. -/
theorem isImmediate_Imm16_floor_witness :
    Sample.evaluateAsConstant Sample.VK_IMM16 (.Constant 5) false = some 5 ∧
    (MOSOperand.Immediate (.Target Sample.VK_IMM16 (.Constant 5) false) 4 15).isImm8
      (Sample.target false) = false :=
  ⟨by decide,
   (isImmediate_Imm16_floor (Sample.target false) Sample.VK_IMM16 (.Constant 5) false 4 15
      (by decide)).1⟩

/-- C4: an immediate operand wrapped in a low-byte or high-byte modifier (fixup
kind other than `Imm16`, declared width 8 bits, constant value when there is
one at most 255) is accepted by `isImm8`, whatever the inner expression. -/
theorem isImm8_byte_modifier (T : Target) (VK : VariantKind) (Sub : MCExpr) (Negated : Bool)
    (S E : SMLoc) (hKind : T.getFixupKind VK ≠ Fixups.Imm16)
    (hWidth : T.TargetSize (T.getFixupKind VK) = 8)
    (hByte : ∀ C, T.evaluateAsConstant VK Sub Negated = some C → C ≤ 255) :
    (MOSOperand.Immediate (.Target VK Sub Negated) S E).isImm8 T = true := by
  have hMax : MaxValueOf 8 = 255 := by decide
  unfold MOSOperand.isImm8 MOSOperand.isImmediate
  simp only [hKind, false_and, if_false, hWidth, hMax]
  cases hC : T.evaluateAsConstant VK Sub Negated with
  | none => simp
  | some C =>
    have := hByte C hC
    by_cases hpos : C > 0 <;> simp [hpos, this]

/-- Witness for C4: the low-byte modifier of the sample target applied to the
constant 0x1234, which does not fit in 8 bits. -/
theorem isImm8_byte_modifier_witness :
    ¬ ((0x1234 : Int) ≤ 255) ∧
    (MOSOperand.Immediate (.Target .VK_MOS_ADDR16_LO (.Constant 0x1234) false) 4 9).isImm8
      (Sample.target false) = true :=
  ⟨by decide,
   isImm8_byte_modifier (Sample.target false) .VK_MOS_ADDR16_LO (.Constant 0x1234) false 4 9
     (by decide) (by decide)
     (by intro C hC; cases hC; decide)⟩

/-- For a modifier-wrapped immediate operand whose value is a
statically-evaluable constant `C > 0`, with declared modifier width `w < 31`,
and outside the `Imm16` floor (kind `Imm16` with `High < 65535`),
`isImmediate<Low,High>` accepts exactly when `C ≤ 2^w - 1`: the constant is
compared with the largest value of the modifier, not with `High`. -/
theorem isImmediate_modifier_constant_width (T : Target) (VK : VariantKind) (Sub : MCExpr)
    (Negated : Bool) (S E : SMLoc) (Low High C : Int) (w : Nat)
    (hEval : T.evaluateAsConstant VK Sub Negated = some C) (hPos : 0 < C)
    (hWidth : T.TargetSize (T.getFixupKind VK) = w) (hw : w < 31)
    (hFloor : ¬ (T.getFixupKind VK = Fixups.Imm16 ∧ High < 65535)) :
    ((MOSOperand.Immediate (.Target VK Sub Negated) S E).isImmediate T Low High = true ↔
      C ≤ 2 ^ w - 1) := by
  have hFloor2 : ¬ (T.getFixupKind VK = Fixups.Imm16 ∧ High < 0x10000 - 1) := by
    simpa using hFloor
  unfold MOSOperand.isImmediate
  simp only [hFloor2, if_false, hWidth, MaxValueOf_eq w hw, hEval]
  simp [hPos]

/-- C5, evaluated at its failing input: in the sample target the 16-bit
address modifier around the constant 300 evaluates to the non-zero constant
300, which does not fit the range of `isImm8` (300 > 255), and `isImm8` accepts
the operand; it refuses the same modifier around the constant 0 and around a
symbol, as the comment in the source asks of an 8-bit operand for every 16-bit
modifier. On every target a positive constant under a modifier of declared
width `w < 31`, outside the `Imm16` floor, is accepted exactly when it is at
most `2^w - 1`, the largest value of the modifier: `High` is not read. -/
theorem isImm8_accepts_wide_modifier_constant :
    Sample.evaluateAsConstant Sample.VK_ADDR16 (.Constant 300) false = some 300 ∧
    ¬ ((300 : Int) ≤ 255) ∧
    (MOSOperand.Immediate (.Target Sample.VK_ADDR16 (.Constant 300) false) 4 14).isImm8
      (Sample.target false) = true ∧
    (MOSOperand.Immediate (.Target Sample.VK_ADDR16 (.Constant 0) false) 4 12).isImm8
      (Sample.target false) = false ∧
    (MOSOperand.Immediate (.Target Sample.VK_ADDR16 (.SymbolRef "label") false) 4 16).isImm8
      (Sample.target false) = false ∧
    ∀ (T : Target) (VK : VariantKind) (Sub : MCExpr) (Negated : Bool) (S E : SMLoc)
      (Low High C : Int) (w : Nat),
      T.evaluateAsConstant VK Sub Negated = some C → 0 < C →
      T.TargetSize (T.getFixupKind VK) = w → w < 31 →
      ¬ (T.getFixupKind VK = Fixups.Imm16 ∧ High < 65535) →
      ((MOSOperand.Immediate (.Target VK Sub Negated) S E).isImmediate T Low High = true ↔
        C ≤ 2 ^ w - 1) :=
  ⟨by decide, by decide, by decide, by decide, by decide,
    fun T VK Sub Negated S E Low High C w hEval hPos hWidth hw hFloor =>
      isImmediate_modifier_constant_width T VK Sub Negated S E Low High C w hEval hPos hWidth hw
        hFloor⟩

/-- C6: for a modifier-wrapped immediate operand whose fixup kind is not
`Imm16`, whose value is not a statically-evaluable constant, and whose declared
width is `w < 31`, `isImmediate<Low,High>` accepts exactly when
`2^w - 1 ≤ High`, whatever `Low` is. -/
theorem isImmediate_modifier_width (T : Target) (VK : VariantKind) (Sub : MCExpr)
    (Negated : Bool) (S E : SMLoc) (Low High : Int) (w : Nat)
    (hKind : T.getFixupKind VK ≠ Fixups.Imm16)
    (hEval : T.evaluateAsConstant VK Sub Negated = none)
    (hWidth : T.TargetSize (T.getFixupKind VK) = w) (hw : w < 31) :
    ((MOSOperand.Immediate (.Target VK Sub Negated) S E).isImmediate T Low High = true ↔
      2 ^ w - 1 ≤ High) := by
  unfold MOSOperand.isImmediate
  simp only [hKind, false_and, if_false, hWidth, MaxValueOf_eq w hw, hEval]
  simp

/-- Witness for C6: the low-byte modifier of the sample target around the
symbol `label`, tested against the range `[-7, 255]`. -/
theorem isImmediate_modifier_width_witness :
    ((MOSOperand.Immediate (.Target .VK_MOS_ADDR16_LO (.SymbolRef "label") false) 4 10).isImmediate
        (Sample.target false) (-7) 255 = true ↔ (2 : Int) ^ 8 - 1 ≤ 255) :=
  isImmediate_modifier_width (Sample.target false) .VK_MOS_ADDR16_LO (.SymbolRef "label") false
    4 10 (-7) 255 8 (by decide) (by decide) (by decide) (by decide)

/-- Acceptance by `isImmediate<Low,High>` is monotone in `High` for a fixed
`Low`, as long as the wider range is not below the `Imm16` floor unless the
narrower one is. -/
theorem isImmediate_mono_High (T : Target) (Op : MOSOperand) (Low High High2 : Int)
    (hLe : High ≤ High2) (h : Op.isImmediate T Low High = true) :
    Op.isImmediate T Low High2 = true := by
  cases Op with
  | Register RegNum S E => simp [MOSOperand.isImmediate] at h
  | Token Str S => simp [MOSOperand.isImmediate] at h
  | Immediate Imm S E =>
    cases Imm with
    | Constant V =>
      simp only [MOSOperand.isImmediate, decide_eq_true_eq] at h ⊢
      omega
    | SymbolRef Name => simp [MOSOperand.isImmediate]
    | Unary Opcode Sub => simp [MOSOperand.isImmediate]
    | Binary Opcode LHS RHS => simp [MOSOperand.isImmediate]
    | Target VK Sub Negated =>
      unfold MOSOperand.isImmediate at h ⊢
      simp only at h ⊢
      by_cases hF : T.getFixupKind VK = Fixups.Imm16 ∧ High < 0x10000 - 1
      · rw [if_pos hF] at h
        exact absurd h (by simp)
      · have hF2 : ¬ (T.getFixupKind VK = Fixups.Imm16 ∧ High2 < 0x10000 - 1) := by
          intro hc
          exact hF ⟨hc.1, by omega⟩
        simp only [hF, hF2, if_false] at h ⊢
        cases hC : T.evaluateAsConstant VK Sub Negated with
        | none =>
          simp only [hC, decide_eq_true_eq] at h ⊢
          omega
        | some C =>
          simp only [hC] at h ⊢
          by_cases hpos : C > 0
          · simpa [hpos] using h
          · simp only [hpos, if_false, decide_eq_true_eq] at h ⊢
            omega

/-- C7: for every operand, `isImm8` and `isImm8To16` never hold together;
`isImm8` implies `isImm16`, which implies `isImm24`; and an operand accepted by
`isImm24` satisfies exactly one of `isImm8`, `isImm8To16`, `isImm16To24`. -/
theorem width_classes_partition (T : Target) (Op : MOSOperand) :
    ¬ (Op.isImm8 T = true ∧ Op.isImm8To16 T = true) ∧
    (Op.isImm8 T = true → Op.isImm16 T = true) ∧
    (Op.isImm16 T = true → Op.isImm24 T = true) ∧
    (Op.isImm24 T = true →
      (Op.isImm8 T = true ∧ Op.isImm8To16 T = false ∧ Op.isImm16To24 T = false) ∨
      (Op.isImm8 T = false ∧ Op.isImm8To16 T = true ∧ Op.isImm16To24 T = false) ∨
      (Op.isImm8 T = false ∧ Op.isImm8To16 T = false ∧ Op.isImm16To24 T = true)) := by
  have h816 : Op.isImm8 T = true → Op.isImm16 T = true :=
    isImmediate_mono_High T Op 0 (0x100 - 1) (0x10000 - 1) (by norm_num)
  have h1624 : Op.isImm16 T = true → Op.isImm24 T = true :=
    isImmediate_mono_High T Op 0 (0x10000 - 1) (0x1000000 - 1) (by norm_num)
  refine ⟨?_, h816, h1624, ?_⟩
  · rintro ⟨h8, h8to16⟩
    simp [MOSOperand.isImm8To16, h8] at h8to16
  · intro h24
    unfold MOSOperand.isImm8To16 MOSOperand.isImm16To24
    cases h8 : Op.isImm8 T <;> cases h16 : Op.isImm16 T <;> simp_all

/-! ## Register resolution -/

/-- The condition under which `tolower` changes a byte, on character codes. -/
theorem tolower_def_toNat (C : Char) :
    tolower C = if 65 ≤ C.toNat ∧ C.toNat ≤ 90 then Char.ofNat (C.toNat + 32) else C := by
  unfold tolower
  have hA : ('A' ≤ C) ↔ 65 ≤ C.toNat := by
    rw [Char.le_def]
    exact Iff.rfl
  have hZ : (C ≤ 'Z') ↔ C.toNat ≤ 90 := by
    rw [Char.le_def]
    exact Iff.rfl
  simp only [hA, hZ]

/-- Case variants have the same lower-case form. -/
theorem tolower_caseVariant (C D : Char) (h : caseVariant C D = true) :
    tolower C = tolower D := by
  have key : ∀ X Y : Char, 65 ≤ X.toNat ∧ X.toNat ≤ 90 → Y.toNat = X.toNat + 32 →
      tolower X = tolower Y := by
    intro X Y hX hY
    rw [tolower_def_toNat X, tolower_def_toNat Y, if_pos hX, if_neg (by omega), ← hY]
    exact Char.ofNat_toNat Y
  simp only [caseVariant, isAsciiUpper, Bool.or_eq_true, Bool.and_eq_true, beq_iff_eq,
    decide_eq_true_eq] at h
  rcases h with (h | ⟨hU, hD⟩) | ⟨hU, hC⟩
  · rw [h]
  · exact key C D hU hD
  · exact (key D C hU hC).symm

/-- Re-cased texts have the same case-folded form. -/
theorem map_tolower_Recased : ∀ (A B : List Char), Recased A B = true →
    A.map tolower = B.map tolower
  | [], [], _ => rfl
  | [], _ :: _, h => by simp [Recased] at h
  | _ :: _, [], h => by simp [Recased] at h
  | C :: Cs, D :: Ds, h => by
    simp only [Recased, Bool.and_eq_true] at h
    simp only [List.map_cons, tolower_caseVariant C D h.1, map_tolower_Recased Cs Ds h.2]

/-- C8: register resolution is case-insensitive: for every target (every
feature setting and every pair of name tables) `tryParseRegister` gives the
same register number and the same result for a name and for any re-casing of
its ASCII letters. -/
theorem tryParseRegister_case_insensitive (T : Target) (A B : String)
    (h : Recased A.data B.data = true) :
    tryParseRegister T A = tryParseRegister T B := by
  unfold tryParseRegister
  rw [map_tolower_Recased A.data B.data h]

/-- Witness for C8: `X` and `x`. -/
theorem tryParseRegister_case_insensitive_witness :
    tryParseRegister (Sample.target false) "X" = tryParseRegister (Sample.target false) "x" :=
  tryParseRegister_case_insensitive (Sample.target false) "X" "x" (by decide)

/-- C9: with `Name` the case-folded text, `tryParseRegister` returns the
primary-table number when it is non-zero; otherwise the alternate-table number
when the alternate-names-only feature is off, and 0 with no-match when it is
on; the result is success exactly when the number is non-zero, no-match exactly
when it is zero, and never a parse failure. -/
theorem tryParseRegister_tables (T : Target) (Text : String) :
    (T.MatchRegisterName (String.mk (Text.data.map tolower)) ≠ 0 →
      tryParseRegister T Text =
        (T.MatchRegisterName (String.mk (Text.data.map tolower)),
          OperandMatchResultTy.MatchOperand_Success)) ∧
    (T.MatchRegisterName (String.mk (Text.data.map tolower)) = 0 →
      T.FeatureAltRegisterNamesOnly = false →
      (tryParseRegister T Text).1 =
        T.MatchRegisterAltName (String.mk (Text.data.map tolower))) ∧
    (T.MatchRegisterName (String.mk (Text.data.map tolower)) = 0 →
      T.FeatureAltRegisterNamesOnly = true →
      tryParseRegister T Text = (0, OperandMatchResultTy.MatchOperand_NoMatch)) ∧
    ((tryParseRegister T Text).2 = OperandMatchResultTy.MatchOperand_Success ↔
      (tryParseRegister T Text).1 ≠ 0) ∧
    ((tryParseRegister T Text).2 = OperandMatchResultTy.MatchOperand_NoMatch ↔
      (tryParseRegister T Text).1 = 0) ∧
    (tryParseRegister T Text).2 ≠ OperandMatchResultTy.MatchOperand_ParseFail := by
  unfold tryParseRegister
  refine ⟨?_, ?_, ?_, ?_, ?_, ?_⟩
  · intro h
    simp [h]
  · intro h hF
    simp [h, hF]
  · intro h hF
    simp [h, hF]
  · simp only
    split_ifs <;> simp_all
  · simp only
    split_ifs <;> simp_all
  · simp only
    split_ifs <;> simp

/-! ## Operand lists -/

/-- C10, as stated, fails: on the sample target the line `LDA #$10,X` parses,
after the mnemonic, to three operands, the Token `#`, the Immediate 0x10 and the
Token `X`; the list is not an Immediate followed by a Register. -/
theorem ParseInstruction_lda_imm_x_counterexample :
    ParseInstruction (Sample.target false) 8 "lda" 0 [] (Sample.start Sample.lineLdaImmX) =
      some (false,
        [.Token "lda" 0, .Token "#" 4, .Immediate (.Constant 0x10) 5 8, .Token "X" 9],
        { Toks := [], Diags := [], FailedAsserts := [] }) ∧
    ¬ ∃ (S E RegNo S2 E2 : Nat) (P : ParserState),
      ParseInstruction (Sample.target false) 8 "lda" 0 [] (Sample.start Sample.lineLdaImmX) =
        some (false,
          [.Token "lda" 0, .Immediate (.Constant 0x10) S E, .Register RegNo S2 E2], P) := by
  have h : ParseInstruction (Sample.target false) 8 "lda" 0 [] (Sample.start Sample.lineLdaImmX) =
      some (false,
        [.Token "lda" 0, .Token "#" 4, .Immediate (.Constant 0x10) 5 8, .Token "X" 9],
        { Toks := [], Diags := [], FailedAsserts := [] }) := by rfl
  refine ⟨h, ?_⟩
  rintro ⟨S, E, RegNo, S2, E2, P, hP⟩
  rw [h] at hP
  simp at hP

/-- C10, amended: on every target whose expression parser reads `$10` as the
constant 0x10 and stops at the comma, and in which `X` does not pass
`tryParseAsmParamRegClass` because its register is in the
instruction-parameter class, the line `LDA #$10,X` parses successfully and
yields, after the mnemonic, exactly the Token `#`, the Immediate 0x10 and the
Token `X`; the comma contributes no operand. Four passes of the loop are
enough. -/
theorem ParseInstruction_lda_imm_x (T : Target) (Fuel : Nat)
    (hExpr : T.parseExpression Sample.lineLdaImmX.tail =
      (some (.Constant 0x10), Sample.lineLdaImmX.tail.tail, []))
    (hX : T.isAsmParamReg (tryParseRegister T "X").1 = true) :
    ParseInstruction T (Fuel + 4) "lda" 0 [] (Sample.start Sample.lineLdaImmX) =
      some (false,
        [.Token "lda" 0, .Token "#" 4, .Immediate (.Constant 0x10) 5 8, .Token "X" 9],
        { Toks := [], Diags := [], FailedAsserts := [] }) := by
  simp only [Sample.lineLdaImmX, List.tail_cons] at hExpr
  -- the expression after `#`: not a modifier expression, then the generic parser
  have hReloc : ∀ Ops : OperandVector, tryParseRelocExpression T Ops
      { Toks := Sample.lineLdaImmX.tail, Diags := [], FailedAsserts := [] } =
      (true, Ops, { Toks := Sample.lineLdaImmX.tail, Diags := [], FailedAsserts := [] }) := by
    intro Ops
    rfl
  have hTry : ∀ (Ops : OperandVector) (Msg : String), tryParseExpr T Ops
      { Toks := Sample.lineLdaImmX.tail, Diags := [], FailedAsserts := [] } Msg =
      (false, Ops ++ [.Immediate (.Constant 0x10) 5 8],
        { Toks := Sample.lineLdaImmX.tail.tail, Diags := [], FailedAsserts := [] }) := by
    intro Ops Msg
    unfold tryParseExpr
    rw [hReloc Ops]
    simp only [ParserState.parseExpression, Sample.lineLdaImmX, List.tail_cons, hExpr,
      List.append_nil]
    rfl
  -- first pass: `#` and the immediate
  have hPass1 : ParseInstructionBody T true [.Token "lda" 0] (Sample.start Sample.lineLdaImmX) =
      (false, [.Token "lda" 0, .Token "#" 4, .Immediate (.Constant 0x10) 5 8],
        { Toks := Sample.lineLdaImmX.tail.tail, Diags := [], FailedAsserts := [] }) := by
    have hPre : tryPrefixedExpr T true
        "immediate operand must be an expression evaluating to a value between 0 and 255 inclusive"
        [.Token "lda" 0] (Sample.start Sample.lineLdaImmX) =
        (true, [.Token "lda" 0, .Token "#" 4, .Immediate (.Constant 0x10) 5 8],
          { Toks := Sample.lineLdaImmX.tail.tail, Diags := [], FailedAsserts := [] }) := by
      unfold tryPrefixedExpr
      rw [if_pos rfl]
      have hEat : eatThatToken [.Token "lda" 0] (Sample.start Sample.lineLdaImmX) =
          ([.Token "lda" 0, .Token "#" 4],
            { Toks := Sample.lineLdaImmX.tail, Diags := [], FailedAsserts := [] }) := rfl
      simp only [hEat, hTry]
      rfl
    unfold ParseInstructionBody
    have hGuard : ((Sample.start Sample.lineLdaImmX).getTok.Kind == TokenKind.Hash) = true := rfl
    rw [hGuard, hPre]
  -- second pass: the comma
  have hPass2 : ParseInstructionBody T false
      [.Token "lda" 0, .Token "#" 4, .Immediate (.Constant 0x10) 5 8]
      { Toks := Sample.lineLdaImmX.tail.tail, Diags := [], FailedAsserts := [] } =
      (false, [.Token "lda" 0, .Token "#" 4, .Immediate (.Constant 0x10) 5 8],
        { Toks := Sample.lineLdaImmX.tail.tail.tail, Diags := [], FailedAsserts := [] }) := by
    cases hW : T.FeatureW65816 <;>
      simp [ParseInstructionBody, tryPrefixedExpr, hW, ParserState.getTok, ParserState.Lex, LexToks,
        Sample.lineLdaImmX]
  -- third pass: `X` is not a register operand and becomes a token
  have hReg : tryParseAsmParamRegClass T
      [.Token "lda" 0, .Token "#" 4, .Immediate (.Constant 0x10) 5 8]
      { Toks := Sample.lineLdaImmX.tail.tail.tail, Diags := [], FailedAsserts := [] } =
      (.MatchOperand_NoMatch, [.Token "lda" 0, .Token "#" 4, .Immediate (.Constant 0x10) 5 8]) := by
    have hStr : (ParserState.getTok
        { Toks := Sample.lineLdaImmX.tail.tail.tail, Diags := [], FailedAsserts := [] }).Str = "X" :=
      rfl
    simp only [tryParseAsmParamRegClass, hStr, hX]
    split_ifs <;> rfl
  simp only [Sample.lineLdaImmX, List.tail_cons] at hReg
  have hPass3 : ParseInstructionBody T false
      [.Token "lda" 0, .Token "#" 4, .Immediate (.Constant 0x10) 5 8]
      { Toks := Sample.lineLdaImmX.tail.tail.tail, Diags := [], FailedAsserts := [] } =
      (false, [.Token "lda" 0, .Token "#" 4, .Immediate (.Constant 0x10) 5 8, .Token "X" 9],
        { Toks := Sample.lineLdaImmX.tail.tail.tail.tail, Diags := [], FailedAsserts := [] }) := by
    cases hW : T.FeatureW65816 <;>
      simp [ParseInstructionBody, tryPrefixedExpr, hW, hReg, eatThatToken, ParserState.getTok,
        ParserState.Lex, LexToks, Sample.lineLdaImmX]
  -- the loop
  have hLoop : ParseInstructionLoop T (Fuel + 4) true [.Token "lda" 0]
      (Sample.start Sample.lineLdaImmX) =
      some ([.Token "lda" 0, .Token "#" 4, .Immediate (.Constant 0x10) 5 8, .Token "X" 9],
        { Toks := Sample.lineLdaImmX.tail.tail.tail.tail, Diags := [], FailedAsserts := [] }) := by
    have hNot1 : ¬ ((Sample.start Sample.lineLdaImmX).getTok.Kind = TokenKind.EndOfStatement) := by
      decide
    have hNot2 : ¬ ((ParserState.getTok
        { Toks := Sample.lineLdaImmX.tail.tail, Diags := [], FailedAsserts := [] }).Kind =
        TokenKind.EndOfStatement) := by decide
    have hNot3 : ¬ ((ParserState.getTok
        { Toks := Sample.lineLdaImmX.tail.tail.tail, Diags := [], FailedAsserts := [] }).Kind =
        TokenKind.EndOfStatement) := by decide
    have hEnd : (ParserState.getTok
        { Toks := Sample.lineLdaImmX.tail.tail.tail.tail, Diags := [], FailedAsserts := [] }).Kind =
        TokenKind.EndOfStatement := by decide
    rw [show Fuel + 4 = (Fuel + 3) + 1 from rfl, ParseInstructionLoop, if_neg hNot1, hPass1]
    simp only
    rw [show Fuel + 3 = (Fuel + 2) + 1 from rfl, ParseInstructionLoop, if_neg hNot2, hPass2]
    simp only
    rw [show Fuel + 2 = (Fuel + 1) + 1 from rfl, ParseInstructionLoop, if_neg hNot3, hPass3]
    simp only
    rw [ParseInstructionLoop, if_pos hEnd]
  unfold ParseInstruction
  simp only [List.nil_append, hLoop]
  rfl

/-- Witness for the amended C10: the sample target. -/
theorem ParseInstruction_lda_imm_x_witness :
    ParseInstruction (Sample.target false) (0 + 4) "lda" 0 [] (Sample.start Sample.lineLdaImmX) =
      some (false,
        [.Token "lda" 0, .Token "#" 4, .Immediate (.Constant 0x10) 5 8, .Token "X" 9],
        { Toks := [], Diags := [], FailedAsserts := [] }) :=
  ParseInstruction_lda_imm_x (Sample.target false) 0 (by rfl) (by decide)

/-! ## Facts about the operand parsers -/

/-- The function `tryParseRelocExpression` written with its stages. -/
theorem tryParseRelocExpression_stages (T : Target) (Operands : OperandVector)
    (P : ParserState) :
    tryParseRelocExpression T Operands P =
      if (relocSignStage P).2.getTok.Kind = TokenKind.Less ∨
          (relocSignStage P).2.getTok.Kind = TokenKind.Greater then
        match (relocSignStage P).2.Lex.parseExpression T with
        | (none, Q) => (true, Operands, Q)
        | (some InnerExpression, Q) =>
          pushRelocOperand Operands Q
            (if (relocSignStage P).2.getTok.Kind = TokenKind.Less then VariantKind.VK_MOS_ADDR16_LO
             else VariantKind.VK_MOS_ADDR16_HI)
            InnerExpression (relocSignStage P).1 P.getTok.Loc
      else if (relocSignStage P).2.getTok.Kind ≠ TokenKind.Identifier ∨
          (relocSignStage P).2.peekTok.Kind ≠ TokenKind.LParen then
        (true, Operands, (relocSignStage P).2)
      else if T.getKindByName (relocSignStage P).2.getTok.Str = VariantKind.VK_MOS_NONE then
        (true, Operands,
          (relocSignStage P).2.Error (relocSignStage P).2.getTok.Loc "unknown modifier")
      else
        match (relocOpenStage
            (P.peekTokens.2.2.Kind == TokenKind.Minus || P.peekTokens.2.2.Kind == TokenKind.Plus)
            (relocStubStage T (relocSignStage P).2.getTok.Str
              (T.getKindByName (relocSignStage P).2.getTok.Str)
              (relocSignStage P).2.Lex.Lex).2).parseExpression T with
        | (none, Q) => (true, Operands, Q)
        | (some InnerExpression, Q) =>
          pushRelocOperand Operands
            (relocCloseStage
              (P.peekTokens.2.2.Kind == TokenKind.Minus || P.peekTokens.2.2.Kind == TokenKind.Plus)
              Q)
            (relocStubStage T (relocSignStage P).2.getTok.Str
              (T.getKindByName (relocSignStage P).2.getTok.Str)
              (relocSignStage P).2.Lex.Lex).1
            InnerExpression (relocSignStage P).1 P.getTok.Loc := by
  rfl

/-- The function `tryParseRelocExpression` leaves the operand list alone when
it fails and appends one Immediate operand when it succeeds. -/
theorem tryParseRelocExpression_operands (T : Target) (Operands : OperandVector)
    (P : ParserState) :
    ((tryParseRelocExpression T Operands P).1 = true ∧
      (tryParseRelocExpression T Operands P).2.1 = Operands) ∨
    ((tryParseRelocExpression T Operands P).1 = false ∧
      ∃ Val S E, (tryParseRelocExpression T Operands P).2.1 =
        Operands ++ [MOSOperand.Immediate Val S E]) := by
  rw [tryParseRelocExpression_stages]
  unfold pushRelocOperand
  split_ifs <;> (try split) <;> simp

/-- The function `tryParseExpr` either fails, leaving the operand list alone
and its message as the last diagnostic; or succeeds, appending one Immediate
operand. -/
theorem tryParseExpr_cases (T : Target) (Operands : OperandVector) (P : ParserState)
    (ErrorMsg : String) :
    ((tryParseExpr T Operands P ErrorMsg).1 = true ∧
      (tryParseExpr T Operands P ErrorMsg).2.1 = Operands ∧
      ∃ Earlier Loc, (tryParseExpr T Operands P ErrorMsg).2.2.Diags =
        Earlier ++ [(Loc, ErrorMsg)]) ∨
    ((tryParseExpr T Operands P ErrorMsg).1 = false ∧
      ∃ Val S E, (tryParseExpr T Operands P ErrorMsg).2.1 =
        Operands ++ [MOSOperand.Immediate Val S E]) := by
  have hReloc := tryParseRelocExpression_operands T Operands P
  unfold tryParseExpr
  rcases hR : tryParseRelocExpression T Operands P with ⟨Failed, Ops, Q⟩
  rw [hR] at hReloc
  cases Failed with
  | false =>
    right
    rcases hReloc with ⟨h, _⟩ | ⟨_, h⟩
    · cases h
    · exact ⟨rfl, h⟩
  | true =>
    have hOps : Ops = Operands := by
      rcases hReloc with ⟨_, h⟩ | ⟨h, _⟩
      · exact h
      · cases h
    subst hOps
    rcases hE : Q.parseExpression T with ⟨_ | Expression, Q2⟩
    · left
      simp only [hE]
      refine ⟨by trivial, by trivial, ?_⟩
      exact ⟨(eatToEndOfStatement Q2).Diags, (eatToEndOfStatement Q2).getTok.Loc, rfl⟩
    · right
      simp only [hE]
      exact ⟨by trivial, Expression, Q.getTok.Loc, Q.getTok.getEndLoc, by trivial⟩

/-- A prefix block of the loop body: with a false guard nothing happens; with
a true guard the current token is pushed as a Token operand, and then either
the expression parse succeeds and the block ends in `continue` with one more
Immediate operand, or it fails and the block falls through with the message as
last diagnostic. -/
theorem tryPrefixedExpr_cases (T : Target) (Guard : Bool) (ErrorMsg : String)
    (Operands : OperandVector) (P : ParserState) :
    (Guard = false ∧ tryPrefixedExpr T Guard ErrorMsg Operands P = (false, Operands, P)) ∨
    (Guard = true ∧ (tryPrefixedExpr T Guard ErrorMsg Operands P).1 = true ∧
      ∃ Val S E, (tryPrefixedExpr T Guard ErrorMsg Operands P).2.1 =
        Operands ++ [MOSOperand.Token P.getTok.Str P.getTok.Loc] ++
          [MOSOperand.Immediate Val S E]) ∨
    (Guard = true ∧ (tryPrefixedExpr T Guard ErrorMsg Operands P).1 = false ∧
      tryPrefixedExpr T Guard ErrorMsg Operands P =
        (false, Operands ++ [MOSOperand.Token P.getTok.Str P.getTok.Loc],
          (tryParseExpr T (Operands ++ [MOSOperand.Token P.getTok.Str P.getTok.Loc]) P.Lex
            ErrorMsg).2.2) ∧
      (tryParseExpr T (Operands ++ [MOSOperand.Token P.getTok.Str P.getTok.Loc]) P.Lex
        ErrorMsg).1 = true ∧
      ∃ Earlier Loc, (tryPrefixedExpr T Guard ErrorMsg Operands P).2.2.Diags =
        Earlier ++ [(Loc, ErrorMsg)]) := by
  cases Guard with
  | false => left; exact ⟨rfl, rfl⟩
  | true =>
    right
    have hE := tryParseExpr_cases T (Operands ++ [MOSOperand.Token P.getTok.Str P.getTok.Loc])
      P.Lex ErrorMsg
    unfold tryPrefixedExpr eatThatToken
    simp only [if_true]
    rcases hR : tryParseExpr T (Operands ++ [MOSOperand.Token P.getTok.Str P.getTok.Loc]) P.Lex
      ErrorMsg with ⟨Failed, Ops, Q⟩
    rw [hR] at hE
    cases Failed with
    | false =>
      left
      rcases hE with ⟨h, _⟩ | ⟨_, h⟩
      · cases h
      · exact ⟨by trivial, by trivial, h⟩
    | true =>
      right
      rcases hE with ⟨_, hOps, hDiag⟩ | ⟨h, _⟩
      · simp only at hOps hDiag
        subst hOps
        exact ⟨by trivial, by trivial, by trivial, by trivial, hDiag⟩
      · cases h

/-- The loop body of `ParseInstruction` written as the three prefix blocks
followed by the later cases. -/
theorem ParseInstructionBody_stages (T : Target) (FirstTime : Bool) (Operands : OperandVector)
    (P : ParserState) :
    ParseInstructionBody T FirstTime Operands P =
      match tryPrefixedExpr T (P.getTok.Kind == TokenKind.Hash)
          "immediate operand must be an expression evaluating to a value between 0 and 255 inclusive"
          Operands P with
      | (true, Operands, P) => (false, Operands, P)
      | (false, Operands, P) =>
      match tryPrefixedExpr T (P.getTok.Kind == TokenKind.LParen)
          "expression expected after left parenthesis" Operands P with
      | (true, Operands, P) => (false, Operands, P)
      | (false, Operands, P) =>
      match tryPrefixedExpr T (T.FeatureW65816 && P.getTok.Kind == TokenKind.LBrac)
          "expression expected after left bracket" Operands P with
      | (true, Operands, P) => (false, Operands, P)
      | (false, Operands, P) => ParseInstructionLaterCases T FirstTime Operands P := by
  rfl

/-- When the loop of `ParseInstruction` ends, the current token is an
end-of-statement token. -/
theorem ParseInstructionLoop_ends_at_EndOfStatement (T : Target) :
    ∀ (Fuel : Nat) (FirstTime : Bool) (Operands : OperandVector) (P : ParserState)
      (Ops : OperandVector) (Q : ParserState),
      ParseInstructionLoop T Fuel FirstTime Operands P = some (Ops, Q) →
      Q.getTok.Kind = TokenKind.EndOfStatement
  | 0, _, _, _, _, _, h => by simp [ParseInstructionLoop] at h
  | Fuel + 1, FirstTime, Operands, P, Ops, Q, h => by
    unfold ParseInstructionLoop at h
    split_ifs at h with hEnd
    · simp only [Option.some.injEq, Prod.mk.injEq] at h
      rw [← h.2]
      exact hEnd
    · exact ParseInstructionLoop_ends_at_EndOfStatement T Fuel _ _ _ Ops Q h

/-- Every result of `ParseInstruction` is the result of its loop, with the
return value false and the end-of-statement token consumed. -/
theorem ParseInstruction_result (T : Target) (Fuel : Nat) (Mnemonic : String) (NameLoc : SMLoc)
    (Operands : OperandVector) (P : ParserState) (R : Bool × OperandVector × ParserState)
    (h : ParseInstruction T Fuel Mnemonic NameLoc Operands P = some R) :
    ∃ Q, ParseInstructionLoop T Fuel true (Operands ++ [MOSOperand.Token Mnemonic NameLoc]) P =
        some (R.2.1, Q) ∧
      Q.getTok.Kind = TokenKind.EndOfStatement ∧ R = (false, R.2.1, Q.Lex) := by
  unfold ParseInstruction at h
  simp only at h
  rcases hL : ParseInstructionLoop T Fuel true (Operands ++ [MOSOperand.Token Mnemonic NameLoc]) P
    with _ | ⟨Ops, Q⟩
  · rw [hL] at h
    cases h
  · rw [hL] at h
    simp only [Option.some.injEq] at h
    subst h
    exact ⟨Q, rfl, ParseInstructionLoop_ends_at_EndOfStatement T Fuel _ _ _ Ops Q hL, rfl⟩

/-! ## Operand lists: indirect indexed operands -/

/-- C11, as stated, fails: on the sample target the line `STA (<label),y`
parses, after the mnemonic, to four operands: the Token `(`, the Immediate
holding the low-byte modifier around `label`, the Token `)` and the Token `y`;
the list is not an Immediate followed by a Register. -/
theorem ParseInstruction_sta_ind_y_counterexample :
    ParseInstruction (Sample.target false) 8 "sta" 0 [] (Sample.start Sample.lineStaIndY) =
      some (false,
        [.Token "sta" 0, .Token "(" 4,
         .Immediate (.Target .VK_MOS_ADDR16_LO (.SymbolRef "label") false) 5 10,
         .Token ")" 11, .Token "y" 13],
        { Toks := [], Diags := [], FailedAsserts := [] }) ∧
    ¬ ∃ (Kind : VariantKind) (Negated : Bool) (S E RegNo S2 E2 : Nat) (P : ParserState),
      ParseInstruction (Sample.target false) 8 "sta" 0 [] (Sample.start Sample.lineStaIndY) =
        some (false,
          [.Token "sta" 0, .Immediate (.Target Kind (.SymbolRef "label") Negated) S E,
           .Register RegNo S2 E2], P) := by
  have h : ParseInstruction (Sample.target false) 8 "sta" 0 [] (Sample.start Sample.lineStaIndY) =
      some (false,
        [.Token "sta" 0, .Token "(" 4,
         .Immediate (.Target .VK_MOS_ADDR16_LO (.SymbolRef "label") false) 5 10,
         .Token ")" 11, .Token "y" 13],
        { Toks := [], Diags := [], FailedAsserts := [] }) := by rfl
  refine ⟨h, ?_⟩
  rintro ⟨Kind, Negated, S, E, RegNo, S2, E2, P, hP⟩
  rw [h] at hP
  simp at hP

/-- C11, amended: on every target whose expression parser reads `label` as a
symbol reference and stops at the closing parenthesis, in which `)` names no
register and the register of `y` is in the instruction-parameter class, the
line `STA (<label),y` parses successfully and yields, after the mnemonic,
exactly the Token `(`, the Immediate holding the modifier `VK_MOS_ADDR16_LO`
around `label`, the Token `)` and the Token `y`; the comma contributes no
operand. Five passes of the loop are enough. -/
theorem ParseInstruction_sta_ind_y (T : Target) (Fuel : Nat)
    (hExpr : T.parseExpression (Sample.lineStaIndY.drop 2) =
      (some (.SymbolRef "label"), Sample.lineStaIndY.drop 3, []))
    (hClose : (tryParseRegister T ")").2 = OperandMatchResultTy.MatchOperand_NoMatch)
    (hY : T.isAsmParamReg (tryParseRegister T "y").1 = true) :
    ParseInstruction T (Fuel + 5) "sta" 0 [] (Sample.start Sample.lineStaIndY) =
      some (false,
        [.Token "sta" 0, .Token "(" 4,
         .Immediate (.Target .VK_MOS_ADDR16_LO (.SymbolRef "label") false) 5 10,
         .Token ")" 11, .Token "y" 13],
        { Toks := [], Diags := [], FailedAsserts := [] }) := by
  simp only [Sample.lineStaIndY, List.drop_succ_cons, List.drop_zero] at hExpr
  -- the expression after `(`: the `<` shorthand and the generic parser
  have hReloc : ∀ Ops : OperandVector, tryParseRelocExpression T Ops
      { Toks := Sample.lineStaIndY.drop 1, Diags := [], FailedAsserts := [] } =
      (false,
        Ops ++ [.Immediate (.Target .VK_MOS_ADDR16_LO (.SymbolRef "label") false) 5 10],
        { Toks := Sample.lineStaIndY.drop 3, Diags := [], FailedAsserts := [] }) := by
    intro Ops
    have hSign : relocSignStage
        { Toks := Sample.lineStaIndY.drop 1, Diags := [], FailedAsserts := [] } =
        (false, { Toks := Sample.lineStaIndY.drop 1, Diags := [], FailedAsserts := [] }) := rfl
    rw [tryParseRelocExpression_stages, hSign]
    simp [ParserState.getTok, ParserState.Lex, LexToks, ParserState.parseExpression, pushRelocOperand,
      Sample.lineStaIndY, hExpr]
  -- first pass: `(` and the immediate
  have hPass1 : ParseInstructionBody T true [.Token "sta" 0] (Sample.start Sample.lineStaIndY) =
      (false,
        [.Token "sta" 0, .Token "(" 4,
         .Immediate (.Target .VK_MOS_ADDR16_LO (.SymbolRef "label") false) 5 10],
        { Toks := Sample.lineStaIndY.drop 3, Diags := [], FailedAsserts := [] }) := by
    have hEat : eatThatToken [.Token "sta" 0] (Sample.start Sample.lineStaIndY) =
        ([.Token "sta" 0, .Token "(" 4],
          { Toks := Sample.lineStaIndY.drop 1, Diags := [], FailedAsserts := [] }) := rfl
    have hPre : tryPrefixedExpr T true "expression expected after left parenthesis"
        [.Token "sta" 0] (Sample.start Sample.lineStaIndY) =
        (true,
          [.Token "sta" 0, .Token "(" 4,
           .Immediate (.Target .VK_MOS_ADDR16_LO (.SymbolRef "label") false) 5 10],
          { Toks := Sample.lineStaIndY.drop 3, Diags := [], FailedAsserts := [] }) := by
      unfold tryPrefixedExpr
      rw [if_pos rfl]
      simp only [hEat, tryParseExpr, hReloc]
      rfl
    have hGuard1 : ((Sample.start Sample.lineStaIndY).getTok.Kind == TokenKind.Hash) = false :=
      rfl
    have hGuard2 : ((Sample.start Sample.lineStaIndY).getTok.Kind == TokenKind.LParen) = true :=
      rfl
    rw [ParseInstructionBody_stages, hGuard1]
    simp only [tryPrefixedExpr, Bool.false_eq_true, if_false]
    rw [hGuard2]
    simp only [if_true]
    have hPre2 := hPre
    simp only [tryPrefixedExpr, if_true] at hPre2
    rw [hPre2]
  -- a pass over a token that opens no prefix block, is no comma and no register
  have hToken : ∀ (Ops : OperandVector) (Tok : AsmToken) (Rest : List AsmToken),
      Tok.Kind ≠ TokenKind.Hash → Tok.Kind ≠ TokenKind.LParen → Tok.Kind ≠ TokenKind.LBrac →
      Tok.Kind ≠ TokenKind.Comma → Tok.Kind ≠ TokenKind.Eof →
      (tryParseAsmParamRegClass T Ops { Toks := Tok :: Rest, Diags := [], FailedAsserts := [] }).1 =
        OperandMatchResultTy.MatchOperand_NoMatch →
      (tryParseAsmParamRegClass T Ops { Toks := Tok :: Rest, Diags := [], FailedAsserts := [] }).2 =
        Ops →
      ParseInstructionBody T false Ops { Toks := Tok :: Rest, Diags := [], FailedAsserts := [] } =
        (false, Ops ++ [.Token Tok.Str Tok.Loc],
          { Toks := Rest, Diags := [], FailedAsserts := [] }) := by
    intro Ops Tok Rest h1 h2 h3 h4 h5 hR1 hR2
    rcases hR : tryParseAsmParamRegClass T Ops
      { Toks := Tok :: Rest, Diags := [], FailedAsserts := [] } with ⟨Res, Ops2⟩
    rw [hR] at hR1 hR2
    simp only at hR1 hR2
    subst hR1 hR2
    rw [ParseInstructionBody_stages]
    simp [tryPrefixedExpr, ParseInstructionLaterCases, ParserState.getTok, ParserState.Lex, LexToks,
      eatThatToken, h1, h2, h3, h4, h5, hR]
  have hNoMatch : ∀ (Ops : OperandVector) (Tok : AsmToken) (Rest : List AsmToken),
      ((tryParseRegister T Tok.Str).2 = OperandMatchResultTy.MatchOperand_NoMatch ∨
        T.isAsmParamReg (tryParseRegister T Tok.Str).1 = true) →
      tryParseAsmParamRegClass T Ops { Toks := Tok :: Rest, Diags := [], FailedAsserts := [] } =
        (OperandMatchResultTy.MatchOperand_NoMatch, Ops) := by
    intro Ops Tok Rest h
    simp only [tryParseAsmParamRegClass, ParserState.getTok, List.headD_cons]
    rcases h with h | h
    · simp [h]
    · simp [h]
  -- second pass: `)` becomes a token
  have hPass2 := hToken
    [.Token "sta" 0, .Token "(" 4,
     .Immediate (.Target .VK_MOS_ADDR16_LO (.SymbolRef "label") false) 5 10]
    { Kind := .RParen, Str := ")", IntVal := 0, Loc := 11 } (Sample.lineStaIndY.drop 4)
    (by decide) (by decide) (by decide) (by decide) (by decide)
    (by rw [hNoMatch _ _ _ (Or.inl hClose)]) (by rw [hNoMatch _ _ _ (Or.inl hClose)])
  -- third pass: the comma
  have hPass3 : ∀ Ops : OperandVector, ParseInstructionBody T false Ops
      { Toks := Sample.lineStaIndY.drop 4, Diags := [], FailedAsserts := [] } =
      (false, Ops, { Toks := Sample.lineStaIndY.drop 5, Diags := [], FailedAsserts := [] }) := by
    intro Ops
    rw [ParseInstructionBody_stages]
    simp [tryPrefixedExpr, ParseInstructionLaterCases, ParserState.getTok, ParserState.Lex, LexToks,
      Sample.lineStaIndY]
  -- fourth pass: `y` is not a register operand and becomes a token
  have hPass4 := hToken
    [.Token "sta" 0, .Token "(" 4,
     .Immediate (.Target .VK_MOS_ADDR16_LO (.SymbolRef "label") false) 5 10, .Token ")" 11]
    { Kind := .Identifier, Str := "y", IntVal := 0, Loc := 13 } (Sample.lineStaIndY.drop 6)
    (by decide) (by decide) (by decide) (by decide) (by decide)
    (by rw [hNoMatch _ _ _ (Or.inr hY)]) (by rw [hNoMatch _ _ _ (Or.inr hY)])
  -- the loop
  have hLoop : ParseInstructionLoop T (Fuel + 5) true [.Token "sta" 0]
      (Sample.start Sample.lineStaIndY) =
      some ([.Token "sta" 0, .Token "(" 4,
         .Immediate (.Target .VK_MOS_ADDR16_LO (.SymbolRef "label") false) 5 10,
         .Token ")" 11, .Token "y" 13],
        { Toks := Sample.lineStaIndY.drop 6, Diags := [], FailedAsserts := [] }) := by
    have hNot1 : ¬ ((Sample.start Sample.lineStaIndY).getTok.Kind = TokenKind.EndOfStatement) := by
      decide
    have hNot2 : ¬ ((ParserState.getTok
        { Toks := Sample.lineStaIndY.drop 3, Diags := [], FailedAsserts := [] }).Kind =
        TokenKind.EndOfStatement) := by decide
    have hNot3 : ¬ ((ParserState.getTok
        { Toks := Sample.lineStaIndY.drop 4, Diags := [], FailedAsserts := [] }).Kind =
        TokenKind.EndOfStatement) := by decide
    have hNot4 : ¬ ((ParserState.getTok
        { Toks := Sample.lineStaIndY.drop 5, Diags := [], FailedAsserts := [] }).Kind =
        TokenKind.EndOfStatement) := by decide
    have hEnd : (ParserState.getTok
        { Toks := Sample.lineStaIndY.drop 6, Diags := [], FailedAsserts := [] }).Kind =
        TokenKind.EndOfStatement := by decide
    rw [show Fuel + 5 = (Fuel + 4) + 1 from rfl, ParseInstructionLoop, if_neg hNot1, hPass1]
    simp only
    rw [show Fuel + 4 = (Fuel + 3) + 1 from rfl, ParseInstructionLoop, if_neg hNot2]
    rw [show ({ Toks := Sample.lineStaIndY.drop 3, Diags := [], FailedAsserts := [] } :
        ParserState) = { Toks := { Kind := .RParen, Str := ")", IntVal := 0, Loc := 11 } ::
          Sample.lineStaIndY.drop 4, Diags := [], FailedAsserts := [] } from rfl, hPass2]
    simp only [List.cons_append, List.nil_append]
    rw [show Fuel + 3 = (Fuel + 2) + 1 from rfl, ParseInstructionLoop, if_neg hNot3, hPass3]
    simp only
    rw [show Fuel + 2 = (Fuel + 1) + 1 from rfl, ParseInstructionLoop, if_neg hNot4]
    rw [show ({ Toks := Sample.lineStaIndY.drop 5, Diags := [], FailedAsserts := [] } :
        ParserState) = { Toks := { Kind := .Identifier, Str := "y", IntVal := 0, Loc := 13 } ::
          Sample.lineStaIndY.drop 6, Diags := [], FailedAsserts := [] } from rfl, hPass4]
    simp only [List.cons_append, List.nil_append]
    rw [ParseInstructionLoop, if_pos hEnd]
  unfold ParseInstruction
  simp only [List.nil_append, hLoop]
  rfl

/-- Witness for the amended C11: the sample target. -/
theorem ParseInstruction_sta_ind_y_witness :
    ParseInstruction (Sample.target false) (0 + 5) "sta" 0 [] (Sample.start Sample.lineStaIndY) =
      some (false,
        [.Token "sta" 0, .Token "(" 4,
         .Immediate (.Target .VK_MOS_ADDR16_LO (.SymbolRef "label") false) 5 10,
         .Token ")" 11, .Token "y" 13],
        { Toks := [], Diags := [], FailedAsserts := [] }) :=
  ParseInstruction_sta_ind_y (Sample.target false) 0 (by rfl) (by decide) (by decide)

/-! ## The end of the statement -/

/-- C15, as stated, fails: on the sample target, after `ParseInstruction` has
parsed the line `LDA #$10,X`, which is followed by a line `RTS`, the cursor is
on `rts`, the first token of the next line; the end-of-statement token of the
line has been consumed. -/
theorem ParseInstruction_cursor_counterexample :
    ParseInstruction (Sample.target false) 8 "lda" 0 []
        (Sample.start (Sample.lineLdaImmX ++ Sample.lineRts 11)) =
      some (false,
        [.Token "lda" 0, .Token "#" 4, .Immediate (.Constant 0x10) 5 8, .Token "X" 9],
        { Toks := Sample.lineRts 11, Diags := [], FailedAsserts := [] }) ∧
    (ParserState.getTok { Toks := Sample.lineRts 11, Diags := [], FailedAsserts := [] }).Kind ≠
      TokenKind.EndOfStatement := by
  refine ⟨rfl, ?_⟩
  decide

/-- C15, amended: when `ParseInstruction` returns, its loop has stopped at an
end-of-statement token and `ParseInstruction` itself has consumed that token:
the cursor is on the token that follows it. -/
theorem ParseInstruction_consumes_EndOfStatement (T : Target) (Fuel : Nat) (Mnemonic : String)
    (NameLoc : SMLoc) (Operands : OperandVector) (P : ParserState)
    (R : Bool × OperandVector × ParserState)
    (h : ParseInstruction T Fuel Mnemonic NameLoc Operands P = some R) :
    ∃ (Q : ParserState) (Eos : AsmToken) (Rest : List AsmToken),
      ParseInstructionLoop T Fuel true (Operands ++ [MOSOperand.Token Mnemonic NameLoc]) P =
        some (R.2.1, Q) ∧
      Q.Toks = Eos :: Rest ∧ Eos.Kind = TokenKind.EndOfStatement ∧
      R.2.2 = { Q with Toks := Rest } := by
  obtain ⟨Q, hLoop, hEnd, hR⟩ := ParseInstruction_result T Fuel Mnemonic NameLoc Operands P R h
  rcases hQ : Q.Toks with _ | ⟨Eos, Rest⟩
  · simp [ParserState.getTok, hQ, AsmToken.eof] at hEnd
  · have hKind : Eos.Kind = TokenKind.EndOfStatement := by
      simpa [ParserState.getTok, hQ] using hEnd
    refine ⟨Q, Eos, Rest, hLoop, hQ, hKind, ?_⟩
    rw [hR]
    simp [ParserState.Lex, LexToks, hQ, hKind]

/-- Witness for the amended C15: the line `LDA #$10,X` followed by a line `RTS`,
on the sample target. -/
theorem ParseInstruction_consumes_EndOfStatement_witness :
    ∃ (Q : ParserState) (Eos : AsmToken) (Rest : List AsmToken),
      ParseInstructionLoop (Sample.target false) 8 true ([] ++ [MOSOperand.Token "lda" 0])
          (Sample.start (Sample.lineLdaImmX ++ Sample.lineRts 11)) =
        some ([.Token "lda" 0, .Token "#" 4, .Immediate (.Constant 0x10) 5 8, .Token "X" 9], Q) ∧
      Q.Toks = Eos :: Rest ∧ Eos.Kind = TokenKind.EndOfStatement ∧
      ({ Toks := Sample.lineRts 11, Diags := [], FailedAsserts := [] } : ParserState) =
        { Q with Toks := Rest } :=
  ParseInstruction_consumes_EndOfStatement (Sample.target false) 8 "lda" 0 []
    (Sample.start (Sample.lineLdaImmX ++ Sample.lineRts 11))
    (false, [.Token "lda" 0, .Token "#" 4, .Immediate (.Constant 0x10) 5 8, .Token "X" 9],
      { Toks := Sample.lineRts 11, Diags := [], FailedAsserts := [] })
    (by rfl)

/-! ## Facts about the loop body -/

/-- With a true guard a prefix block leaves the operand list and the state of
`tryParseExpr` run after the pushed token. -/
theorem tryPrefixedExpr_snd (T : Target) (ErrorMsg : String) (Operands : OperandVector)
    (P : ParserState) :
    (tryPrefixedExpr T true ErrorMsg Operands P).2 =
      (tryParseExpr T (Operands ++ [MOSOperand.Token P.getTok.Str P.getTok.Loc]) P.Lex
        ErrorMsg).2 := by
  unfold tryPrefixedExpr eatThatToken
  simp only [if_true]
  rcases tryParseExpr T (Operands ++ [MOSOperand.Token P.getTok.Str P.getTok.Loc]) P.Lex
    ErrorMsg with ⟨Failed, Ops, Q⟩
  cases Failed <;> rfl

/-- The function `tryParseAsmParamRegClass` either reports success and appends
one Register operand, or reports no match and leaves the list alone. -/
theorem tryParseAsmParamRegClass_cases (T : Target) (Operands : OperandVector)
    (P : ParserState) :
    (∃ RegNo S E, tryParseAsmParamRegClass T Operands P =
      (OperandMatchResultTy.MatchOperand_Success,
        Operands ++ [MOSOperand.Register RegNo S E])) ∨
    tryParseAsmParamRegClass T Operands P =
      (OperandMatchResultTy.MatchOperand_NoMatch, Operands) := by
  unfold tryParseAsmParamRegClass
  simp only
  split_ifs
  · right; rfl
  · left; exact ⟨_, _, _, rfl⟩
  · right; rfl

/-! ## The lexer up to and past the end of the file -/

/-- Before the end of the file a call of `Lex` drops the current token. -/
theorem tokensBeforeEof_LexToks (Toks : List AsmToken)
    (h : (Toks.headD AsmToken.eof).Kind ≠ TokenKind.Eof) :
    tokensBeforeEof (LexToks Toks) + 1 = tokensBeforeEof Toks := by
  cases Toks with
  | nil => exact absurd rfl h
  | cons Tok Rest =>
    simp only [List.headD_cons] at h
    simp [LexToks, tokensBeforeEof, h]

/-- At the end of the file no token is in front of it. -/
theorem tokensBeforeEof_at_Eof (Toks : List AsmToken)
    (h : (Toks.headD AsmToken.eof).Kind = TokenKind.Eof) : tokensBeforeEof Toks = 0 := by
  cases Toks with
  | nil => rfl
  | cons Tok Rest =>
    simp only [List.headD_cons] at h
    simp [tokensBeforeEof, h]

/-- At the end of the file a call of `Lex` yields an end-of-statement token. -/
theorem LexToks_at_Eof (Toks : List AsmToken)
    (h : (Toks.headD AsmToken.eof).Kind = TokenKind.Eof) :
    ((LexToks Toks).headD AsmToken.eof).Kind = TokenKind.EndOfStatement := by
  cases Toks with
  | nil => rfl
  | cons Tok Rest =>
    simp only [List.headD_cons] at h
    simp [LexToks, h]

/-- At the end of the file two calls of `Lex` lead back to the end of the
file. -/
theorem LexToks_LexToks_at_Eof (Toks : List AsmToken)
    (h : (Toks.headD AsmToken.eof).Kind = TokenKind.Eof) : LexToks (LexToks Toks) = Toks := by
  cases Toks with
  | nil => rfl
  | cons Tok Rest =>
    simp only [List.headD_cons] at h
    simp [LexToks, h]

/-- From the end of the file on, calls of `Lex` alternate between the
end-of-statement token and the end of the file. -/
theorem LexToks_iterate_at_Eof (Toks : List AsmToken)
    (h : (Toks.headD AsmToken.eof).Kind = TokenKind.Eof) (k : Nat) :
    LexToks^[k] Toks = Toks ∨ LexToks^[k] Toks = LexToks Toks := by
  induction k with
  | zero => left; rfl
  | succ k ih =>
    rw [Function.iterate_succ_apply']
    rcases ih with ih | ih
    · right; rw [ih]
    · left; rw [ih, LexToks_LexToks_at_Eof Toks h]

/-- After any number of calls of `Lex` the lexer is on an end-of-statement
token, or the number of tokens in front of the end of the file has gone down
by the number of calls. -/
theorem tokensBeforeEof_iterate (k : Nat) : ∀ Toks : List AsmToken,
    ((LexToks^[k] Toks).headD AsmToken.eof).Kind = TokenKind.EndOfStatement ∨
    tokensBeforeEof (LexToks^[k] Toks) = tokensBeforeEof Toks - k := by
  induction k with
  | zero => intro Toks; right; rfl
  | succ k ih =>
    intro Toks
    by_cases h : (Toks.headD AsmToken.eof).Kind = TokenKind.Eof
    · rcases LexToks_iterate_at_Eof Toks h (k + 1) with hk | hk
      · right
        rw [hk, tokensBeforeEof_at_Eof Toks h]
        omega
      · left
        rw [hk]
        exact LexToks_at_Eof Toks h
    · rw [Function.iterate_succ_apply]
      rcases ih (LexToks Toks) with hk | hk
      · left; exact hk
      · right
        rw [hk]
        have := tokensBeforeEof_LexToks Toks h
        omega

/-- The number of tokens in front of the end of the file is at most the length
of the token list. -/
theorem tokensBeforeEof_le_length (Toks : List AsmToken) :
    tokensBeforeEof Toks ≤ Toks.length := by
  induction Toks with
  | nil => exact le_refl _
  | cons Tok Rest ih =>
    unfold tokensBeforeEof
    split_ifs
    · exact Nat.zero_le _
    · simpa using ih

/-- The bound on the passes of the loop in terms of the length of the token
list. -/
theorem passBound_le (FirstTime : Bool) (Toks : List AsmToken) :
    passBound FirstTime Toks ≤ 2 * Toks.length + 2 := by
  have h := tokensBeforeEof_le_length Toks
  unfold passBound
  split_ifs <;> omega

/-- The bound on the passes of the loop goes down over a pass that either
clears `FirstTime` or advances the lexer, by exactly one token if it started at
the end of the file. -/
theorem passBound_decreases (FirstTime FirstTime2 : Bool) (Toks : List AsmToken) (k : Nat)
    (hNot : (Toks.headD AsmToken.eof).Kind ≠ TokenKind.EndOfStatement)
    (hStep : (FirstTime = true ∧ FirstTime2 = false) ∨
      (1 ≤ k ∧ ((Toks.headD AsmToken.eof).Kind = TokenKind.Eof → k = 1))) :
    passBound FirstTime2 (LexToks^[k] Toks) < passBound FirstTime Toks := by
  have hPos : 0 < passBound FirstTime Toks := by
    unfold passBound
    rw [if_neg hNot]
    split_ifs <;> omega
  rcases tokensBeforeEof_iterate k Toks with hEnd | hCount
  · have hZero : passBound FirstTime2 (LexToks^[k] Toks) = 0 := by
      unfold passBound
      rw [if_pos hEnd]
    omega
  · have hLe : passBound FirstTime2 (LexToks^[k] Toks) ≤
        2 * (tokensBeforeEof Toks - k) + (if FirstTime2 then 2 else 1) := by
      unfold passBound
      rw [hCount]
      split_ifs <;> omega
    have hEq : passBound FirstTime Toks =
        2 * tokensBeforeEof Toks + (if FirstTime then 2 else 1) := by
      unfold passBound
      rw [if_neg hNot]
    rcases hStep with ⟨h1, h2⟩ | ⟨hk, hEof⟩
    · subst h1
      subst h2
      simp only [Bool.false_eq_true, if_false, if_true] at hLe hEq
      omega
    · by_cases hAt : (Toks.headD AsmToken.eof).Kind = TokenKind.Eof
      · have hk1 := hEof hAt
        subst hk1
        have hEnd : ((LexToks^[1] Toks).headD AsmToken.eof).Kind = TokenKind.EndOfStatement :=
          LexToks_at_Eof Toks hAt
        have hZero : passBound FirstTime2 (LexToks^[1] Toks) = 0 := by
          unfold passBound
          rw [if_pos hEnd]
        omega
      · have hOne := tokensBeforeEof_LexToks Toks hAt
        have h2 : (if FirstTime2 = true then 2 else 1) ≤ 2 := by split_ifs <;> omega
        have h1 : 1 ≤ (if FirstTime = true then 2 else 1) := by split_ifs <;> omega
        omega

/-! ## How the parser moves the lexer -/

/-- A state is itself after no call of `Lex`. -/
theorem AdvancedBy_refl (P : ParserState) : AdvancedBy 0 P P :=
  ⟨rfl, List.prefix_refl _⟩

/-- Moves of the lexer add up. -/
theorem AdvancedBy_trans {j k : Nat} {P Q R : ParserState} (h1 : AdvancedBy j P Q)
    (h2 : AdvancedBy k Q R) : AdvancedBy (j + k) P R := by
  refine ⟨?_, h1.2.trans h2.2⟩
  rw [h2.1, h1.1, add_comm j k, Function.iterate_add_apply]

/-- Moves of the lexer by some number of tokens add up. -/
theorem AdvancedBy_trans_ex {P Q R : ParserState} (h1 : ∃ j, AdvancedBy j P Q)
    (h2 : ∃ k, AdvancedBy k Q R) : ∃ k, AdvancedBy k P R := by
  obtain ⟨j, hj⟩ := h1
  obtain ⟨k, hk⟩ := h2
  exact ⟨j + k, AdvancedBy_trans hj hk⟩

/-- The function `Lex` is one call of `Lex`. -/
theorem AdvancedBy_Lex (P : ParserState) : AdvancedBy 1 P P.Lex :=
  ⟨rfl, List.prefix_refl _⟩

/-- An `assert` does not move the lexer. -/
theorem AdvancedBy_assertThat (P : ParserState) (Cond : Bool) (Text : String) :
    AdvancedBy 0 P (P.assertThat Cond Text) := by
  unfold ParserState.assertThat
  split_ifs
  · exact AdvancedBy_refl P
  · exact ⟨rfl, List.prefix_refl _⟩

/-- A diagnostic does not move the lexer. -/
theorem AdvancedBy_Error (P : ParserState) (Loc : SMLoc) (Msg : String) :
    AdvancedBy 0 P (P.Error Loc Msg) :=
  ⟨rfl, List.prefix_append _ _⟩

/-- The expression parser of a target that moves the lexer by `Lex` only. -/
theorem AdvancedBy_parseExpression (T : Target) (hT : LexesOnly T) (P : ParserState) :
    ∃ k, AdvancedBy k P (P.parseExpression T).2 := by
  obtain ⟨k, hk⟩ := hT P.Toks
  exact ⟨k, hk, List.prefix_append _ _⟩

/-- On the token list, `eatToEndOfStatement` moves the lexer by calls of
`Lex`. -/
theorem eatToEndOfStatementToks_iterate (Toks : List AsmToken) :
    ∃ k, eatToEndOfStatementToks Toks = LexToks^[k] Toks := by
  induction Toks with
  | nil => exact ⟨0, rfl⟩
  | cons Tok Rest ih =>
    unfold eatToEndOfStatementToks
    by_cases hEos : Tok.Kind = TokenKind.EndOfStatement
    · rw [if_pos hEos]
      exact ⟨1, rfl⟩
    · rw [if_neg hEos]
      by_cases hEof : Tok.Kind = TokenKind.Eof
      · rw [if_pos hEof]
        exact ⟨0, rfl⟩
      · rw [if_neg hEof]
        obtain ⟨k, hk⟩ := ih
        refine ⟨k + 1, ?_⟩
        have hLex : LexToks (Tok :: Rest) = Rest := by simp [LexToks, hEof]
        rw [Function.iterate_succ_apply, hLex, hk]

/-- The function `eatToEndOfStatement` moves the lexer by calls of `Lex`. -/
theorem AdvancedBy_eatToEndOfStatement (P : ParserState) :
    ∃ k, AdvancedBy k P (eatToEndOfStatement P) := by
  obtain ⟨k, hk⟩ := eatToEndOfStatementToks_iterate P.Toks
  exact ⟨k, hk, List.prefix_refl _⟩

/-- The sign block moves the lexer by calls of `Lex`. -/
theorem AdvancedBy_relocSignStage (P : ParserState) :
    ∃ k, AdvancedBy k P (relocSignStage P).2 := by
  unfold relocSignStage
  simp only
  split_ifs <;>
    first
    | exact ⟨1, AdvancedBy_Lex P⟩
    | exact ⟨0, AdvancedBy_refl P⟩
    | exact ⟨0 + 1, AdvancedBy_trans (AdvancedBy_assertThat P _ _) (AdvancedBy_Lex _)⟩
    | exact ⟨0, AdvancedBy_assertThat P _ _⟩

/-- The stub-qualifier block moves the lexer by calls of `Lex`. -/
theorem AdvancedBy_relocStubStage (T : Target) (ModifierName : String)
    (ModifierKind : VariantKind) (P : ParserState) :
    ∃ k, AdvancedBy k P (relocStubStage T ModifierName ModifierKind P).2 := by
  unfold relocStubStage
  simp only
  split_ifs <;>
    first
    | exact ⟨1, AdvancedBy_Lex P⟩
    | exact ⟨0, AdvancedBy_refl P⟩

/-- The block before the inner expression moves the lexer by calls of `Lex`. -/
theorem AdvancedBy_relocOpenStage (InnerSign : Bool) (P : ParserState) :
    ∃ k, AdvancedBy k P (relocOpenStage InnerSign P) := by
  unfold relocOpenStage
  simp only
  split_ifs
  · exact ⟨1 + 0 + 1, AdvancedBy_trans
      (AdvancedBy_trans (AdvancedBy_Lex P) (AdvancedBy_assertThat _ _ _)) (AdvancedBy_Lex _)⟩
  · exact ⟨0, AdvancedBy_refl P⟩

/-- The blocks after the inner expression move the lexer by calls of `Lex`. -/
theorem AdvancedBy_relocCloseStage (InnerSign : Bool) (P : ParserState) :
    ∃ k, AdvancedBy k P (relocCloseStage InnerSign P) := by
  unfold relocCloseStage
  simp only
  split_ifs
  · exact ⟨0 + 1 + 0 + 1, AdvancedBy_trans (AdvancedBy_trans
      (AdvancedBy_trans (AdvancedBy_assertThat P _ _) (AdvancedBy_Lex _))
      (AdvancedBy_assertThat _ _ _)) (AdvancedBy_Lex _)⟩
  · exact ⟨0 + 1, AdvancedBy_trans (AdvancedBy_assertThat P _ _) (AdvancedBy_Lex _)⟩

/-- On a target whose expression parser moves the lexer by `Lex` only,
`tryParseRelocExpression` moves the lexer by calls of `Lex`. -/
theorem AdvancedBy_tryParseRelocExpression (T : Target) (hT : LexesOnly T)
    (Operands : OperandVector) (P : ParserState) :
    ∃ k, AdvancedBy k P (tryParseRelocExpression T Operands P).2.2 := by
  have hSign := AdvancedBy_relocSignStage P
  rw [tryParseRelocExpression_stages]
  unfold pushRelocOperand
  by_cases h1 : (relocSignStage P).2.getTok.Kind = TokenKind.Less ∨
      (relocSignStage P).2.getTok.Kind = TokenKind.Greater
  · rw [if_pos h1]
    have hE := AdvancedBy_parseExpression T hT (relocSignStage P).2.Lex
    have hLex : ∃ k, AdvancedBy k (relocSignStage P).2 (relocSignStage P).2.Lex :=
      ⟨1, AdvancedBy_Lex _⟩
    rcases hQ : (relocSignStage P).2.Lex.parseExpression T with ⟨_ | InnerExpression, Q⟩ <;>
      rw [hQ] at hE <;>
      exact AdvancedBy_trans_ex hSign (AdvancedBy_trans_ex hLex hE)
  · rw [if_neg h1]
    by_cases h2 : (relocSignStage P).2.getTok.Kind ≠ TokenKind.Identifier ∨
        (relocSignStage P).2.peekTok.Kind ≠ TokenKind.LParen
    · rw [if_pos h2]
      exact hSign
    · rw [if_neg h2]
      by_cases h3 : T.getKindByName (relocSignStage P).2.getTok.Str = VariantKind.VK_MOS_NONE
      · rw [if_pos h3]
        exact AdvancedBy_trans_ex hSign ⟨0, AdvancedBy_Error _ _ _⟩
      · rw [if_neg h3]
        have hLex : ∃ k, AdvancedBy k P (relocSignStage P).2.Lex.Lex :=
          AdvancedBy_trans_ex hSign
            ⟨1 + 1, AdvancedBy_trans (AdvancedBy_Lex _) (AdvancedBy_Lex _)⟩
        have hOpen := AdvancedBy_trans_ex
          (AdvancedBy_trans_ex hLex (AdvancedBy_relocStubStage T
            (relocSignStage P).2.getTok.Str (T.getKindByName (relocSignStage P).2.getTok.Str)
            (relocSignStage P).2.Lex.Lex))
          (AdvancedBy_relocOpenStage
            (P.peekTokens.2.2.Kind == TokenKind.Minus || P.peekTokens.2.2.Kind == TokenKind.Plus)
            (relocStubStage T (relocSignStage P).2.getTok.Str
              (T.getKindByName (relocSignStage P).2.getTok.Str) (relocSignStage P).2.Lex.Lex).2)
        have hE := AdvancedBy_parseExpression T hT (relocOpenStage
          (P.peekTokens.2.2.Kind == TokenKind.Minus || P.peekTokens.2.2.Kind == TokenKind.Plus)
          (relocStubStage T (relocSignStage P).2.getTok.Str
            (T.getKindByName (relocSignStage P).2.getTok.Str) (relocSignStage P).2.Lex.Lex).2)
        rcases hQ : (relocOpenStage
          (P.peekTokens.2.2.Kind == TokenKind.Minus || P.peekTokens.2.2.Kind == TokenKind.Plus)
          (relocStubStage T (relocSignStage P).2.getTok.Str
            (T.getKindByName (relocSignStage P).2.getTok.Str)
            (relocSignStage P).2.Lex.Lex).2).parseExpression T with ⟨_ | InnerExpression, Q⟩
        · rw [hQ] at hE
          exact AdvancedBy_trans_ex hOpen hE
        · rw [hQ] at hE
          exact AdvancedBy_trans_ex (AdvancedBy_trans_ex hOpen hE)
            (AdvancedBy_relocCloseStage _ Q)

/-- On a target whose expression parser moves the lexer by `Lex` only,
`tryParseExpr` moves the lexer by calls of `Lex`. -/
theorem AdvancedBy_tryParseExpr (T : Target) (hT : LexesOnly T) (Operands : OperandVector)
    (P : ParserState) (ErrorMsg : String) :
    ∃ k, AdvancedBy k P (tryParseExpr T Operands P ErrorMsg).2.2 := by
  have hReloc := AdvancedBy_tryParseRelocExpression T hT Operands P
  unfold tryParseExpr
  rcases hR : tryParseRelocExpression T Operands P with ⟨Failed, Ops, Q⟩
  rw [hR] at hReloc
  cases Failed with
  | false => exact hReloc
  | true =>
    have hE := AdvancedBy_parseExpression T hT Q
    rcases hQ : Q.parseExpression T with ⟨_ | Expression, Q2⟩
    · rw [hQ] at hE
      simp only [hQ]
      exact AdvancedBy_trans_ex (AdvancedBy_trans_ex hReloc hE)
        (AdvancedBy_trans_ex (AdvancedBy_eatToEndOfStatement Q2)
          ⟨0, AdvancedBy_Error _ _ _⟩)
    · rw [hQ] at hE
      simp only [hQ]
      exact AdvancedBy_trans_ex hReloc hE

/-! ## Termination of the loop of `ParseInstruction` -/

/-- The function `tryParseExpr` keeps the operands that were there. -/
theorem tryParseExpr_prefix (T : Target) (Operands : OperandVector) (P : ParserState)
    (ErrorMsg : String) : Operands <+: (tryParseExpr T Operands P ErrorMsg).2.1 := by
  rcases tryParseExpr_cases T Operands P ErrorMsg with ⟨_, h, _⟩ | ⟨_, Val, S, E, h⟩
  · rw [h]
  · rw [h]
    exact List.prefix_append _ _

/-- A prefix block whose guard holds advances the lexer by at least one token
and keeps the operands that were there. -/
theorem tryPrefixedExpr_advances (T : Target) (hT : LexesOnly T) (ErrorMsg : String)
    (Operands : OperandVector) (P : ParserState) :
    ∃ k, 1 ≤ k ∧ AdvancedBy k P (tryPrefixedExpr T true ErrorMsg Operands P).2.2 ∧
      Operands <+: (tryPrefixedExpr T true ErrorMsg Operands P).2.1 := by
  obtain ⟨k, hk⟩ := AdvancedBy_tryParseExpr T hT
    (Operands ++ [MOSOperand.Token P.getTok.Str P.getTok.Loc]) P.Lex ErrorMsg
  have hPre := tryParseExpr_prefix T (Operands ++ [MOSOperand.Token P.getTok.Str P.getTok.Loc])
    P.Lex ErrorMsg
  rw [tryPrefixedExpr_snd]
  exact ⟨1 + k, by omega, AdvancedBy_trans (AdvancedBy_Lex P) hk,
    (List.prefix_append _ _).trans hPre⟩

/-- The later cases of a pass either clear a flag `FirstTime` that was set or
advance the lexer by exactly one token. -/
theorem PassStep_LaterCases (T : Target) (hT : LexesOnly T) (FirstTime : Bool)
    (Operands : OperandVector) (P : ParserState) :
    PassStep FirstTime Operands P (ParseInstructionLaterCases T FirstTime Operands P) := by
  have hOne : ∀ (F : Bool) (Ops : OperandVector), Operands <+: Ops →
      PassStep FirstTime Operands P (F, Ops, P.Lex) := by
    intro F Ops hOps
    exact ⟨1, AdvancedBy_Lex P, Or.inr ⟨le_refl 1, fun _ => rfl⟩, hOps⟩
  unfold ParseInstructionLaterCases
  by_cases hComma : P.getTok.Kind = TokenKind.Comma
  · rw [if_pos hComma]
    exact hOne _ _ (List.prefix_refl _)
  · rw [if_neg hComma]
    simp only
    by_cases hA : FirstTime = true ∧ (P.getTok.Str = "a" ∨ P.getTok.Str = "A")
    · rw [if_pos hA]
      exact hOne _ _ (List.prefix_append _ _)
    · rw [if_neg hA]
      rcases tryParseAsmParamRegClass_cases T Operands P with ⟨RegNo, S, E, hReg⟩ | hReg
      · rw [hReg]
        exact hOne _ _ (List.prefix_append _ _)
      · rw [hReg]
        simp only
        cases FirstTime with
        | false =>
          simp only [Bool.false_eq_true, if_false]
          exact hOne _ _ (List.prefix_append _ _)
        | true =>
          simp only [if_true]
          obtain ⟨k, hk⟩ := AdvancedBy_tryParseExpr T hT Operands P "expression expected"
          have hPre := tryParseExpr_prefix T Operands P "expression expected"
          rcases hR : tryParseExpr T Operands P "expression expected" with ⟨Failed, Ops, Q⟩
          rw [hR] at hk hPre
          simp only at hk hPre
          cases Failed with
          | false => exact ⟨k, hk, Or.inl ⟨rfl, rfl⟩, hPre⟩
          | true =>
            exact ⟨k + 1, AdvancedBy_trans hk (AdvancedBy_Lex Q), Or.inl ⟨rfl, rfl⟩,
              hPre.trans (List.prefix_append _ _)⟩

/-- A prefix block followed by the rest of the pass: when the rest is a step
of a pass, so is the block with the rest. -/
theorem PassStep_after_block (T : Target) (hT : LexesOnly T) (Guard : Bool) (ErrorMsg : String)
    (FirstTime : Bool) (Operands : OperandVector) (P : ParserState)
    (Rest : OperandVector → ParserState → Bool × OperandVector × ParserState)
    (hGuard : Guard = true → P.getTok.Kind ≠ TokenKind.Eof)
    (hRest : ∀ (Ops : OperandVector) (Q : ParserState), PassStep FirstTime Ops Q (Rest Ops Q)) :
    PassStep FirstTime Operands P
      (if (tryPrefixedExpr T Guard ErrorMsg Operands P).1 = true then
        (false, (tryPrefixedExpr T Guard ErrorMsg Operands P).2.1,
          (tryPrefixedExpr T Guard ErrorMsg Operands P).2.2)
       else Rest (tryPrefixedExpr T Guard ErrorMsg Operands P).2.1
          (tryPrefixedExpr T Guard ErrorMsg Operands P).2.2) := by
  cases Guard with
  | false =>
    have hB : tryPrefixedExpr T false ErrorMsg Operands P = (false, Operands, P) := rfl
    rw [hB]
    simp only [Bool.false_eq_true, if_false]
    exact hRest Operands P
  | true =>
    obtain ⟨k, hk1, hAdv, hPre⟩ := tryPrefixedExpr_advances T hT ErrorMsg Operands P
    have hEof := hGuard rfl
    by_cases hC : (tryPrefixedExpr T true ErrorMsg Operands P).1 = true
    · rw [if_pos hC]
      exact ⟨k, hAdv, Or.inr ⟨hk1, fun h => absurd h hEof⟩, hPre⟩
    · rw [if_neg hC]
      obtain ⟨k2, hAdv2, _, hPre2⟩ := hRest (tryPrefixedExpr T true ErrorMsg Operands P).2.1
        (tryPrefixedExpr T true ErrorMsg Operands P).2.2
      exact ⟨k + k2, AdvancedBy_trans hAdv hAdv2,
        Or.inr ⟨by omega, fun h => absurd h hEof⟩, hPre.trans hPre2⟩

/-- The rest of a pass after the `(` block, as a condition on its `[` block. -/
theorem ParseInstructionAfterParen_eq (T : Target) (FirstTime : Bool) (Operands : OperandVector)
    (P : ParserState) :
    ParseInstructionAfterParen T FirstTime Operands P =
      if (tryPrefixedExpr T (T.FeatureW65816 && P.getTok.Kind == TokenKind.LBrac)
          "expression expected after left bracket" Operands P).1 = true then
        (false, (tryPrefixedExpr T (T.FeatureW65816 && P.getTok.Kind == TokenKind.LBrac)
          "expression expected after left bracket" Operands P).2.1,
          (tryPrefixedExpr T (T.FeatureW65816 && P.getTok.Kind == TokenKind.LBrac)
            "expression expected after left bracket" Operands P).2.2)
      else ParseInstructionLaterCases T FirstTime
        (tryPrefixedExpr T (T.FeatureW65816 && P.getTok.Kind == TokenKind.LBrac)
          "expression expected after left bracket" Operands P).2.1
        (tryPrefixedExpr T (T.FeatureW65816 && P.getTok.Kind == TokenKind.LBrac)
          "expression expected after left bracket" Operands P).2.2 := by
  unfold ParseInstructionAfterParen
  rcases tryPrefixedExpr T (T.FeatureW65816 && P.getTok.Kind == TokenKind.LBrac)
    "expression expected after left bracket" Operands P with ⟨C, Ops, Q⟩
  cases C <;> simp

/-- The rest of a pass after the `#` block, as a condition on its `(` block. -/
theorem ParseInstructionAfterHash_eq (T : Target) (FirstTime : Bool) (Operands : OperandVector)
    (P : ParserState) :
    ParseInstructionAfterHash T FirstTime Operands P =
      if (tryPrefixedExpr T (P.getTok.Kind == TokenKind.LParen)
          "expression expected after left parenthesis" Operands P).1 = true then
        (false, (tryPrefixedExpr T (P.getTok.Kind == TokenKind.LParen)
          "expression expected after left parenthesis" Operands P).2.1,
          (tryPrefixedExpr T (P.getTok.Kind == TokenKind.LParen)
            "expression expected after left parenthesis" Operands P).2.2)
      else ParseInstructionAfterParen T FirstTime
        (tryPrefixedExpr T (P.getTok.Kind == TokenKind.LParen)
          "expression expected after left parenthesis" Operands P).2.1
        (tryPrefixedExpr T (P.getTok.Kind == TokenKind.LParen)
          "expression expected after left parenthesis" Operands P).2.2 := by
  unfold ParseInstructionAfterHash
  rcases tryPrefixedExpr T (P.getTok.Kind == TokenKind.LParen)
    "expression expected after left parenthesis" Operands P with ⟨C, Ops, Q⟩
  cases C <;> simp

/-- A pass of the loop, as a condition on its `#` block. -/
theorem ParseInstructionBody_eq (T : Target) (FirstTime : Bool) (Operands : OperandVector)
    (P : ParserState) :
    ParseInstructionBody T FirstTime Operands P =
      if (tryPrefixedExpr T (P.getTok.Kind == TokenKind.Hash)
          "immediate operand must be an expression evaluating to a value between 0 and 255 inclusive"
          Operands P).1 = true then
        (false, (tryPrefixedExpr T (P.getTok.Kind == TokenKind.Hash)
          "immediate operand must be an expression evaluating to a value between 0 and 255 inclusive"
          Operands P).2.1,
          (tryPrefixedExpr T (P.getTok.Kind == TokenKind.Hash)
            "immediate operand must be an expression evaluating to a value between 0 and 255 inclusive"
            Operands P).2.2)
      else ParseInstructionAfterHash T FirstTime
        (tryPrefixedExpr T (P.getTok.Kind == TokenKind.Hash)
          "immediate operand must be an expression evaluating to a value between 0 and 255 inclusive"
          Operands P).2.1
        (tryPrefixedExpr T (P.getTok.Kind == TokenKind.Hash)
          "immediate operand must be an expression evaluating to a value between 0 and 255 inclusive"
          Operands P).2.2 := by
  have h : ParseInstructionBody T FirstTime Operands P =
      match tryPrefixedExpr T (P.getTok.Kind == TokenKind.Hash)
          "immediate operand must be an expression evaluating to a value between 0 and 255 inclusive"
          Operands P with
      | (true, Operands, P) => (false, Operands, P)
      | (false, Operands, P) => ParseInstructionAfterHash T FirstTime Operands P := rfl
  rw [h]
  rcases tryPrefixedExpr T (P.getTok.Kind == TokenKind.Hash)
    "immediate operand must be an expression evaluating to a value between 0 and 255 inclusive"
    Operands P with ⟨C, Ops, Q⟩
  cases C <;> simp

/-- The rest of a pass after the `(` block is a step of a pass. -/
theorem PassStep_AfterParen (T : Target) (hT : LexesOnly T) (FirstTime : Bool)
    (Operands : OperandVector) (P : ParserState) :
    PassStep FirstTime Operands P (ParseInstructionAfterParen T FirstTime Operands P) := by
  rw [ParseInstructionAfterParen_eq]
  refine PassStep_after_block T hT _ _ FirstTime Operands P
    (ParseInstructionLaterCases T FirstTime) ?_ (PassStep_LaterCases T hT FirstTime)
  intro h
  simp only [Bool.and_eq_true, beq_iff_eq] at h
  rw [h.2]
  decide

/-- The rest of a pass after the `#` block is a step of a pass. -/
theorem PassStep_AfterHash (T : Target) (hT : LexesOnly T) (FirstTime : Bool)
    (Operands : OperandVector) (P : ParserState) :
    PassStep FirstTime Operands P (ParseInstructionAfterHash T FirstTime Operands P) := by
  rw [ParseInstructionAfterHash_eq]
  refine PassStep_after_block T hT _ _ FirstTime Operands P
    (ParseInstructionAfterParen T FirstTime) ?_ (PassStep_AfterParen T hT FirstTime)
  intro h
  simp only [beq_iff_eq] at h
  rw [h]
  decide

/-- A pass of the loop either clears a flag `FirstTime` that was set or
advances the lexer, by exactly one token at the end of the file; it keeps the
operands and the diagnostics that were there. -/
theorem PassStep_Body (T : Target) (hT : LexesOnly T) (FirstTime : Bool)
    (Operands : OperandVector) (P : ParserState) :
    PassStep FirstTime Operands P (ParseInstructionBody T FirstTime Operands P) := by
  rw [ParseInstructionBody_eq]
  refine PassStep_after_block T hT _ _ FirstTime Operands P
    (ParseInstructionAfterHash T FirstTime) ?_ (PassStep_AfterHash T hT FirstTime)
  intro h
  simp only [beq_iff_eq] at h
  rw [h]
  decide

/-- The loop of `ParseInstruction` ends: on a target whose expression parser
moves the lexer by `Lex` only, a number of passes above the bound is enough,
and the loop keeps the operands and the diagnostics that were there. -/
theorem ParseInstructionLoop_returns (T : Target) (hT : LexesOnly T) :
    ∀ (Fuel : Nat) (FirstTime : Bool) (Operands : OperandVector) (P : ParserState),
      passBound FirstTime P.Toks < Fuel →
      ∃ (Ops : OperandVector) (Q : ParserState),
        ParseInstructionLoop T Fuel FirstTime Operands P = some (Ops, Q) ∧
        Operands <+: Ops ∧ P.Diags <+: Q.Diags
  | 0, _, _, _, h => absurd h (Nat.not_lt_zero _)
  | Fuel + 1, FirstTime, Operands, P, h => by
    unfold ParseInstructionLoop
    by_cases hEnd : P.getTok.Kind = TokenKind.EndOfStatement
    · rw [if_pos hEnd]
      exact ⟨Operands, P, rfl, List.prefix_refl _, List.prefix_refl _⟩
    · rw [if_neg hEnd]
      obtain ⟨k, hAdv, hStep, hPre⟩ := PassStep_Body T hT FirstTime Operands P
      rcases hB : ParseInstructionBody T FirstTime Operands P with ⟨FirstTime2, Ops2, P2⟩
      rw [hB] at hAdv hStep hPre
      simp only at hAdv hStep hPre ⊢
      have hDec := passBound_decreases FirstTime FirstTime2 P.Toks k hEnd hStep
      rw [← hAdv.1] at hDec
      obtain ⟨Ops, Q, hLoop, hOps, hDiags⟩ :=
        ParseInstructionLoop_returns T hT Fuel FirstTime2 Ops2 P2 (by omega)
      exact ⟨Ops, Q, hLoop, hPre.trans hOps, hAdv.2.trans hDiags⟩

/-- The function `ParseInstruction` returns, and returns false: on a target
whose expression parser moves the lexer by `Lex` only, three passes and two
more for every token of the list are enough; the operands that were there, the
mnemonic, and the diagnostics that were there are kept. -/
theorem ParseInstruction_returns (T : Target) (hT : LexesOnly T) (Fuel : Nat)
    (Mnemonic : String) (NameLoc : SMLoc) (Operands : OperandVector) (P : ParserState)
    (hFuel : 2 * P.Toks.length + 3 ≤ Fuel) :
    ∃ (Ops : OperandVector) (Q : ParserState),
      ParseInstruction T Fuel Mnemonic NameLoc Operands P = some (false, Ops, Q) ∧
      (Operands ++ [MOSOperand.Token Mnemonic NameLoc]) <+: Ops ∧ P.Diags <+: Q.Diags := by
  have hBound := passBound_le true P.Toks
  obtain ⟨Ops, Q, hLoop, hOps, hDiags⟩ := ParseInstructionLoop_returns T hT Fuel true
    (Operands ++ [MOSOperand.Token Mnemonic NameLoc]) P (by omega)
  refine ⟨Ops, Q.Lex, ?_, hOps, hDiags⟩
  unfold ParseInstruction
  simp only [hLoop]

/-- The sample expression parser moves the lexer by `Lex` only. -/
theorem Sample_LexesOnly (AltRegisterNamesOnly : Bool) :
    LexesOnly (Sample.target AltRegisterNamesOnly) := by
  intro Toks
  cases Toks with
  | nil => exact ⟨0, rfl⟩
  | cons Head Rest =>
    simp only [Sample.target, Sample.parseExpression]
    split
    · next h =>
      refine ⟨1, ?_⟩
      simp [LexToks, h]
    · next h =>
      refine ⟨1, ?_⟩
      simp [LexToks, h]
    · exact ⟨0, rfl⟩

/-! ## Failed prefix attempts -/

/-- A prefix block whose expression attempt fails: the block falls through
with the prefix token pushed, in the state `tryParseExpr` left, whose last
diagnostic is the message of the block; `tryParseExpr` has appended nothing. -/
theorem tryPrefixedExpr_failed (T : Target) (ErrorMsg : String) (Operands : OperandVector)
    (P : ParserState)
    (hFail : (tryParseExpr T (Operands ++ [MOSOperand.Token P.getTok.Str P.getTok.Loc]) P.Lex
      ErrorMsg).1 = true) :
    tryPrefixedExpr T true ErrorMsg Operands P =
      (false, Operands ++ [MOSOperand.Token P.getTok.Str P.getTok.Loc],
        (tryParseExpr T (Operands ++ [MOSOperand.Token P.getTok.Str P.getTok.Loc]) P.Lex
          ErrorMsg).2.2) ∧
    (tryParseExpr T (Operands ++ [MOSOperand.Token P.getTok.Str P.getTok.Loc]) P.Lex
      ErrorMsg).2.1 = Operands ++ [MOSOperand.Token P.getTok.Str P.getTok.Loc] ∧
    ∃ Earlier Loc,
      (tryParseExpr T (Operands ++ [MOSOperand.Token P.getTok.Str P.getTok.Loc]) P.Lex
        ErrorMsg).2.2.Diags = Earlier ++ [(Loc, ErrorMsg)] := by
  rcases tryParseExpr_cases T (Operands ++ [MOSOperand.Token P.getTok.Str P.getTok.Loc]) P.Lex
    ErrorMsg with ⟨_, hOps, hDiag⟩ | ⟨hOk, _⟩
  · refine ⟨?_, hOps, hDiag⟩
    unfold tryPrefixedExpr eatThatToken
    simp only [if_true]
    rcases hR : tryParseExpr T (Operands ++ [MOSOperand.Token P.getTok.Str P.getTok.Loc]) P.Lex
      ErrorMsg with ⟨Failed, Ops, Q⟩
    rw [hR] at hFail hOps
    simp only at hFail hOps
    subst hFail
    subst hOps
    rfl
  · rw [hOk] at hFail
    cases hFail

/-- When the loop test holds, the loop of `ParseInstruction` ends after the
pass it starts with and the passes that follow, keeping the operands and the
diagnostics of that pass. -/
theorem ParseInstructionLoop_returns_after_pass (T : Target) (hT : LexesOnly T) (Fuel : Nat)
    (FirstTime : Bool) (Operands : OperandVector) (P : ParserState)
    (hNot : P.getTok.Kind ≠ TokenKind.EndOfStatement)
    (hFuel : 2 * P.Toks.length + 3 ≤ Fuel) :
    ∃ (Ops : OperandVector) (Q : ParserState),
      ParseInstructionLoop T Fuel FirstTime Operands P = some (Ops, Q) ∧
      (ParseInstructionBody T FirstTime Operands P).2.1 <+: Ops ∧
      (ParseInstructionBody T FirstTime Operands P).2.2.Diags <+: Q.Diags := by
  obtain ⟨F, hF⟩ : ∃ F, Fuel = F + 1 := ⟨Fuel - 1, by omega⟩
  subst hF
  have hBound := passBound_le FirstTime P.Toks
  obtain ⟨k, hAdv, hStep, _⟩ := PassStep_Body T hT FirstTime Operands P
  have hDec := passBound_decreases FirstTime (ParseInstructionBody T FirstTime Operands P).1
    P.Toks k hNot hStep
  rw [← hAdv.1] at hDec
  obtain ⟨Ops, Q, hLoop, hOps, hDiags⟩ := ParseInstructionLoop_returns T hT F
    (ParseInstructionBody T FirstTime Operands P).1
    (ParseInstructionBody T FirstTime Operands P).2.1
    (ParseInstructionBody T FirstTime Operands P).2.2 (by omega)
  refine ⟨Ops, Q, ?_, hOps, hDiags⟩
  rw [ParseInstructionLoop, if_neg hNot]
  simp only [hLoop]

/-- The result of `ParseInstruction` from the result of its loop. -/
theorem ParseInstruction_of_loop (T : Target) (Fuel : Nat) (Mnemonic : String) (NameLoc : SMLoc)
    (Operands : OperandVector) (P : ParserState) (Ops : OperandVector) (Q : ParserState)
    (hLoop : ParseInstructionLoop T Fuel true (Operands ++ [MOSOperand.Token Mnemonic NameLoc]) P =
      some (Ops, Q)) :
    ParseInstruction T Fuel Mnemonic NameLoc Operands P = some (false, Ops, Q.Lex) := by
  unfold ParseInstruction
  simp only [hLoop]

/-- C13: in a pass that starts on `(`, when the token after `(` starts no
parsable expression, the pass does not end: `(` stays in the operand list as a
Token operand and the pass goes on from the state `tryParseExpr` left, with the
`[` block and then the later cases, which is the later cases alone unless the
W65816 feature is on and the lexer is then on a `[`. On a target whose
expression parser moves the lexer by `Lex` only, with three passes and two more
for every token allowed, the loop ends with `(` kept as a Token operand, and so
does `ParseInstruction` when the pass is its first, with the return value
false. `ParseInstruction` returns success on every input. -/
theorem ParseInstruction_paren_failure (T : Target) (hT : LexesOnly T) (Fuel : Nat)
    (FirstTime : Bool) (Operands : OperandVector) (P : ParserState)
    (hParen : P.getTok.Kind = TokenKind.LParen)
    (hFail : (tryParseExpr T (Operands ++ [MOSOperand.Token P.getTok.Str P.getTok.Loc]) P.Lex
      "expression expected after left parenthesis").1 = true)
    (hFuel : 2 * P.Toks.length + 3 ≤ Fuel) :
    ParseInstructionBody T FirstTime Operands P =
      ParseInstructionAfterParen T FirstTime
        (Operands ++ [MOSOperand.Token P.getTok.Str P.getTok.Loc])
        (tryParseExpr T (Operands ++ [MOSOperand.Token P.getTok.Str P.getTok.Loc]) P.Lex
          "expression expected after left parenthesis").2.2 ∧
    (¬ (T.FeatureW65816 = true ∧
        (tryParseExpr T (Operands ++ [MOSOperand.Token P.getTok.Str P.getTok.Loc]) P.Lex
          "expression expected after left parenthesis").2.2.getTok.Kind = TokenKind.LBrac) →
      ParseInstructionBody T FirstTime Operands P =
        ParseInstructionLaterCases T FirstTime
          (Operands ++ [MOSOperand.Token P.getTok.Str P.getTok.Loc])
          (tryParseExpr T (Operands ++ [MOSOperand.Token P.getTok.Str P.getTok.Loc]) P.Lex
            "expression expected after left parenthesis").2.2) ∧
    (∃ (Ops : OperandVector) (Q : ParserState),
      ParseInstructionLoop T Fuel FirstTime Operands P = some (Ops, Q) ∧
      (Operands ++ [MOSOperand.Token P.getTok.Str P.getTok.Loc]) <+: Ops) ∧
    (∀ (Mnemonic : String) (NameLoc : SMLoc) (Ops0 : OperandVector),
      Operands = Ops0 ++ [MOSOperand.Token Mnemonic NameLoc] → FirstTime = true →
      ∃ (Ops : OperandVector) (Q : ParserState),
        ParseInstruction T Fuel Mnemonic NameLoc Ops0 P = some (false, Ops, Q) ∧
        (Operands ++ [MOSOperand.Token P.getTok.Str P.getTok.Loc]) <+: Ops) ∧
    (∀ (Fuel0 : Nat) (Mnemonic : String) (NameLoc : SMLoc) (Ops0 : OperandVector)
      (P0 : ParserState), 2 * P0.Toks.length + 3 ≤ Fuel0 →
      ∃ (Ops : OperandVector) (Q : ParserState),
        ParseInstruction T Fuel0 Mnemonic NameLoc Ops0 P0 = some (false, Ops, Q)) := by
  obtain ⟨hBlock, _, _⟩ := tryPrefixedExpr_failed T "expression expected after left parenthesis"
    Operands P hFail
  have hGuard1 : (P.getTok.Kind == TokenKind.Hash) = false := by simp [hParen]
  have hGuard2 : (P.getTok.Kind == TokenKind.LParen) = true := by simp [hParen]
  have hPre1 : tryPrefixedExpr T false
      "immediate operand must be an expression evaluating to a value between 0 and 255 inclusive"
      Operands P = (false, Operands, P) := rfl
  have hBody : ParseInstructionBody T FirstTime Operands P =
      ParseInstructionAfterParen T FirstTime
        (Operands ++ [MOSOperand.Token P.getTok.Str P.getTok.Loc])
        (tryParseExpr T (Operands ++ [MOSOperand.Token P.getTok.Str P.getTok.Loc]) P.Lex
          "expression expected after left parenthesis").2.2 := by
    rw [ParseInstructionBody_eq, hGuard1, hPre1]
    simp only [Bool.false_eq_true, if_false]
    rw [ParseInstructionAfterHash_eq, hGuard2, hBlock]
    simp
  have hNot : P.getTok.Kind ≠ TokenKind.EndOfStatement := by rw [hParen]; decide
  obtain ⟨Ops, Q, hRet, hOps, _⟩ := ParseInstructionLoop_returns_after_pass T hT Fuel
    FirstTime Operands P hNot hFuel
  rw [hBody] at hOps
  obtain ⟨k, _, _, hPre⟩ := PassStep_AfterParen T hT FirstTime
    (Operands ++ [MOSOperand.Token P.getTok.Str P.getTok.Loc])
    (tryParseExpr T (Operands ++ [MOSOperand.Token P.getTok.Str P.getTok.Loc]) P.Lex
      "expression expected after left parenthesis").2.2
  refine ⟨hBody, ?_, ⟨Ops, Q, hRet, hPre.trans hOps⟩, ?_, ?_⟩
  · intro hNoBrac
    rw [hBody, ParseInstructionAfterParen_eq]
    have hGuard3 : (T.FeatureW65816 &&
        (tryParseExpr T (Operands ++ [MOSOperand.Token P.getTok.Str P.getTok.Loc]) P.Lex
          "expression expected after left parenthesis").2.2.getTok.Kind == TokenKind.LBrac) =
        false := by
      simpa [Bool.and_eq_true, beq_iff_eq] using hNoBrac
    have hPre3 : ∀ (Ops : OperandVector) (Q : ParserState),
        tryPrefixedExpr T false "expression expected after left bracket" Ops Q =
          (false, Ops, Q) := fun _ _ => rfl
    rw [hGuard3, hPre3]
    simp
  · intro Mnemonic NameLoc Ops0 hOps0 hFirst
    subst hOps0
    subst hFirst
    exact ⟨Ops, Q.Lex, ParseInstruction_of_loop T Fuel Mnemonic NameLoc Ops0 P Ops Q hRet,
      hPre.trans hOps⟩
  · intro Fuel0 Mnemonic NameLoc Ops0 P0 hFuel0
    obtain ⟨Ops1, Q1, hRet1, _⟩ := ParseInstruction_returns T hT Fuel0 Mnemonic NameLoc Ops0 P0
      hFuel0
    exact ⟨Ops1, Q1, hRet1⟩

/-- Witness for C13: the file whose one line is `STA (`, on the sample target,
with nine passes allowed. -/
theorem ParseInstruction_paren_failure_witness :
    ∃ (Ops : OperandVector) (Q : ParserState),
      ParseInstruction (Sample.target false) 9 "sta" 0 [] (Sample.start Sample.fileParen) =
        some (false, Ops, Q) ∧
      ([MOSOperand.Token "sta" 0] ++
        [MOSOperand.Token (Sample.start Sample.fileParen).getTok.Str
          (Sample.start Sample.fileParen).getTok.Loc]) <+: Ops :=
  (ParseInstruction_paren_failure (Sample.target false) (Sample_LexesOnly false) 9 true
    [MOSOperand.Token "sta" 0] (Sample.start Sample.fileParen) (by rfl) (by rfl)
    (by decide)).2.2.2.1 "sta" 0 [] rfl rfl

/-- C14, evaluated at its failing input: on the sample target, for a file with
the two lines `LDA #` and `RTS`, `ParseInstruction` called on the first line
returns, but its loop does not stop at the first end-of-statement token: after
the failed expression `tryParseExpr` has eaten that token, the pass goes on
with `rts`, a token of the next line, and appends it as an Immediate operand;
the loop stops at the end-of-statement token of the second line and the lexer
is left at the end of the file. -/
theorem ParseInstruction_runs_past_EndOfStatement :
    ParseInstruction (Sample.target false) 11 "lda" 0 [] (Sample.start Sample.fileHashRts) =
      some (false,
        [.Token "lda" 0, .Token "#" 4, .Immediate (.SymbolRef "rts") 6 9],
        { Toks := [Sample.eofAt 10],
          Diags := [(5, "unknown token in expression"),
            (6, "immediate operand must be an expression evaluating to a value between 0 and 255 inclusive")],
          FailedAsserts := [] }) ∧
    (tryParseExpr (Sample.target false) [.Token "lda" 0, .Token "#" 4]
        (Sample.start Sample.fileHashRts).Lex
        "immediate operand must be an expression evaluating to a value between 0 and 255 inclusive").2.2.Toks
      = Sample.lineRts 6 ++ [Sample.eofAt 10] := by
  exact ⟨rfl, rfl⟩

/-! ## Commas -/

/-- C16, evaluated at its failing input: on the sample target, for a file with
the two lines `LDA )` and `,`, `ParseInstruction` called on the first line
appends a Token operand made from the comma of the second line: the expression
attempt at `)` fails, `tryParseExpr` skips to the next statement, and the
catch-all case pushes the current token, the comma, without a test. A pass
that starts on a comma consumes it without appending an operand and without
touching `FirstTime`. -/
theorem ParseInstruction_comma_token :
    ParseInstruction (Sample.target false) 11 "lda" 0 []
        (Sample.start Sample.fileRParenComma) =
      some (false,
        [.Token "lda" 0, .Token "," 6],
        { Toks := [Sample.eofAt 8],
          Diags := [(4, "unknown token in expression"), (6, "expression expected")],
          FailedAsserts := [] }) ∧
    ∀ (T : Target) (FirstTime : Bool) (Ops : OperandVector) (Q : ParserState),
      Q.getTok.Kind = TokenKind.Comma →
      ParseInstructionBody T FirstTime Ops Q = (FirstTime, Ops, Q.Lex) := by
  refine ⟨rfl, ?_⟩
  intro T FirstTime Ops Q hComma
  rw [ParseInstructionBody_stages]
  simp [tryPrefixedExpr, ParseInstructionLaterCases, hComma]

/-! ## The first operand position -/

/-- C17, evaluated at its failing inputs: on the sample target, in the line
`LDA rc0,label` the Register operand of `rc0` is appended first, and the later
expression `label` still gets the generic expression attempt and becomes an
Immediate operand; in the line `LDA rc0,a` the later `a` still gets the
accumulator shorthand and becomes a Token operand, where the same pass entered
with `FirstTime` clear appends the Register operand of `a`. On every target a
pass that appends a Register operand hands on `FirstTime` as it was. -/
theorem ParseInstruction_register_keeps_FirstTime :
    ParseInstruction (Sample.target false) 8 "lda" 0 [] (Sample.start Sample.lineRegLabel) =
      some (false,
        [.Token "lda" 0, .Register 5 4 7, .Immediate (.SymbolRef "label") 8 13],
        { Toks := [], Diags := [], FailedAsserts := [] }) ∧
    ParseInstruction (Sample.target false) 8 "lda" 0 [] (Sample.start Sample.lineRegA) =
      some (false,
        [.Token "lda" 0, .Register 5 4 7, .Token "a" 8],
        { Toks := [], Diags := [], FailedAsserts := [] }) ∧
    ParseInstructionBody (Sample.target false) false [.Token "lda" 0, .Register 5 4 7]
        (Sample.start (Sample.lineRegA.drop 2)) =
      (false, [.Token "lda" 0, .Register 5 4 7, .Register 1 8 9],
        Sample.start (Sample.lineRegA.drop 3)) ∧
    ∀ (T : Target) (FirstTime : Bool) (Ops : OperandVector) (P : ParserState) (RegNo : Nat)
      (S E : SMLoc),
      P.getTok.Kind ≠ TokenKind.Hash → P.getTok.Kind ≠ TokenKind.LParen →
      P.getTok.Kind ≠ TokenKind.LBrac → P.getTok.Kind ≠ TokenKind.Comma →
      ¬ (FirstTime = true ∧ (P.getTok.Str = "a" ∨ P.getTok.Str = "A")) →
      tryParseAsmParamRegClass T Ops P =
        (OperandMatchResultTy.MatchOperand_Success, Ops ++ [MOSOperand.Register RegNo S E]) →
      ParseInstructionBody T FirstTime Ops P =
        (FirstTime, Ops ++ [MOSOperand.Register RegNo S E], P.Lex) := by
  refine ⟨rfl, rfl, rfl, ?_⟩
  intro T FirstTime Ops P RegNo S E hHash hParen hBrac hComma hA hReg
  have h1 : (P.getTok.Kind == TokenKind.Hash) = false := by simp [hHash]
  have h2 : (P.getTok.Kind == TokenKind.LParen) = false := by simp [hParen]
  have h3 : (T.FeatureW65816 && P.getTok.Kind == TokenKind.LBrac) = false := by simp [hBrac]
  rw [ParseInstructionBody_stages]
  simp only [tryPrefixedExpr, h1, h2, h3, Bool.false_eq_true, if_false]
  unfold ParseInstructionLaterCases
  rw [if_neg hComma]
  simp only
  rw [if_neg hA, hReg]

/-! ## Unknown modifier names -/

/-- On an identifier followed by `(` the sign block of `tryParseRelocExpression`
leaves the parser state alone. -/
theorem relocSignStage_at_identifier (P : ParserState)
    (hId : P.getTok.Kind = TokenKind.Identifier) (hParen : P.peekTok.Kind = TokenKind.LParen) :
    (relocSignStage P).2 = P := by
  have hT0 : P.peekAdvance.getTok.Kind = TokenKind.LParen := hParen
  unfold relocSignStage ParserState.peekTokens
  simp only [hT0, hId]
  by_cases hEof : P.peekAdvance.peekAdvance.getTok.Kind = TokenKind.Eof
  · simp [hEof]
  · by_cases hMinus : P.peekAdvance.peekAdvance.getTok.Kind = TokenKind.Minus
    · simp [hMinus, hT0]
    · simp [hEof, hMinus, hT0]

/-- C18, as stated, fails: on the sample target, for the operand `foo(5)`,
where `foo` is no modifier name, `tryParseExpr` reports "unknown modifier",
then parses `foo` as an ordinary expression, appends the Immediate operand of
the symbol `foo` and returns false (success), leaving the lexer on `(`. -/
theorem tryParseExpr_unknown_modifier_counterexample :
    Sample.getKindByName "foo" = VariantKind.VK_MOS_NONE ∧
    tryParseExpr (Sample.target false) [] (Sample.start Sample.lineUnknownModifier)
        "expression expected" =
      (false, [.Immediate (.SymbolRef "foo") 4 7],
        { Toks := Sample.lineUnknownModifier.tail, Diags := [(4, "unknown modifier")],
          FailedAsserts := [] }) := by
  exact ⟨by decide, rfl⟩

/-- C18, amended: when the current token is an identifier followed by `(` and
is not in the modifier name table, `tryParseRelocExpression` fails with the
diagnostic "unknown modifier", consuming no token and appending no operand;
`tryParseExpr` then runs the generic expression parser at that identifier: when
it succeeds `tryParseExpr` appends the Immediate operand of that expression and
returns success, and when it fails `tryParseExpr` skips to the end of the
statement, reports its own message and returns failure. -/
theorem tryParseExpr_unknown_modifier (T : Target) (Operands : OperandVector) (P : ParserState)
    (ErrorMsg : String) (hId : P.getTok.Kind = TokenKind.Identifier)
    (hParen : P.peekTok.Kind = TokenKind.LParen)
    (hNone : T.getKindByName P.getTok.Str = VariantKind.VK_MOS_NONE) :
    tryParseRelocExpression T Operands P =
      (true, Operands, P.Error P.getTok.Loc "unknown modifier") ∧
    tryParseExpr T Operands P ErrorMsg =
      (match (P.Error P.getTok.Loc "unknown modifier").parseExpression T with
       | (none, Q) =>
         (true, Operands,
           (eatToEndOfStatement Q).Error (eatToEndOfStatement Q).getTok.Loc ErrorMsg)
       | (some Expression, Q) =>
         (false, Operands ++ [MOSOperand.Immediate Expression P.getTok.Loc P.getTok.getEndLoc],
           Q)) := by
  have hReloc : tryParseRelocExpression T Operands P =
      (true, Operands, P.Error P.getTok.Loc "unknown modifier") := by
    rw [tryParseRelocExpression_stages, relocSignStage_at_identifier P hId hParen]
    simp [hId, hParen, hNone]
  refine ⟨hReloc, ?_⟩
  unfold tryParseExpr
  rw [hReloc]
  rfl

/-- Witness for the amended C18: the operand `foo(5)` on the sample target. -/
theorem tryParseExpr_unknown_modifier_witness :
    tryParseRelocExpression (Sample.target false) []
        (Sample.start Sample.lineUnknownModifier) =
      (true, [],
        { Toks := Sample.lineUnknownModifier, Diags := [(4, "unknown modifier")],
          FailedAsserts := [] }) :=
  (tryParseExpr_unknown_modifier (Sample.target false) []
    (Sample.start Sample.lineUnknownModifier) "expression expected"
    (by decide) (by decide) (by decide)).1

/-! ## Matching and emitting -/

/-- The function `invalidOperand` always returns true. -/
theorem invalidOperand_returns_true (P : ParserState) (Loc : SMLoc) (Operands : OperandVector)
    (ErrorInfo : Nat) : (invalidOperand P Loc Operands ErrorInfo).1 = true := rfl

/-- C19: `MatchAndEmitInstruction` returns false exactly when the matcher
result is `Match_Success`; in that case the instruction of the matcher, with
the given location, is handed to the streamer once; for every other result it
returns true and hands nothing to the streamer. -/
theorem MatchAndEmitInstruction_returns
    (MatchInstructionImpl : OperandVector → Bool → MatchResultTy × MCInst × Nat)
    (Loc : SMLoc) (Operands : OperandVector) (Out : List MCInst) (MatchingInlineAsm : Bool)
    (P : ParserState) :
    ((MatchAndEmitInstruction MatchInstructionImpl Loc Operands Out MatchingInlineAsm P).1 = false ↔
      (MatchInstructionImpl Operands MatchingInlineAsm).1 = MatchResultTy.Match_Success) ∧
    ((MatchInstructionImpl Operands MatchingInlineAsm).1 = MatchResultTy.Match_Success →
      (MatchAndEmitInstruction MatchInstructionImpl Loc Operands Out MatchingInlineAsm P).2.1 =
        Out ++ [{ Opcode := (MatchInstructionImpl Operands MatchingInlineAsm).2.1.Opcode,
                  Loc := Loc }]) ∧
    ((MatchInstructionImpl Operands MatchingInlineAsm).1 ≠ MatchResultTy.Match_Success →
      (MatchAndEmitInstruction MatchInstructionImpl Loc Operands Out MatchingInlineAsm P).1 = true ∧
      (MatchAndEmitInstruction MatchInstructionImpl Loc Operands Out MatchingInlineAsm P).2.1 =
        Out) := by
  unfold MatchAndEmitInstruction
  rcases hM : MatchInstructionImpl Operands MatchingInlineAsm with ⟨Result, Inst, ErrorInfo⟩
  cases Result <;> simp [emit, missingFeature, invalidOperand_returns_true]

/-- C20, evaluated at its failing input: when the matcher answers
`Match_UnknownError`, or any result code the `switch` does not name,
`MatchAndEmitInstruction` returns true and the parser state, with its list of
diagnostics, is what it was: no diagnostic is reported. -/
theorem MatchAndEmitInstruction_default_is_silent (Loc : SMLoc) (Operands : OperandVector)
    (Out : List MCInst) (MatchingInlineAsm : Bool) (P : ParserState) (Code : Nat) :
    MatchAndEmitInstruction (Sample.matcher .Match_UnknownError) Loc Operands Out
        MatchingInlineAsm P = (true, Out, P) ∧
    MatchAndEmitInstruction (Sample.matcher (.Match_other Code)) Loc Operands Out
        MatchingInlineAsm P = (true, Out, P) := by
  exact ⟨rfl, rfl⟩

/-! ## The address directive -/

/-- The digit loop only ever adds characters in front of the text. -/
theorem utostrLoop_length (Fuel X : Nat) (Acc : List Char) :
    Acc.length ≤ (utostrLoop Fuel X Acc).length := by
  induction Fuel generalizing X Acc with
  | zero => simp [utostrLoop]
  | succ Fuel ih =>
    unfold utostrLoop
    split_ifs
    · exact le_refl _
    · exact le_trans (by simp) (ih (X / 10) (Char.ofNat (48 + X % 10) :: Acc))

/-- The text of `utostr` has the digits and, when asked for, the sign. -/
theorem utostr_length (X : Nat) (isNeg : Bool) :
    (utostr X isNeg).length = (utostr X false).length + (if isNeg then 1 else 0) := by
  cases isNeg <;> simp [utostr, String.length]

/-- The text of `utostr` is never empty. -/
theorem utostr_length_pos (X : Nat) (isNeg : Bool) : 1 ≤ (utostr X isNeg).length := by
  rw [utostr_length]
  have h : 1 ≤ (utostr X false).length := by
    unfold utostr
    by_cases hX : X = 0
    · simp [hX, String.length]
    · have h1 := utostrLoop_length 19 (X / 10) [Char.ofNat (48 + X % 10)]
      simp only [hX, if_false, String.length, Bool.false_eq_true]
      rw [show (20 : Nat) = 19 + 1 from rfl, utostrLoop, if_neg hX]
      simpa using h1
  omega

/-- The text of `itostr` is never empty. -/
theorem itostr_length_pos (X : Int) : 1 ≤ (itostr X).length := by
  unfold itostr
  split_ifs <;> exact utostr_length_pos _ _

/-- The text of a negative value is the text of its magnitude with one more
character, the sign. -/
theorem itostr_length_neg (X : Int) (h : X < 0) :
    (itostr X).length = (itostr (-X)).length + 1 := by
  unfold itostr
  rw [if_pos h, if_neg (by omega), utostr_length]
  simp

/-- Once the operands are parsed, `parseAddrAsciz` is its second part. -/
theorem parseAddrAsciz_of_args (T : Target)
    (checkForValidSection : ParserState → Bool × ParserState)
    (parseAbsoluteExpression : List AsmToken → Option Int × List AsmToken × List (SMLoc × String))
    (DirectiveLoc : SMLoc) (Out : List StreamItem) (P Q : ParserState) (A : AddrAscizArgs)
    (hArgs : parseAddrAscizArgs T checkForValidSection parseAbsoluteExpression P = (some A, Q)) :
    parseAddrAsciz T checkForValidSection parseAbsoluteExpression DirectiveLoc Out P =
      parseAddrAscizEmit A DirectiveLoc Out Q := by
  unfold parseAddrAsciz
  rw [hArgs]

/-- A char count outside [1,8] ends the directive with the range diagnostic. -/
theorem parseAddrAscizEmit_out_of_range (A : AddrAscizArgs) (DirectiveLoc : SMLoc)
    (Out : List StreamItem) (Q : ParserState)
    (h : A.CharCountValue < 1 ∨ A.CharCountValue > 8) :
    parseAddrAscizEmit A DirectiveLoc Out Q =
      (true, Out, Q.Error A.CharCountLoc "char count out of range [1,8]") := by
  unfold parseAddrAscizEmit
  rw [if_pos h]

/-- The constant path of the directive with a char count in [1,8]. -/
theorem parseAddrAscizEmit_constant (A : AddrAscizArgs) (DirectiveLoc : SMLoc)
    (Out : List StreamItem) (Q : ParserState) (Value : Int)
    (hConst : A.AddrValue = MCExpr.Constant Value)
    (hLow : 1 ≤ A.CharCountValue) (hHigh : A.CharCountValue ≤ 8) :
    parseAddrAscizEmit A DirectiveLoc Out Q =
      if A.CharCountValue.toNat < (itostr Value).length then
        (true, Out, Q.Error A.AddrLoc "out of range literal value")
      else
        (false, Out ++ [StreamItem.Bytes (itostr Value).data,
            StreamItem.Bytes (List.replicate (A.CharCountValue.toNat - (itostr Value).length + 1)
              (Char.ofNat 0))], Q) := by
  unfold parseAddrAscizEmit
  rw [if_neg (by omega)]
  simp only [hConst]
  have hSize : toSizeT A.CharCountValue = A.CharCountValue.toNat := by
    unfold toSizeT
    rw [Int.emod_eq_of_lt (by omega) (by omega)]
  rw [hSize]
  by_cases hLen : A.CharCountValue.toNat < (itostr Value).length
  · rw [if_pos hLen, if_pos hLen]
  · rw [if_neg (by omega), if_neg hLen]
    have hPad : toSizeT (A.CharCountValue - ((itostr Value).length : Int) + 1) =
        A.CharCountValue.toNat - (itostr Value).length + 1 := by
      unfold toSizeT
      rw [Int.emod_eq_of_lt (by omega) (by omega)]
      omega
    rw [hPad]
    have hTake : List.take (A.CharCountValue.toNat - (itostr Value).length + 1) NulLiteral =
        List.replicate (A.CharCountValue.toNat - (itostr Value).length + 1) (Char.ofNat 0) := by
      unfold NulLiteral
      rw [List.take_replicate]
      congr 1
      omega
    rw [hTake]
    simp

/-- The path of the directive for an address that is no constant, with a char
count in [1,8]. -/
theorem parseAddrAscizEmit_nonconstant (A : AddrAscizArgs) (DirectiveLoc : SMLoc)
    (Out : List StreamItem) (Q : ParserState)
    (hNot : ∀ Value, A.AddrValue ≠ MCExpr.Constant Value)
    (hLow : 1 ≤ A.CharCountValue) (hHigh : A.CharCountValue ≤ 8) :
    parseAddrAscizEmit A DirectiveLoc Out Q =
      (false, Out ++ [StreamItem.Value
        (MCExpr.Target VariantKind.VK_MOS_ADDR_ASCIZ A.AddrValue false)
        (A.CharCountValue.toNat + 1) DirectiveLoc], Q) := by
  unfold parseAddrAscizEmit
  rw [if_neg (by omega)]
  have hSize : toUnsigned (A.CharCountValue + 1) = A.CharCountValue.toNat + 1 := by
    unfold toUnsigned
    rw [Int.emod_eq_of_lt (by omega) (by omega)]
    omega
  rw [hSize]
  rcases A with ⟨AddrValue, AddrLoc, CharCountValue, CharCountLoc⟩
  cases AddrValue with
  | Constant Value => exact absurd rfl (hNot Value)
  | SymbolRef Name => rfl
  | Unary Opcode Sub => rfl
  | Binary Opcode LHS RHS => rfl
  | Target Kind Sub Negated => rfl

/-- The bytes of two runs of stream items, one after the other. -/
theorem emittedBytes_append (Xs Ys : List StreamItem) :
    emittedBytes (Xs ++ Ys) = emittedBytes Xs ++ emittedBytes Ys := by
  induction Xs with
  | nil => rfl
  | cons X Xs ih =>
    cases X with
    | Bytes Data => simp [emittedBytes, ih]
    | Value Expr Size Loc => simp [emittedBytes, ih]

/-- C21: once its operands are parsed, `parseAddrAsciz` ends with the range
diagnostic "char count out of range [1,8]" at the char count, having emitted
nothing, exactly when the char count is below 1 or above 8 (0 and 9 among
them); a char count in [1,8] passes the range check. -/
theorem parseAddrAsciz_char_count_range (T : Target)
    (checkForValidSection : ParserState → Bool × ParserState)
    (parseAbsoluteExpression : List AsmToken → Option Int × List AsmToken × List (SMLoc × String))
    (DirectiveLoc : SMLoc) (Out : List StreamItem) (P Q : ParserState) (A : AddrAscizArgs)
    (hArgs : parseAddrAscizArgs T checkForValidSection parseAbsoluteExpression P = (some A, Q)) :
    (parseAddrAsciz T checkForValidSection parseAbsoluteExpression DirectiveLoc Out P =
        (true, Out, Q.Error A.CharCountLoc "char count out of range [1,8]") ↔
      (A.CharCountValue < 1 ∨ 8 < A.CharCountValue)) ∧
    (A.CharCountValue = 0 ∨ A.CharCountValue = 9 →
      parseAddrAsciz T checkForValidSection parseAbsoluteExpression DirectiveLoc Out P =
        (true, Out, Q.Error A.CharCountLoc "char count out of range [1,8]")) := by
  rw [parseAddrAsciz_of_args T checkForValidSection parseAbsoluteExpression DirectiveLoc Out P Q A
    hArgs]
  refine ⟨⟨?_, fun h => parseAddrAscizEmit_out_of_range A DirectiveLoc Out Q h⟩,
    fun h => parseAddrAscizEmit_out_of_range A DirectiveLoc Out Q (by omega)⟩
  intro hEq
  by_contra hIn
  have hLow : 1 ≤ A.CharCountValue := by omega
  have hHigh : A.CharCountValue ≤ 8 := by omega
  by_cases hC : ∃ Value, A.AddrValue = MCExpr.Constant Value
  · rcases hC with ⟨Value, hConst⟩
    rw [parseAddrAscizEmit_constant A DirectiveLoc Out Q Value hConst hLow hHigh] at hEq
    split_ifs at hEq
    · have hD := congrArg (fun R => R.2.2.Diags) hEq
      simp [ParserState.Error] at hD
    · simp at hEq
  · rw [parseAddrAscizEmit_nonconstant A DirectiveLoc Out Q
      (fun Value hV => hC ⟨Value, hV⟩) hLow hHigh] at hEq
    simp at hEq

/-- C21, at `.mos_addr_asciz 1234, 9`. -/
theorem parseAddrAsciz_char_count_range_witness :
    parseAddrAsciz (Sample.target false) Sample.checkForValidSection
        Sample.parseAbsoluteExpression 0 [] (Sample.start (Sample.lineAddrAscizConstant 9)) =
      (true, [], { Toks := [{ Kind := .EndOfStatement, Str := "", IntVal := 0, Loc := 23 }],
                   Diags := [(22, "char count out of range [1,8]")], FailedAsserts := [] }) :=
  ((parseAddrAsciz_char_count_range (Sample.target false) Sample.checkForValidSection
    Sample.parseAbsoluteExpression 0 [] (Sample.start (Sample.lineAddrAscizConstant 9))
    { Toks := [{ Kind := .EndOfStatement, Str := "", IntVal := 0, Loc := 23 }],
      Diags := [], FailedAsserts := [] }
    { AddrValue := .Constant 1234, AddrLoc := 16, CharCountValue := 9, CharCountLoc := 22 }
    rfl).1).2 (Or.inr (by decide))

/-- C22: for a constant address and a char count in [1,8], `parseAddrAsciz`
returns true exactly when the text of `itostr` for the constant (one character
longer for a negative constant: the sign) has more characters than the count;
it then reports "out of range literal value" at the address and has emitted
nothing; otherwise it returns false and reports nothing. -/
theorem parseAddrAsciz_constant_text_length (T : Target)
    (checkForValidSection : ParserState → Bool × ParserState)
    (parseAbsoluteExpression : List AsmToken → Option Int × List AsmToken × List (SMLoc × String))
    (DirectiveLoc : SMLoc) (Out : List StreamItem) (P Q : ParserState) (A : AddrAscizArgs)
    (Value : Int)
    (hArgs : parseAddrAscizArgs T checkForValidSection parseAbsoluteExpression P = (some A, Q))
    (hConst : A.AddrValue = MCExpr.Constant Value)
    (hLow : 1 ≤ A.CharCountValue) (hHigh : A.CharCountValue ≤ 8) :
    ((parseAddrAsciz T checkForValidSection parseAbsoluteExpression DirectiveLoc Out P).1 = true ↔
      A.CharCountValue < ((itostr Value).length : Int)) ∧
    (A.CharCountValue < ((itostr Value).length : Int) →
      parseAddrAsciz T checkForValidSection parseAbsoluteExpression DirectiveLoc Out P =
        (true, Out, Q.Error A.AddrLoc "out of range literal value")) ∧
    (((itostr Value).length : Int) ≤ A.CharCountValue →
      (parseAddrAsciz T checkForValidSection parseAbsoluteExpression DirectiveLoc Out P).1 = false ∧
      (parseAddrAsciz T checkForValidSection parseAbsoluteExpression DirectiveLoc Out P).2.2 = Q) ∧
    (Value < 0 → (itostr Value).length = (itostr (-Value)).length + 1) := by
  rw [parseAddrAsciz_of_args T checkForValidSection parseAbsoluteExpression DirectiveLoc Out P Q A
    hArgs, parseAddrAscizEmit_constant A DirectiveLoc Out Q Value hConst hLow hHigh]
  refine ⟨?_, ?_, ?_, itostr_length_neg Value⟩
  · by_cases hLen : A.CharCountValue.toNat < (itostr Value).length
    · rw [if_pos hLen]
      exact ⟨fun _ => by omega, fun _ => rfl⟩
    · rw [if_neg hLen]
      exact ⟨fun h => by simp at h, fun h => absurd h (by omega)⟩
  · intro h
    rw [if_pos (by omega)]
  · intro h
    rw [if_neg (by omega)]
    exact ⟨rfl, rfl⟩

/-- C22, at `.mos_addr_asciz 1234, 3`: four characters do not fit three. -/
theorem parseAddrAsciz_constant_text_length_witness :
    parseAddrAsciz (Sample.target false) Sample.checkForValidSection
        Sample.parseAbsoluteExpression 0 [] (Sample.start (Sample.lineAddrAscizConstant 3)) =
      (true, [], { Toks := [{ Kind := .EndOfStatement, Str := "", IntVal := 0, Loc := 23 }],
                   Diags := [(16, "out of range literal value")], FailedAsserts := [] }) :=
  (parseAddrAsciz_constant_text_length (Sample.target false) Sample.checkForValidSection
    Sample.parseAbsoluteExpression 0 [] (Sample.start (Sample.lineAddrAscizConstant 3))
    { Toks := [{ Kind := .EndOfStatement, Str := "", IntVal := 0, Loc := 23 }],
      Diags := [], FailedAsserts := [] }
    { AddrValue := .Constant 1234, AddrLoc := 16, CharCountValue := 3, CharCountLoc := 22 }
    1234 rfl rfl (by decide) (by decide)).2.1 (by decide)

/-- C23: for a constant address whose text is exactly as long as the char
count (at most 8), `parseAddrAsciz` returns false, reports nothing, and emits
the text and after it a run of NUL bytes of length one: the terminating NUL,
with no padding in between. -/
theorem parseAddrAsciz_exact_width (T : Target)
    (checkForValidSection : ParserState → Bool × ParserState)
    (parseAbsoluteExpression : List AsmToken → Option Int × List AsmToken × List (SMLoc × String))
    (DirectiveLoc : SMLoc) (Out : List StreamItem) (P Q : ParserState) (A : AddrAscizArgs)
    (Value : Int)
    (hArgs : parseAddrAscizArgs T checkForValidSection parseAbsoluteExpression P = (some A, Q))
    (hConst : A.AddrValue = MCExpr.Constant Value)
    (hLen : ((itostr Value).length : Int) = A.CharCountValue) (hHigh : A.CharCountValue ≤ 8) :
    parseAddrAsciz T checkForValidSection parseAbsoluteExpression DirectiveLoc Out P =
        (false, Out ++ [StreamItem.Bytes (itostr Value).data, StreamItem.Bytes [Char.ofNat 0]],
          Q) ∧
    emittedBytes
        (parseAddrAsciz T checkForValidSection parseAbsoluteExpression DirectiveLoc Out P).2.1 =
      emittedBytes Out ++ (itostr Value).data ++ [Char.ofNat 0] := by
  have hPos := itostr_length_pos Value
  have hEq : parseAddrAsciz T checkForValidSection parseAbsoluteExpression DirectiveLoc Out P =
      (false, Out ++ [StreamItem.Bytes (itostr Value).data, StreamItem.Bytes [Char.ofNat 0]],
        Q) := by
    rw [parseAddrAsciz_of_args T checkForValidSection parseAbsoluteExpression DirectiveLoc Out P
      Q A hArgs,
      parseAddrAscizEmit_constant A DirectiveLoc Out Q Value hConst (by omega) hHigh,
      if_neg (by omega)]
    have hOne : A.CharCountValue.toNat - (itostr Value).length + 1 = 1 := by omega
    rw [hOne]
    rfl
  refine ⟨hEq, ?_⟩
  rw [hEq, emittedBytes_append]
  simp [emittedBytes]

/-- C23, at `.mos_addr_asciz 1234, 4`. -/
theorem parseAddrAsciz_exact_width_witness :
    parseAddrAsciz (Sample.target false) Sample.checkForValidSection
        Sample.parseAbsoluteExpression 0 [] (Sample.start (Sample.lineAddrAscizConstant 4)) =
      (false, [StreamItem.Bytes ['1', '2', '3', '4'], StreamItem.Bytes [Char.ofNat 0]],
        { Toks := [{ Kind := .EndOfStatement, Str := "", IntVal := 0, Loc := 23 }],
          Diags := [], FailedAsserts := [] }) :=
  (parseAddrAsciz_exact_width (Sample.target false) Sample.checkForValidSection
    Sample.parseAbsoluteExpression 0 [] (Sample.start (Sample.lineAddrAscizConstant 4))
    { Toks := [{ Kind := .EndOfStatement, Str := "", IntVal := 0, Loc := 23 }],
      Diags := [], FailedAsserts := [] }
    { AddrValue := .Constant 1234, AddrLoc := 16, CharCountValue := 4, CharCountLoc := 22 }
    1234 rfl rfl (by decide) (by decide)).1

/-- C28: when `parseAddrAsciz` returns false after parsing its operands, the
char count N is in [1,8] and nothing is reported. For a constant whose text
has length L, L is at most N and the directive emits the text and then a run of
N-L+1 NUL bytes; the run length is between 1 and 8, below the nine bytes of the
literal it is sliced from, and N+1 bytes are emitted in all. For any other
address the directive emits one value of size N+1, the address wrapped in the
kind `VK_MOS_ADDR_ASCIZ`, not negated, at the location of the directive. -/
theorem parseAddrAsciz_emits (T : Target)
    (checkForValidSection : ParserState → Bool × ParserState)
    (parseAbsoluteExpression : List AsmToken → Option Int × List AsmToken × List (SMLoc × String))
    (DirectiveLoc : SMLoc) (Out : List StreamItem) (P Q : ParserState) (A : AddrAscizArgs)
    (hArgs : parseAddrAscizArgs T checkForValidSection parseAbsoluteExpression P = (some A, Q))
    (hOk : (parseAddrAsciz T checkForValidSection parseAbsoluteExpression DirectiveLoc Out P).1 =
      false) :
    1 ≤ A.CharCountValue ∧ A.CharCountValue ≤ 8 ∧
    (parseAddrAsciz T checkForValidSection parseAbsoluteExpression DirectiveLoc Out P).2.2 = Q ∧
    (∀ Value, A.AddrValue = MCExpr.Constant Value →
      (itostr Value).length ≤ A.CharCountValue.toNat ∧
      1 ≤ A.CharCountValue.toNat - (itostr Value).length + 1 ∧
      A.CharCountValue.toNat - (itostr Value).length + 1 ≤ 8 ∧
      A.CharCountValue.toNat - (itostr Value).length + 1 < NulLiteral.length ∧
      (parseAddrAsciz T checkForValidSection parseAbsoluteExpression DirectiveLoc Out P).2.1 =
        Out ++ [StreamItem.Bytes (itostr Value).data,
          StreamItem.Bytes (List.replicate (A.CharCountValue.toNat - (itostr Value).length + 1)
            (Char.ofNat 0))] ∧
      (emittedBytes
        (parseAddrAsciz T checkForValidSection parseAbsoluteExpression DirectiveLoc Out P).2.1).length
        = (emittedBytes Out).length + (A.CharCountValue.toNat + 1)) ∧
    ((∀ Value, A.AddrValue ≠ MCExpr.Constant Value) →
      (parseAddrAsciz T checkForValidSection parseAbsoluteExpression DirectiveLoc Out P).2.1 =
        Out ++ [StreamItem.Value (MCExpr.Target VariantKind.VK_MOS_ADDR_ASCIZ A.AddrValue false)
          (A.CharCountValue.toNat + 1) DirectiveLoc]) := by
  rw [parseAddrAsciz_of_args T checkForValidSection parseAbsoluteExpression DirectiveLoc Out P Q A
    hArgs] at hOk ⊢
  have hIn : ¬ (A.CharCountValue < 1 ∨ A.CharCountValue > 8) := by
    intro h
    rw [parseAddrAscizEmit_out_of_range A DirectiveLoc Out Q h] at hOk
    simp at hOk
  have hLow : 1 ≤ A.CharCountValue := by omega
  have hHigh : A.CharCountValue ≤ 8 := by omega
  refine ⟨hLow, hHigh, ?_, ?_, ?_⟩
  · by_cases hC : ∃ Value, A.AddrValue = MCExpr.Constant Value
    · rcases hC with ⟨Value, hConst⟩
      rw [parseAddrAscizEmit_constant A DirectiveLoc Out Q Value hConst hLow hHigh] at hOk ⊢
      by_cases hLen : A.CharCountValue.toNat < (itostr Value).length
      · rw [if_pos hLen] at hOk
        simp at hOk
      · rw [if_neg hLen]
    · rw [parseAddrAscizEmit_nonconstant A DirectiveLoc Out Q
        (fun Value hV => hC ⟨Value, hV⟩) hLow hHigh]
  · intro Value hConst
    have hPos := itostr_length_pos Value
    rw [parseAddrAscizEmit_constant A DirectiveLoc Out Q Value hConst hLow hHigh] at hOk ⊢
    by_cases hLen : A.CharCountValue.toNat < (itostr Value).length
    · rw [if_pos hLen] at hOk
      simp at hOk
    · rw [if_neg hLen]
      have hNul : NulLiteral.length = 9 := rfl
      refine ⟨by omega, by omega, by omega, by omega, rfl, ?_⟩
      rw [emittedBytes_append]
      simp only [emittedBytes, List.length_append, List.length_replicate, List.length_nil,
        String.length] at hPos hLen ⊢
      omega
  · intro hNot
    rw [parseAddrAscizEmit_nonconstant A DirectiveLoc Out Q hNot hLow hHigh]

/-- C28, at `.mos_addr_asciz label, 5`: one value of six bytes. -/
theorem parseAddrAsciz_emits_witness :
    (parseAddrAsciz (Sample.target false) Sample.checkForValidSection
        Sample.parseAbsoluteExpression 3 [] (Sample.start Sample.lineAddrAscizSymbol)).2.1 =
      [StreamItem.Value
        (MCExpr.Target VariantKind.VK_MOS_ADDR_ASCIZ (MCExpr.SymbolRef "label") false) 6 3] :=
  (parseAddrAsciz_emits (Sample.target false) Sample.checkForValidSection
    Sample.parseAbsoluteExpression 3 [] (Sample.start Sample.lineAddrAscizSymbol)
    { Toks := [{ Kind := .EndOfStatement, Str := "", IntVal := 0, Loc := 24 }],
      Diags := [], FailedAsserts := [] }
    { AddrValue := .SymbolRef "label", AddrLoc := 16, CharCountValue := 5, CharCountLoc := 23 }
    rfl rfl).2.2.2.2 (by intro Value h; cases h)

/-! ## Modifiers: stub qualifier, parentheses, sign -/

/-- At the stub qualifier, the stub block replaces the modifier kind by what
the name table has for the combined name, whatever it is, and eats the
qualifier only when that is a kind other than `VK_MOS_NONE`. -/
theorem relocStubStage_at_qualifier (T : Target) (ModifierName : String)
    (ModifierKind : VariantKind) (P : ParserState)
    (hTok : P.getTok.Str = GenerateStubs ∧ P.getTok.Kind = TokenKind.Identifier) :
    relocStubStage T ModifierName ModifierKind P =
      (T.getKindByName (ModifierName ++ "_" ++ GenerateStubs),
        if T.getKindByName (ModifierName ++ "_" ++ GenerateStubs) ≠ VariantKind.VK_MOS_NONE
        then P.Lex else P) := by
  unfold relocStubStage
  rw [if_pos hTok]

/-- The negation flag of the sign block is set exactly when two tokens were
peeked and either they are a name and `(` behind a current `-`, or they are
`(` and `-`. -/
theorem relocSignStage_flag (P : ParserState) :
    (relocSignStage P).1 = true ↔
      P.peekTokens.1 = 2 ∧
        ((P.peekTokens.2.1.Kind = TokenKind.Identifier ∧
            P.peekTokens.2.2.Kind = TokenKind.LParen ∧ P.getTok.Kind = TokenKind.Minus) ∨
          (P.peekTokens.2.1.Kind = TokenKind.LParen ∧
            P.peekTokens.2.2.Kind = TokenKind.Minus)) := by
  unfold relocSignStage
  simp only [Bool.and_eq_true, Bool.or_eq_true, beq_iff_eq]
  constructor
  · rintro ⟨⟨hCount, hPattern⟩, hMinus⟩
    refine ⟨hCount, ?_⟩
    rcases hPattern with ⟨h0, h1⟩ | ⟨h0, h1⟩
    · rcases hMinus with hCur | hPeek
      · exact Or.inl ⟨h0, h1, hCur⟩
      · rw [h1] at hPeek
        cases hPeek
    · exact Or.inr ⟨h0, h1⟩
  · rintro ⟨hCount, ⟨h0, h1, hCur⟩ | ⟨h0, h1⟩⟩
    · exact ⟨⟨hCount, Or.inl ⟨h0, h1⟩⟩, Or.inl hCur⟩
    · exact ⟨⟨hCount, Or.inr ⟨h0, h1⟩⟩, Or.inr h1⟩

/-- When `tryParseRelocExpression` succeeds, the operand it appends is a
modifier expression whose negation flag is the flag of the sign block. -/
theorem tryParseRelocExpression_flag (T : Target) (Operands : OperandVector)
    (P : ParserState) (hOk : (tryParseRelocExpression T Operands P).1 = false) :
    ∃ Kind Inner S E, (tryParseRelocExpression T Operands P).2.1 =
      Operands ++ [MOSOperand.Immediate (MCExpr.Target Kind Inner (relocSignStage P).1) S E] := by
  rw [tryParseRelocExpression_stages] at hOk ⊢
  unfold pushRelocOperand at hOk ⊢
  split_ifs at hOk ⊢ <;> (try split at hOk) <;> simp_all

/-- C24: with the sample name table, which has `mos16lo` and no `mos16lo_gs`,
the operand `mos16lo(gs)` is parsed with success into a modifier expression of
kind `VK_MOS_NONE` around the symbol `gs`: the failed lookup of the combined
name has replaced the base kind `VK_MOS_ADDR16_LO`, and the qualifier, left
unconsumed by the stub block, is read as the inner expression. On every input
the stub block replaces the kind by the result of the lookup, and eats the
qualifier only when the lookup finds a kind. -/
theorem tryParseRelocExpression_stub_lookup_drops_kind :
    Sample.getKindByName "mos16lo" = VariantKind.VK_MOS_ADDR16_LO ∧
    Sample.getKindByName ("mos16lo" ++ "_" ++ GenerateStubs) = VariantKind.VK_MOS_NONE ∧
    tryParseRelocExpression (Sample.target false) [] (Sample.start Sample.lineStubQualifier) =
      (false,
        [MOSOperand.Immediate
          (MCExpr.Target VariantKind.VK_MOS_NONE (MCExpr.SymbolRef "gs") false) 4 14],
        { Toks := [{ Kind := .EndOfStatement, Str := "", IntVal := 0, Loc := 15 }],
          Diags := [], FailedAsserts := [] }) ∧
    (∀ (T : Target) (ModifierName : String) (ModifierKind : VariantKind) (P : ParserState),
      P.getTok.Str = GenerateStubs ∧ P.getTok.Kind = TokenKind.Identifier →
      relocStubStage T ModifierName ModifierKind P =
        (T.getKindByName (ModifierName ++ "_" ++ GenerateStubs),
          if T.getKindByName (ModifierName ++ "_" ++ GenerateStubs) ≠ VariantKind.VK_MOS_NONE
          then P.Lex else P)) :=
  ⟨rfl, rfl, rfl, relocStubStage_at_qualifier⟩

/-- C25: the parenthesis checks of the modifier path are assertions only. On
`mos16lo(x` at the end of a line, followed by a line `RTS`, the function
returns success: the assertion on the closing parenthesis is false, the end of
the statement is eaten in its place, no diagnostic is reported and an operand
is appended. On `mos16lo(-5)` the assertion on the parenthesis after the inner
sign is false and the token `5` is eaten in its place; the function then fails
in the inner expression, at the closing parenthesis. -/
theorem tryParseRelocExpression_parenthesis_assertions_fail :
    tryParseRelocExpression (Sample.target false) [] (Sample.start Sample.lineMissingParen) =
      (false,
        [MOSOperand.Immediate
          (MCExpr.Target VariantKind.VK_MOS_ADDR16_LO (MCExpr.SymbolRef "x") false) 4 13],
        { Toks := Sample.lineRts 14, Diags := [],
          FailedAsserts := ["Parser.getTok().getKind() == AsmToken::RParen"] }) ∧
    tryParseRelocExpression (Sample.target false) [] (Sample.start Sample.lineInnerSignNoParen) =
      (true, [],
        { Toks := [{ Kind := .RParen, Str := ")", IntVal := 0, Loc := 14 },
                   { Kind := .EndOfStatement, Str := "", IntVal := 0, Loc := 15 }],
          Diags := [(14, "unknown token in expression")],
          FailedAsserts := ["Parser.getTok().getKind() == AsmToken::LParen"] }) :=
  ⟨rfl, rfl⟩

/-- C26, as stated, fails: on `mos16lo(-(5))`, where no sign stands before the
modifier name, the modifier expression is flagged as negated, and its inner
expression is the plain constant 5. -/
theorem tryParseRelocExpression_inner_sign_counterexample :
    (Sample.start Sample.lineInnerSign).getTok.Kind = TokenKind.Identifier ∧
    tryParseRelocExpression (Sample.target false) [] (Sample.start Sample.lineInnerSign) =
      (false,
        [MOSOperand.Immediate
          (MCExpr.Target VariantKind.VK_MOS_ADDR16_LO (MCExpr.Constant 5) true) 4 16],
        { Toks := [{ Kind := .EndOfStatement, Str := "", IntVal := 0, Loc := 17 }],
          Diags := [], FailedAsserts := [] }) :=
  ⟨rfl, rfl⟩

/-- C26, amended: when `tryParseRelocExpression` succeeds, the operand it
appends is a modifier expression, and its negation flag is set exactly when
two tokens could be peeked after the current one and either the current token
is `-` and they are a name and `(` (a leading sign, `-name(expr)`), or they
are `(` and `-` (a sign right inside the parenthesis, `name(-(expr))`). -/
theorem tryParseRelocExpression_negation_flag (T : Target) (Operands : OperandVector)
    (P : ParserState) (hOk : (tryParseRelocExpression T Operands P).1 = false) :
    ∃ Kind Inner Negated S E,
      (tryParseRelocExpression T Operands P).2.1 =
        Operands ++ [MOSOperand.Immediate (MCExpr.Target Kind Inner Negated) S E] ∧
      (Negated = true ↔
        P.peekTokens.1 = 2 ∧
          ((P.peekTokens.2.1.Kind = TokenKind.Identifier ∧
              P.peekTokens.2.2.Kind = TokenKind.LParen ∧ P.getTok.Kind = TokenKind.Minus) ∨
            (P.peekTokens.2.1.Kind = TokenKind.LParen ∧
              P.peekTokens.2.2.Kind = TokenKind.Minus))) := by
  rcases tryParseRelocExpression_flag T Operands P hOk with ⟨Kind, Inner, S, E, h⟩
  exact ⟨Kind, Inner, (relocSignStage P).1, S, E, h, relocSignStage_flag P⟩

/-- C26, amended, at `mos16lo(-(5))`. -/
theorem tryParseRelocExpression_negation_flag_witness :
    ∃ Kind Inner Negated S E,
      (tryParseRelocExpression (Sample.target false) []
          (Sample.start Sample.lineInnerSign)).2.1 =
        [] ++ [MOSOperand.Immediate (MCExpr.Target Kind Inner Negated) S E] ∧
      (Negated = true ↔
        (Sample.start Sample.lineInnerSign).peekTokens.1 = 2 ∧
          (((Sample.start Sample.lineInnerSign).peekTokens.2.1.Kind = TokenKind.Identifier ∧
              (Sample.start Sample.lineInnerSign).peekTokens.2.2.Kind = TokenKind.LParen ∧
              (Sample.start Sample.lineInnerSign).getTok.Kind = TokenKind.Minus) ∨
            ((Sample.start Sample.lineInnerSign).peekTokens.2.1.Kind = TokenKind.LParen ∧
              (Sample.start Sample.lineInnerSign).peekTokens.2.2.Kind = TokenKind.Minus))) :=
  tryParseRelocExpression_negation_flag (Sample.target false) []
    (Sample.start Sample.lineInnerSign) rfl

/-- C27: `tryParseRelocExpression` and `tryParseExpr` change the operand list
only on success: when either returns false the list is the list on entry with
one Immediate operand appended, and when either returns true the list is the
list on entry. A failure may have consumed tokens all the same, as on
`mos16lo(-5)`. -/
theorem operand_list_changes_only_on_success (T : Target) (Operands : OperandVector)
    (P : ParserState) (ErrorMsg : String) :
    ((tryParseRelocExpression T Operands P).1 = false →
      ∃ Val S E, (tryParseRelocExpression T Operands P).2.1 =
        Operands ++ [MOSOperand.Immediate Val S E]) ∧
    ((tryParseRelocExpression T Operands P).1 = true →
      (tryParseRelocExpression T Operands P).2.1 = Operands) ∧
    ((tryParseExpr T Operands P ErrorMsg).1 = false →
      ∃ Val S E, (tryParseExpr T Operands P ErrorMsg).2.1 =
        Operands ++ [MOSOperand.Immediate Val S E]) ∧
    ((tryParseExpr T Operands P ErrorMsg).1 = true →
      (tryParseExpr T Operands P ErrorMsg).2.1 = Operands) ∧
    ((tryParseRelocExpression (Sample.target false) Operands
        (Sample.start Sample.lineInnerSignNoParen)).1 = true ∧
      (tryParseRelocExpression (Sample.target false) Operands
        (Sample.start Sample.lineInnerSignNoParen)).2.2.Toks =
          Sample.lineInnerSignNoParen.drop 4) := by
  have hReloc := tryParseRelocExpression_operands T Operands P
  have hExpr := tryParseExpr_cases T Operands P ErrorMsg
  refine ⟨?_, ?_, ?_, ?_, rfl, rfl⟩
  · intro h
    rcases hReloc with ⟨h1, _⟩ | ⟨_, h2⟩
    · rw [h] at h1
      cases h1
    · exact h2
  · intro h
    rcases hReloc with ⟨_, h2⟩ | ⟨h1, _⟩
    · exact h2
    · rw [h] at h1
      cases h1
  · intro h
    rcases hExpr with ⟨h1, _⟩ | ⟨_, h2⟩
    · rw [h] at h1
      cases h1
    · exact h2
  · intro h
    rcases hExpr with ⟨_, h2, _⟩ | ⟨h1, _⟩
    · exact h2
    · rw [h] at h1
      cases h1

/-! ## Diagnostics of the matcher -/

/-- C29: `invalidOperand` returns true and reports one diagnostic. It is "too
few operands for instruction", at the location of the instruction, exactly
when `ErrorInfo` is not `0xFFFFFFFF` and is at least the number of operands,
as the 64-bit all-ones value is; otherwise it is "invalid operand for
instruction", at the start of operand number `ErrorInfo` when `ErrorInfo` is
not `0xFFFFFFFF`, which is then below the number of operands, and at the
location of the instruction when `ErrorInfo` is `0xFFFFFFFF`. -/
theorem invalidOperand_diagnostic (P : ParserState) (Loc : SMLoc) (Operands : OperandVector)
    (ErrorInfo : Nat) :
    (invalidOperand P Loc Operands ErrorInfo).1 = true ∧
    (∃ ErrorLoc Msg,
      (invalidOperand P Loc Operands ErrorInfo).2.Diags = P.Diags ++ [(ErrorLoc, Msg)] ∧
      (invalidOperand P Loc Operands ErrorInfo).2.Toks = P.Toks ∧
      (Msg = "too few operands for instruction" ∨ Msg = "invalid operand for instruction") ∧
      (Msg = "too few operands for instruction" ↔
        (ErrorInfo ≠ 0xFFFFFFFF ∧ Operands.length ≤ ErrorInfo))) ∧
    (ErrorInfo ≠ 0xFFFFFFFF → Operands.length ≤ ErrorInfo →
      invalidOperand P Loc Operands ErrorInfo =
        (true, P.Error Loc "too few operands for instruction")) ∧
    (∀ h : ErrorInfo < Operands.length, ErrorInfo ≠ 0xFFFFFFFF →
      invalidOperand P Loc Operands ErrorInfo =
        (true, P.Error (Operands.get ⟨ErrorInfo, h⟩).getStartLoc
          "invalid operand for instruction")) ∧
    (ErrorInfo = 0xFFFFFFFF →
      invalidOperand P Loc Operands ErrorInfo =
        (true, P.Error Loc "invalid operand for instruction")) ∧
    (Operands.length ≤ 0xFFFFFFFFFFFFFFFF →
      invalidOperand P Loc Operands 0xFFFFFFFFFFFFFFFF =
        (true, P.Error Loc "too few operands for instruction")) := by
  have hFew : ∀ E : Nat, E ≠ 0xFFFFFFFF → Operands.length ≤ E →
      invalidOperand P Loc Operands E =
        (true, P.Error Loc "too few operands for instruction") := by
    intro E h1 h2
    unfold invalidOperand
    simp only [ne_eq, h1, not_false_eq_true, if_true]
    rw [dif_pos h2]
  have hAt : ∀ h : ErrorInfo < Operands.length, ErrorInfo ≠ 0xFFFFFFFF →
      invalidOperand P Loc Operands ErrorInfo =
        (true, P.Error (Operands.get ⟨ErrorInfo, h⟩).getStartLoc
          "invalid operand for instruction") := by
    intro h h1
    unfold invalidOperand
    simp only [ne_eq, h1, not_false_eq_true, if_true]
    rw [dif_neg (by omega)]
  have hAll : ErrorInfo = 0xFFFFFFFF →
      invalidOperand P Loc Operands ErrorInfo =
        (true, P.Error Loc "invalid operand for instruction") := by
    intro h1
    unfold invalidOperand
    simp only [ne_eq, h1, not_true_eq_false, if_false]
  refine ⟨?_, ?_, hFew ErrorInfo, hAt, hAll, hFew 0xFFFFFFFFFFFFFFFF (by decide)⟩
  · by_cases h1 : ErrorInfo = 0xFFFFFFFF
    · rw [hAll h1]
    · by_cases h2 : Operands.length ≤ ErrorInfo
      · rw [hFew ErrorInfo h1 h2]
      · rw [hAt (by omega) h1]
  · by_cases h1 : ErrorInfo = 0xFFFFFFFF
    · rw [hAll h1]
      refine ⟨Loc, "invalid operand for instruction", rfl, rfl, Or.inr rfl, ?_⟩
      constructor
      · intro h
        exact absurd h (by decide)
      · rintro ⟨h, _⟩
        exact absurd h1 h
    · by_cases h2 : Operands.length ≤ ErrorInfo
      · rw [hFew ErrorInfo h1 h2]
        exact ⟨Loc, "too few operands for instruction", rfl, rfl, Or.inl rfl,
          fun _ => ⟨h1, h2⟩, fun _ => rfl⟩
      · rw [hAt (by omega) h1]
        refine ⟨(Operands.get ⟨ErrorInfo, by omega⟩).getStartLoc,
          "invalid operand for instruction", rfl, rfl, Or.inr rfl, ?_⟩
        constructor
        · intro h
          exact absurd h (by decide)
        · rintro ⟨_, h⟩
          exact absurd h h2

/-! ## The linker driver: zero-page budget -/

/-- Subtraction of `unsigned` values does not wrap when the amount is at most
the budget. -/
theorem subUnsigned_of_le (A B : Nat) (hA : A < 2 ^ 32) (hB : B ≤ A) :
    subUnsigned A B = A - B := by
  unfold subUnsigned
  rw [Int.emod_eq_of_lt (by omega) (by omega)]
  omega

/-- One pass of the loop over the values of `-mreserve-zp=`. -/
theorem reserveZPLoop_step (getAsInteger : String → Option Nat) (Val : String)
    (Rest : List String) (ZPBytes : Nat) (Diags : List DriverDiag) (hZ : ZPBytes < 2 ^ 32) :
    reserveZPLoop getAsInteger (Val :: Rest) ZPBytes Diags =
      if Val = "" then reserveZPLoop getAsInteger Rest ZPBytes Diags
      else
        match getAsInteger Val with
        | none =>
          reserveZPLoop getAsInteger Rest ZPBytes (Diags ++ [DriverDiag.err_drv_invalid_zp Val])
        | some Amt =>
          if Amt ≤ ZPBytes then reserveZPLoop getAsInteger Rest (ZPBytes - Amt) Diags
          else reserveZPLoop getAsInteger Rest ZPBytes
            (Diags ++ [DriverDiag.err_drv_too_much_zp_reserved Val]) := by
  rw [reserveZPLoop]
  by_cases hE : Val = ""
  · rw [if_pos hE, if_pos hE]
  · rw [if_neg hE, if_neg hE]
    cases hG : getAsInteger Val with
    | none => rfl
    | some Amt =>
      simp only []
      by_cases hLe : Amt ≤ ZPBytes
      · rw [if_neg (by omega), if_pos hLe, subUnsigned_of_le ZPBytes Amt hZ hLe]
      · rw [if_pos (by omega), if_neg hLe]

/-- The budget after the loop and the accepted amounts add up to the budget
before it. -/
theorem reserveZPLoop_budget (getAsInteger : String → Option Nat) (ReserveZP : List String)
    (ZPBytes : Nat) (Diags : List DriverDiag) (hZ : ZPBytes < 2 ^ 32) :
    (reserveZPLoop getAsInteger ReserveZP ZPBytes Diags).1 +
      (acceptedAmounts getAsInteger ReserveZP ZPBytes).sum = ZPBytes := by
  induction ReserveZP generalizing ZPBytes Diags with
  | nil => simp [reserveZPLoop, acceptedAmounts]
  | cons Val Rest ih =>
    rw [reserveZPLoop_step getAsInteger Val Rest ZPBytes Diags hZ, acceptedAmounts]
    by_cases hE : Val = ""
    · rw [if_pos hE, if_pos hE]
      exact ih ZPBytes Diags hZ
    · rw [if_neg hE, if_neg hE]
      cases hG : getAsInteger Val with
      | none => exact ih ZPBytes _ hZ
      | some Amt =>
        simp only []
        by_cases hLe : Amt ≤ ZPBytes
        · rw [if_pos hLe, if_pos hLe, List.sum_cons]
          have h := ih (ZPBytes - Amt) Diags (by omega)
          omega
        · rw [if_neg hLe, if_neg hLe]
          exact ih ZPBytes _ hZ

/-- The budget read from `-mlto-zp=` fits an `unsigned`. -/
theorem initialZP_fits (getAsInteger : String → Option Nat) (hFits : FitsUnsigned getAsInteger)
    (LTOZP : String) : (initialZP getAsInteger LTOZP).1 < 2 ^ 32 := by
  unfold initialZP
  by_cases hE : LTOZP = ""
  · rw [if_neg (by simpa using hE)]
    decide
  · rw [if_pos hE]
    cases hG : getAsInteger LTOZP with
    | none => exact Nat.two_pow_pos 32
    | some Value => exact hFits LTOZP Value hG

/-- The sample `getAsInteger` hands out numbers that fit an `unsigned`. -/
theorem Sample_getAsInteger_fits : FitsUnsigned Sample.getAsInteger := by
  intro Val Amt h
  unfold Sample.getAsInteger at h
  split_ifs at h <;> simp at h <;> omega

/-- C30: in `AddLTOOptions` the zero-page budget starts from the value of
`-mlto-zp=`, or from 0 when the option is absent or no number; one pass of the
loop over the values of `-mreserve-zp=` skips an empty value, reports a value
that is no number, takes an amount that is at most the budget off it without
wrapping, and reports a larger amount, the budget staying as it was in all
cases but the accepted one. So the final budget plus the accepted amounts is
the start value, the final budget is at most the start value, and `-mllvm`
and `-zp-avail=<budget>` are appended exactly when the final budget is not
zero. -/
theorem AddLTOOptions_zp_budget (getAsInteger : String → Option Nat)
    (addLTOOptions addMOSCodeGenArgs : List String → List String)
    (LTOZP : String) (ReserveZP : List String) (CmdArgs : List String)
    (hFits : FitsUnsigned getAsInteger) :
    ((LTOZP = "" ∨ getAsInteger LTOZP = none) → (initialZP getAsInteger LTOZP).1 = 0) ∧
    (∀ Value, LTOZP ≠ "" → getAsInteger LTOZP = some Value →
      (initialZP getAsInteger LTOZP).1 = Value) ∧
    (∀ (Val : String) (Rest : List String) (ZPBytes : Nat) (Diags : List DriverDiag),
      ZPBytes < 2 ^ 32 →
      reserveZPLoop getAsInteger (Val :: Rest) ZPBytes Diags =
        if Val = "" then reserveZPLoop getAsInteger Rest ZPBytes Diags
        else
          match getAsInteger Val with
          | none =>
            reserveZPLoop getAsInteger Rest ZPBytes
              (Diags ++ [DriverDiag.err_drv_invalid_zp Val])
          | some Amt =>
            if Amt ≤ ZPBytes then reserveZPLoop getAsInteger Rest (ZPBytes - Amt) Diags
            else reserveZPLoop getAsInteger Rest ZPBytes
              (Diags ++ [DriverDiag.err_drv_too_much_zp_reserved Val])) ∧
    (reserveZPLoop getAsInteger ReserveZP (initialZP getAsInteger LTOZP).1
        (initialZP getAsInteger LTOZP).2).1 +
      (acceptedAmounts getAsInteger ReserveZP (initialZP getAsInteger LTOZP).1).sum =
        (initialZP getAsInteger LTOZP).1 ∧
    (reserveZPLoop getAsInteger ReserveZP (initialZP getAsInteger LTOZP).1
        (initialZP getAsInteger LTOZP).2).1 ≤ (initialZP getAsInteger LTOZP).1 ∧
    ((reserveZPLoop getAsInteger ReserveZP (initialZP getAsInteger LTOZP).1
        (initialZP getAsInteger LTOZP).2).1 ≠ 0 →
      (AddLTOOptions getAsInteger addLTOOptions addMOSCodeGenArgs LTOZP ReserveZP CmdArgs).1 =
        addMOSCodeGenArgs (addLTOOptions CmdArgs) ++
          ["-mllvm", "-zp-avail=" ++ utostr (reserveZPLoop getAsInteger ReserveZP
            (initialZP getAsInteger LTOZP).1 (initialZP getAsInteger LTOZP).2).1 false]) ∧
    ((reserveZPLoop getAsInteger ReserveZP (initialZP getAsInteger LTOZP).1
        (initialZP getAsInteger LTOZP).2).1 = 0 →
      (AddLTOOptions getAsInteger addLTOOptions addMOSCodeGenArgs LTOZP ReserveZP CmdArgs).1 =
        addMOSCodeGenArgs (addLTOOptions CmdArgs)) := by
  have hStart := initialZP_fits getAsInteger hFits LTOZP
  have hSum := reserveZPLoop_budget getAsInteger ReserveZP (initialZP getAsInteger LTOZP).1
    (initialZP getAsInteger LTOZP).2 hStart
  refine ⟨?_, ?_, ?_, hSum, by omega, ?_, ?_⟩
  · intro h
    unfold initialZP
    by_cases hE : LTOZP = ""
    · rw [if_neg (by simpa using hE)]
    · rw [if_pos hE]
      rcases h with h | h
      · exact absurd h hE
      · rw [h]
  · intro Value hE hG
    unfold initialZP
    rw [if_pos hE, hG]
  · intro Val Rest ZPBytes Diags hZ
    exact reserveZPLoop_step getAsInteger Val Rest ZPBytes Diags hZ
  · intro h
    unfold AddLTOOptions
    simp only []
    rw [if_pos h]
  · intro h
    unfold AddLTOOptions
    simp only []
    rw [if_neg (by simpa using h)]

/-- C30, at `-mlto-zp=256` with the reservations 16, empty, `abc`, 200, 100
and 8: the amounts 16, 200 and 8 are accepted and 32 bytes are left. -/
theorem AddLTOOptions_zp_budget_witness :
    FitsUnsigned Sample.getAsInteger ∧
    (reserveZPLoop Sample.getAsInteger ["16", "", "abc", "200", "100", "8"]
        (initialZP Sample.getAsInteger "256").1 (initialZP Sample.getAsInteger "256").2).1 +
      (acceptedAmounts Sample.getAsInteger ["16", "", "abc", "200", "100", "8"]
        (initialZP Sample.getAsInteger "256").1).sum =
        (initialZP Sample.getAsInteger "256").1 ∧
    AddLTOOptions Sample.getAsInteger id id "256" ["16", "", "abc", "200", "100", "8"] ["-x"] =
      (["-x", "-mllvm", "-zp-avail=32"],
        [DriverDiag.err_drv_invalid_zp "abc", DriverDiag.err_drv_too_much_zp_reserved "100"]) :=
  ⟨Sample_getAsInteger_fits,
    (AddLTOOptions_zp_budget Sample.getAsInteger id id "256"
      ["16", "", "abc", "200", "100", "8"] ["-x"] Sample_getAsInteger_fits).2.2.2.1,
    by decide⟩

end MOS
